import Mathlib

/-!
# matchbox window manager core (`src/wm.c`)

A shallow embedding of the client registry, the client classifier and the
activation protocol of `wm.c`, followed by theorems about them.

Conventions of the embedding:

* a `Client *` is an address into the client heap `Wm.clients`; `NULL` is
  `none`.  Dereferencing an address outside the heap is undefined in C and
  makes the embedded function return `none`;
* requests sent to the window server and calls of capability methods and
  collaborators whose bodies live in other files are appended to the log
  `Wm.calls`, in program order;
* constants declared in headers (`structs.h`) are fields of `Defs`.
-/

namespace Matchbox

/-! ## Data model -/

/-- An X window handle; `0` is `None`. -/
abbrev Window := Nat

/-- An X atom. -/
abbrev Atom := Nat

/-- The address of a `Client` in the heap. -/
abbrev ClientPtr := Nat

/-- The client variant tag `c->type`. -/
inductive MBClientType where
  | MBCLIENT_TYPE_APP
  | MBCLIENT_TYPE_DIALOG
  | MBCLIENT_TYPE_TOOLBAR
  | MBCLIENT_TYPE_PANEL
  | MBCLIENT_TYPE_DESKTOP
  | MBCLIENT_TYPE_OVERRIDE
  | MBCLIENT_TYPE_TASK_MENU
  deriving DecidableEq, Repr

export MBClientType (MBCLIENT_TYPE_APP MBCLIENT_TYPE_DIALOG MBCLIENT_TYPE_TOOLBAR
  MBCLIENT_TYPE_PANEL MBCLIENT_TYPE_DESKTOP MBCLIENT_TYPE_OVERRIDE MBCLIENT_TYPE_TASK_MENU)

/-- The fields of `struct _client` that `wm.c` reads or writes in the embedded functions. -/
structure Client where
  type : MBClientType
  window : Window
  frame : Window
  title_frame : Window
  x : Int
  y : Int
  width : Int
  height : Int
  flags : Nat
  mapped : Bool
  want_shadow : Bool
  trans : Option ClientPtr
  next : Option ClientPtr
  prev : Option ClientPtr
  startup_id : Option String := none
  ignore_unmap : Int := 0
  deriving DecidableEq, Repr

/-- The second argument of `wm_find_client`. -/
inductive FindMode where
  | WINDOW
  | FRAME
  deriving DecidableEq, Repr

export FindMode (WINDOW FRAME)

/-- One entry of the message window queue (`MsgWinQueue`); the list order is the `next` chain. -/
structure MsgWinQueue where
  win : Window
  timeout : Int
  deriving DecidableEq, Repr

/-- One startup cycle (`SnCycle`); `xid = 0` (`None`) means still launching.
The list order is the `next` chain. -/
structure SnCycle where
  bin_name : String
  xid : Window
  deriving DecidableEq, Repr

/-- The entries of `w->atoms[]` used by the classifier. -/
structure Atoms where
  WINDOW_TYPE_DOCK : Atom
  WINDOW_TYPE_TOOLBAR : Atom
  WINDOW_TYPE_INPUT : Atom
  WINDOW_TYPE_DESKTOP : Atom
  WINDOW_TYPE_SPLASH : Atom
  WINDOW_TYPE_DIALOG : Atom
  WINDOW_TYPE_MESSAGE : Atom
  WINDOW_TYPE_MESSAGE_STATIC_0 : Atom
  WINDOW_TYPE_MESSAGE_STATIC_1 : Atom
  deriving DecidableEq, Repr

/-- Constants and build switches that `wm.c` takes from headers which are not
part of the embedded file: the flag masks of `structs.h` and the preprocessor
switches `USE_MSG_WIN`, `STANDALONE`, `USE_LIBSN`, `USE_GCONF`, `NO_PING` and
`USE_COMPOSITE`. -/
structure Defs where
  DESKTOP_RAISED_FLAG : Nat
  CLIENT_FULLSCREEN_FLAG : Nat
  CLIENT_TITLE_HIDDEN_FLAG : Nat
  CLIENT_IS_MESSAGE_DIALOG : Nat
  CLIENT_IS_MESSAGE_DIALOG_HI : Nat
  CLIENT_IS_MESSAGE_DIALOG_LO : Nat
  CLIENT_DOCK_TITLEBAR_SHOW_ON_DESKTOP : Nat
  CLIENT_DOCK_NORTH : Nat
  CLIENT_DOCK_SOUTH : Nat
  CLIENT_DOCK_EAST : Nat
  CLIENT_DOCK_WEST : Nat
  CLIENT_DOCK_TITLEBAR : Nat
  USE_MSG_WIN : Bool
  STANDALONE : Bool
  CLIENT_IS_MINIMIZED : Nat := 1
  USE_LIBSN : Bool := true
  USE_GCONF : Bool := true
  NO_PING : Bool := false
  USE_COMPOSITE : Bool := false
  deriving DecidableEq, Repr

/-- The part of `w->config` read by the embedded functions. -/
structure Config where
  force_dialogs : Option String
  no_cursor : Bool
  use_icons : Bool
  awt_workaround : Bool := false
  deriving DecidableEq, Repr

/-- The requests and collaborator calls of the event handlers and of the event
loop; they are logged as `Call.more`. -/
inductive MoreCall where
  | XConfigureWindow (win : Window) (value_mask : Nat) (x y width height : Int)
  | XUnmapWindow (win : Window)
  | XReparentWindow (win : Window) (x y : Int)
  | client_set_state_withdrawn (c : ClientPtr)
  | redraw (c : ClientPtr)
  | comp_engine_client_repair (c : ClientPtr)
  | comp_engine_client_hide (c : ClientPtr)
  | comp_engine_client_configure (c : ClientPtr)
  | comp_engine_destroy_root_buffer
  | comp_engine_render
  | dialog_client_configure (c : ClientPtr)
  | dockbar_client_configure (c : ClientPtr)
  | dialog_client_move_resize (c : ClientPtr)
  | ewmh_hung_app_check
  | g_main_context_iteration
  deriving DecidableEq, Repr

/-- A request sent to the window server, or a call of a capability method or
of a collaborator defined in another file.  Pure queries are not logged. -/
inductive Call where
  | XGrabServer
  | XUngrabServer
  | XFlush
  | XSync
  | client_new (type : MBClientType) (win : Window) (trans : Option ClientPtr)
  | show (c : ClientPtr)
  | configure (c : ClientPtr)
  | reparent (c : ClientPtr)
  | move_resize (c : ClientPtr)
  | comp_engine_client_init (c : ClientPtr)
  | comp_engine_client_show (c : ClientPtr)
  | stack_move_type_above_client (types : List MBClientType) (c : ClientPtr)
  | stack_move_type_below_client (types : List MBClientType) (c : ClientPtr)
  | stack_move_top (c : ClientPtr)
  | stack_move_transients_to_top (c : Option ClientPtr)
  | stack_move_below_client (c : ClientPtr) (below : Option ClientPtr)
  | ewmh_update
  | ewmh_set_active
  | stack_sync_to_display
  | XChangeProperty_NET_WM_DESKTOP (win : Window)
  | ewmh_set_allowed_actions (c : ClientPtr)
  | XDefineCursor (win : Window)
  | XGrabButton (win : Window)
  | ewmh_state_set (c : ClientPtr)
  | client_set_state (c : ClientPtr)
  | client_deliver_config (c : ClientPtr)
  | theme_img_cache_clear
  | client_buttons_delete_all (c : ClientPtr)
  | main_client_redraw (c : ClientPtr)
  | dialog_check_geometry (c : ClientPtr) (x y width height : Int)
  | ewmh_update_rects
  | destroy (c : ClientPtr)
  | ewmh_update_lists
  | XDeleteProperty_STARTUP_LIST
  | XChangeProperty_STARTUP_LIST (value : String)
  | XDefineCursor_root (busy : Bool)
  | more (e : MoreCall)
  deriving DecidableEq, Repr

/-- The process-wide context `Wm`. -/
structure Wm where
  clients : List Client := []
  head_client : Option ClientPtr := none
  main_client : Option ClientPtr := none
  focused_client : Option ClientPtr := none
  stack_top_app : Option ClientPtr := none
  client_desktop : Option ClientPtr := none
  have_titlebar_panel : Option ClientPtr := none
  flags : Nat := 0
  msg_win_queue_head : List MsgWinQueue := []
  mbtheme_has_titlebar_panel : Bool := false
  config : Config := { force_dialogs := none, no_cursor := false, use_icons := false }
  atoms : Atoms := { WINDOW_TYPE_DOCK := 1, WINDOW_TYPE_TOOLBAR := 2, WINDOW_TYPE_INPUT := 3,
                     WINDOW_TYPE_DESKTOP := 4, WINDOW_TYPE_SPLASH := 5, WINDOW_TYPE_DIALOG := 6,
                     WINDOW_TYPE_MESSAGE := 7, WINDOW_TYPE_MESSAGE_STATIC_0 := 8,
                     WINDOW_TYPE_MESSAGE_STATIC_1 := 9 }
  sn_cycles : List SnCycle := []
  sn_busy_cnt : Int := 0
  n_active_ping_clients : Int := 0
  gconf_client : Bool := false
  root : Window := 0
  dpy_width : Int := 0
  dpy_height : Int := 0
  calls : List Call := []
  deriving DecidableEq, Repr

/-- Append one call to the log. -/
def Wm.log (w : Wm) (e : Call) : Wm := { w with calls := w.calls ++ [e] }

/-- Append several calls to the log. -/
def Wm.logs (w : Wm) (es : List Call) : Wm := { w with calls := w.calls ++ es }

/-- The assignment `w->flags = f`. -/
def Wm.set_flags (w : Wm) (f : Nat) : Wm := { w with flags := f }

/-- The assignment `w->stack_top_app = p`. -/
def Wm.set_stack_top_app (w : Wm) (p : Option ClientPtr) : Wm := { w with stack_top_app := p }

/-- Replace the client heap. -/
def Wm.set_clients (w : Wm) (cs : List Client) : Wm := { w with clients := cs }

/-- The client stored at an address (`*p`), if the address is in the heap. -/
def Wm.client? (w : Wm) (p : ClientPtr) : Option Client := w.clients[p]?

/-- Read `p->next`. -/
def nextOf (cs : List Client) (p : ClientPtr) : Option ClientPtr := cs[p]?.bind (fun c => c.next)

/-- Read `p->prev`. -/
def prevOf (cs : List Client) (p : ClientPtr) : Option ClientPtr := cs[p]?.bind (fun c => c.prev)

/-! ## Registry ring -/

/-- Follow `next` from `c` until the walk is back at `head`. -/
def ring_walk (cs : List Client) (head : ClientPtr) : Nat → ClientPtr → List ClientPtr
  | 0, _ => []
  | fuel + 1, c =>
    match cs[c]? with
    | none => []
    | some cl =>
      c :: (match cl.next with
            | none => []
            | some n => if n = head then [] else ring_walk cs head fuel n)

/-- Modelled from the spec: the `stack_enumerate(w, c)` macro is declared in a
header that is not part of `wm.c`.  Following the registry's `forEach`
(`stable traversal starting at the anchor`), it visits every client of the
ring once, starting at `w->head_client` and following `next`.  A ring inside a
heap of `n` cells has at most `n` clients, which bounds the walk. -/
def stack_enumerate (w : Wm) : List ClientPtr :=
  match w.head_client with
  | none => []
  | some hd => ring_walk w.clients hd w.clients.length hd

/-- Embeds `wm_find_client`. -/
def wm_find_client (w : Wm) (win : Window) (mode : FindMode) : Option ClientPtr :=
  if w.head_client = none then none
  else
    match mode with
    | FRAME =>
      (stack_enumerate w).find? (fun c =>
        match w.client? c with
        | some cl => cl.frame == win || cl.title_frame == win
        | none => false)
    | WINDOW =>
      (stack_enumerate w).find? (fun c =>
        match w.client? c with
        | some cl => cl.window == win
        | none => false)

/-- Write through a pointer: `*p = f (*p)`.  Undefined when `p` is not in the heap. -/
def heap_modify (cs : List Client) (p : ClientPtr) (f : Client → Client) : Option (List Client) :=
  match cs[p]? with
  | none => none
  | some c => some (cs.set p (f c))

/-- The assignment `p->next = v`. -/
def set_next (cs : List Client) (p : ClientPtr) (v : Option ClientPtr) : Option (List Client) :=
  heap_modify cs p (fun c => { c with next := v })

/-- The assignment `p->prev = v`. -/
def set_prev (cs : List Client) (p : ClientPtr) (v : Option ClientPtr) : Option (List Client) :=
  heap_modify cs p (fun c => { c with prev := v })

/-- The circular-list insertion of `wm_handle_map_notify` (lines 627-645):
link the client at `new_client` after `w->main_client` if there is one, else
after `w->head_client`; an empty list makes it the head, linked to itself. -/
def ring_insert (w : Wm) (new_client : ClientPtr) : Option Wm :=
  match w.head_client with
  | none => do
    let cs1 ← set_next w.clients new_client (some new_client)
    let cs2 ← set_prev cs1 new_client (some new_client)
    some { w with clients := cs2, head_client := some new_client }
  | some hd => do
    let anchor := match w.main_client with
      | some m => m
      | none => hd
    -- new_client->prev = anchor; new_client->next = anchor->next;
    let cs1 ← set_prev w.clients new_client (some anchor)
    let ac ← cs1[anchor]?
    let cs2 ← set_next cs1 new_client ac.next
    -- new_client->prev->next = new_client;
    let p ← prevOf cs2 new_client
    let cs3 ← set_next cs2 p (some new_client)
    -- new_client->next->prev = new_client;
    let n ← nextOf cs3 new_client
    let cs4 ← set_prev cs3 n (some new_client)
    some { w with clients := cs4 }

/-- The fields of `XWindowAttributes` read by `wm_handle_map_notify`. -/
structure XWindowAttributes where
  x : Int
  y : Int
  width : Int
  height : Int
  override_redirect : Bool
  deriving DecidableEq, Repr

/-- Embeds `wm_handle_map_notify` (built with `USE_COMPOSITE`).  `attr` is what
`XGetWindowAttributes` delivers, `none` when the trapped request raised an X
error.  `malloc` returns the first address past the heap. -/
def wm_handle_map_notify (w : Wm) (win : Window) (attr : Option XWindowAttributes) : Option Wm :=
  if (wm_find_client w win WINDOW).isSome then some w
  else if (wm_find_client w win FRAME).isSome then some w
  else
    match attr with
    | none => some w
    | some attr =>
      if attr.override_redirect then
        let new_client : ClientPtr := w.clients.length
        let nc : Client :=
          { type := MBCLIENT_TYPE_OVERRIDE, window := win, frame := win, title_frame := 0,
            x := attr.x, y := attr.y, width := attr.width, height := attr.height,
            flags := 0, mapped := true, want_shadow := true,
            trans := none, next := none, prev := none }
        match ring_insert { w with clients := w.clients ++ [nc] } new_client with
        | none => none
        | some w1 =>
          some ((w1.log (Call.comp_engine_client_init new_client)).log
            (Call.comp_engine_client_show new_client))
      else some w

/-! ## Registry invariant -/

/-- The link between ring neighbours: `a->next == b` and `b->prev == a`. -/
def link (cs : List Client) (a b : ClientPtr) : Prop :=
  nextOf cs a = some b ∧ prevOf cs b = some a

instance (cs : List Client) : DecidableRel (link cs) :=
  fun _ _ => inferInstanceAs (Decidable (_ ∧ _))

/-- The registry invariant: `ring` lists the clients once each in `next`
order starting at the anchor, every client is linked to its successor, the
last one to the first; the anchor is `NULL` exactly for the empty ring. -/
def IsRing (cs : List Client) (head : Option ClientPtr) (ring : List ClientPtr) : Prop :=
  ring.Nodup ∧ head = ring.head? ∧ List.Chain' (link cs) (ring ++ ring.head?.toList)

/-- A well-formed registry: the ring invariant, and `w->main_client`, when
set, points to a client of the ring. -/
def Wm.WF (w : Wm) (ring : List ClientPtr) : Prop :=
  IsRing w.clients w.head_client ring ∧ ∀ m, w.main_client = some m → m ∈ ring


/-- A client with its ring links erased: everything `ring_insert` leaves alone. -/
def Client.unlinked (c : Client) : Client := { c with next := none, prev := none }

/-- A sample client record for concrete registries. -/
def sample_client (t : MBClientType) (win frame title : Window) (nx pv : ClientPtr) : Client :=
  { type := t, window := win, frame := frame, title_frame := title,
    x := 0, y := 0, width := 100, height := 50, flags := 0, mapped := true,
    want_shadow := false, trans := none, next := some nx, prev := some pv }

/-- A sample registry: an Application (window 10, frame 11, title frame 12) and
a Panel (window 20, frame 21, title frame 0) in one ring anchored at the Application. -/
def sample_wm : Wm :=
  { clients := [sample_client MBCLIENT_TYPE_APP 10 11 12 1 1,
                sample_client MBCLIENT_TYPE_PANEL 20 21 0 0 0],
    head_client := some 0, main_client := some 0 }

/-- The attributes of a sample override-redirect window. -/
def sample_attr : XWindowAttributes :=
  { x := 5, y := 6, width := 30, height := 40, override_redirect := true }

/-! ## Activation protocol -/

/-- C's logical negation `!x` of a word. -/
def c_not (x : Nat) : Nat := if x = 0 then 1 else 0

/-- C's `a & ~b`: the word `a` with every bit of the mask `b` cleared. -/
def and_not (a b : Nat) : Nat := a ^^^ (a &&& b)

/-- Embeds `wm_get_desktop`. -/
def wm_get_desktop (w : Wm) : Option ClientPtr := w.client_desktop

/-- Embeds `wm_get_visible_main_client`. -/
def wm_get_visible_main_client (K : Defs) (w : Wm) : Option ClientPtr :=
  if w.flags &&& K.DESKTOP_RAISED_FLAG ≠ 0 then wm_get_desktop w
  else
    match w.stack_top_app with
    | some a => some a
    | none => none

/-- Follow `trans` links from `p`; true when the chain reaches `target`. -/
def trans_reaches (cs : List Client) (target : ClientPtr) : Nat → ClientPtr → Bool
  | 0, _ => false
  | fuel + 1, p =>
    match cs[p]?.bind (fun c => c.trans) with
    | none => false
    | some t => t == target || trans_reaches cs target fuel t

/-- Modelled from the spec: `client_get_transient_list` is defined in another
file.  It gathers the target's transient chain: `all Dialogs whose
transient_for resolves, directly or indirectly, to the target`, here in
registry order. -/
def client_get_transient_list (w : Wm) (c : ClientPtr) : List ClientPtr :=
  (stack_enumerate w).filter (fun p =>
    match w.client? p with
    | some cl => cl.type == MBCLIENT_TYPE_DIALOG && trans_reaches w.clients c w.clients.length p
    | none => false)

/-- Lines 2091-2094 of `wm_activate_client`: raise the Panels above the target
unless it is fullscreen, then raise the Toolbars above it. -/
def raise_panels (K : Defs) (w : Wm) (c : ClientPtr) (cl : Client) : Wm :=
  let w1 := if cl.flags &&& K.CLIENT_FULLSCREEN_FLAG = 0
    then w.log (Call.stack_move_type_above_client [MBCLIENT_TYPE_PANEL] c) else w
  w1.log (Call.stack_move_type_above_client [MBCLIENT_TYPE_TOOLBAR] c)

/-- Lines 2098-2116 of `wm_activate_client`: move the target's transient
dialogs to the top, then the dialogs that are transient for root. -/
def raise_transients (w : Wm) (c : ClientPtr) : Wm :=
  ((client_get_transient_list w c).foldl (fun v t => v.log (Call.stack_move_top t)) w).log
    (Call.stack_move_transients_to_top none)

/-- Lines 2130-2135 of `wm_activate_client`: push a titlebar panel that must
not show on the desktop below the activated Desktop client `c`. -/
def hide_titlebar_panel (K : Defs) (w : Wm) (c : ClientPtr) : Option Wm :=
  match w.have_titlebar_panel with
  | none => some w
  | some tp =>
    if w.mbtheme_has_titlebar_panel then
      match w.client? tp with
      | none => none
      | some tcl =>
        if tcl.flags &&& K.CLIENT_DOCK_TITLEBAR_SHOW_ON_DESKTOP = 0
        then some (w.log (Call.stack_move_below_client tp (some c)))
        else some w
    else some w

/-- Lines 2138-2148 of `wm_activate_client`, the Dialog branch.  The test is
`!w->flags & DESKTOP_RAISED_FLAG`, which C parses as `(!w->flags) & DESKTOP_RAISED_FLAG`. -/
def activate_dialog (K : Defs) (w : Wm) (c : ClientPtr) (cl : Client) : Wm :=
  if c_not w.flags &&& K.DESKTOP_RAISED_FLAG ≠ 0 then
    let anchor := match cl.trans with
      | some t => t
      | none =>
        match wm_get_visible_main_client K w with
        | some v => v
        | none => c
    w.log (Call.stack_move_type_below_client [MBCLIENT_TYPE_TOOLBAR, MBCLIENT_TYPE_PANEL] anchor)
  else w

/-- Lines 2149-2160 of `wm_activate_client`, the Panel branch. -/
def activate_panel (K : Defs) (w : Wm) (c : ClientPtr) (cl : Client) : Wm :=
  if some c = w.have_titlebar_panel ∧ w.flags &&& K.DESKTOP_RAISED_FLAG ≠ 0
      ∧ w.mbtheme_has_titlebar_panel = true
      ∧ cl.flags &&& K.CLIENT_DOCK_TITLEBAR_SHOW_ON_DESKTOP = 0
  then w.log (Call.stack_move_below_client c w.client_desktop)
  else w

/-- The statements of `wm_activate_client` between `c->show(c)` and
`ewmh_update` (lines 2079-2160), for the target `c` whose record is `cl`. -/
def activate_by_type (K : Defs) (w : Wm) (c : ClientPtr) (cl : Client) : Option Wm :=
  if cl.type = MBCLIENT_TYPE_APP ∨ cl.type = MBCLIENT_TYPE_DESKTOP then
    let w4 := raise_transients (raise_panels K w c cl) c
    if cl.type ≠ MBCLIENT_TYPE_DESKTOP then
      some ((w4.set_flags (and_not w4.flags K.DESKTOP_RAISED_FLAG)).set_stack_top_app (some c))
    else
      hide_titlebar_panel K (w4.set_flags (w4.flags ||| K.DESKTOP_RAISED_FLAG)) c
  else if cl.type = MBCLIENT_TYPE_DIALOG then some (activate_dialog K w c cl)
  else if cl.type = MBCLIENT_TYPE_PANEL then some (activate_panel K w c cl)
  else some w

/-- Embeds `wm_activate_client`.  The capability method `c->show` and the
stacking and EWMH helpers are defined in other files; they are logged. -/
def wm_activate_client (K : Defs) (w : Wm) (c : Option ClientPtr) : Option Wm :=
  match c with
  | none => some w
  | some c =>
    match w.client? c with
    | none => none
    | some cl =>
      let w1 := (w.log Call.XGrabServer).log (Call.show c)
      match activate_by_type K w1 c cl with
      | none => none
      | some w2 =>
        some (((((w2.log Call.ewmh_update).log Call.ewmh_set_active).log
          Call.stack_sync_to_display).log Call.XSync).log Call.XUngrabServer)

/-- A sample table of header constants. -/
def sample_defs : Defs :=
  { DESKTOP_RAISED_FLAG := 8, CLIENT_FULLSCREEN_FLAG := 2, CLIENT_TITLE_HIDDEN_FLAG := 4,
    CLIENT_IS_MESSAGE_DIALOG := 16, CLIENT_IS_MESSAGE_DIALOG_HI := 32,
    CLIENT_IS_MESSAGE_DIALOG_LO := 64, CLIENT_DOCK_TITLEBAR_SHOW_ON_DESKTOP := 128,
    CLIENT_DOCK_NORTH := 256, CLIENT_DOCK_SOUTH := 512, CLIENT_DOCK_EAST := 1024,
    CLIENT_DOCK_WEST := 2048, CLIENT_DOCK_TITLEBAR := 4096,
    USE_MSG_WIN := true, STANDALONE := false }

/-- A sample registry with a fullscreen Application (address 0), a Dialog owned
by nobody (address 1) and a Desktop (address 2). -/
def sample_wm2 : Wm :=
  { clients := [{ sample_client MBCLIENT_TYPE_APP 10 11 12 1 2 with flags := 2 },
                sample_client MBCLIENT_TYPE_DIALOG 20 21 22 2 0,
                sample_client MBCLIENT_TYPE_DESKTOP 30 30 0 0 1],
    head_client := some 0, main_client := some 0, client_desktop := some 2,
    stack_top_app := some 0 }

/-- The context with the fields written by the activation protocol blanked. -/
def Wm.erase (w : Wm) : Wm := { w with flags := 0, stack_top_app := none, calls := [] }

/-! ## Client classifier -/

/-- The predefined atom `XA_ATOM` of `Xatom.h`. -/
def XA_ATOM : Atom := 4

/-- What `XGetWindowProperty` delivers for the window type property when it
returns `Success`: the actual type, the format and the first item. -/
structure TypeProp where
  realType : Atom
  format : Nat
  value0 : Atom
  deriving DecidableEq, Repr

/-- The field of `XWMHints` read by the classifier. -/
structure XWMHints where
  window_group : Window
  deriving DecidableEq, Repr

/-- The snapshot of a window's protocol hints, and the outcome of the client
constructors for it.  `fetch_name` is the title when `XFetchName` succeeds;
`type_prop` is `none` when `XGetWindowProperty` does not return `Success`;
`mwm_flags` is the result of `mwm_get_decoration_flags`; `trans_win` is what
`XGetTransientForHint` stores (`0` without a hint); `wmhints` is the result of
`XGetWMHints`; `msg_timeout` is the message timeout property, if any;
`ctor n` is the outcome of the `n`-th constructor call made for the window:
`none` when no client could be built, else the record as the constructor
initialises it. -/
structure WinInfo where
  fetch_name : Option String
  type_prop : Option TypeProp
  mwm_flags : Nat
  trans_win : Window
  wmhints : Option XWMHints
  msg_timeout : Option Int
  ctor : Nat → Option Client

/-- Embeds `wm_win_force_dialog`; `strstr` finds the title as a substring of
the configured list. -/
def wm_win_force_dialog (w : Wm) (info : WinInfo) : Bool :=
  match w.config.force_dialogs with
  | none => false
  | some force_dialogs =>
    match info.fetch_name with
    | some win_title => decide (List.IsInfix win_title.data force_dialogs.data)
    | none => false

/-- Embeds `wm_msg_win_queue_add`; `timeout_prop` is the timeout property of the window. -/
def wm_msg_win_queue_add (w : Wm) (win : Window) (timeout_prop : Option Int) : Wm :=
  let timeout : Int := match timeout_prop with
    | none => -1
    | some d => d
  match w.msg_win_queue_head with
  | [] => { w with msg_win_queue_head := [{ win := win, timeout := timeout }] }
  | q => { w with msg_win_queue_head := q ++ [{ win := win, timeout := timeout }] }

/-- The local variables of `wm_make_new_client` that change as it runs: the
context, the client `c` built so far, and the count of constructor calls. -/
structure MkState where
  w : Wm
  c : Option ClientPtr
  n : Nat

/-- How a block of `wm_make_new_client` is left. -/
inductive Step where
  | cont (s : MkState)
  | goto_end (s : MkState)
  | ret (w : Wm)

/-- Modelled from the spec: the variant constructors (`main_client_new`,
`dialog_client_new`, `toolbar_client_new`, `dockbar_client_new`,
`desktop_client_new`) are defined in other files.  A constructor either
produces no client and leaves the registry as it was, or allocates a client
of its variant for the window, records the owner passed to it and inserts the
client into the registry (by the insertion of `wm_handle_map_notify`); the
remaining fields are what the constructor reads from the window server.  The
result is assigned to `c`. -/
def client_new (info : WinInfo) (s : MkState) (type : MBClientType) (win : Window)
    (trans : Option ClientPtr) : Option MkState :=
  let w := s.w.log (Call.client_new type win trans)
  match info.ctor s.n with
  | none => some { w := w, c := none, n := s.n + 1 }
  | some init =>
    let new_client : ClientPtr := w.clients.length
    let nc : Client := { init with type := type, window := win, trans := trans,
                                   next := none, prev := none }
    match ring_insert (w.set_clients (w.clients ++ [nc])) new_client with
    | none => none
    | some w1 => some { w := w1, c := some new_client, n := s.n + 1 }

/-- The constructor `main_client_new`. -/
def main_client_new (info : WinInfo) (s : MkState) (win : Window) : Option MkState :=
  client_new info s MBCLIENT_TYPE_APP win none

/-- The constructor `dialog_client_new`. -/
def dialog_client_new (info : WinInfo) (s : MkState) (win : Window)
    (trans : Option ClientPtr) : Option MkState :=
  client_new info s MBCLIENT_TYPE_DIALOG win trans

/-- The constructor `dockbar_client_new`. -/
def dockbar_client_new (info : WinInfo) (s : MkState) (win : Window) : Option MkState :=
  client_new info s MBCLIENT_TYPE_PANEL win none

/-- The constructor `toolbar_client_new`. -/
def toolbar_client_new (info : WinInfo) (s : MkState) (win : Window) : Option MkState :=
  client_new info s MBCLIENT_TYPE_TOOLBAR win none

/-- The constructor `desktop_client_new`. -/
def desktop_client_new (info : WinInfo) (s : MkState) (win : Window) : Option MkState :=
  client_new info s MBCLIENT_TYPE_DESKTOP win none

/-- The statement `c->flags ^= mask`. -/
def xor_flags (s : MkState) (c : ClientPtr) (mask : Nat) : Option MkState :=
  match heap_modify s.w.clients c (fun cl => { cl with flags := cl.flags ^^^ mask }) with
  | none => none
  | some cs => some { s with w := s.w.set_clients cs }

/-- The pattern `c = ..._client_new(...); if (c == NULL) goto end; c->flags ^= mask;`
(`mask = 0` where the source has no flag statement). -/
def built_or_end (r : Option MkState) (mask : Nat) : Option Step :=
  match r with
  | none => none
  | some s =>
    match s.c with
    | none => some (Step.goto_end s)
    | some c =>
      if mask = 0 then some (Step.cont s)
      else
        match xor_flags s c mask with
        | none => none
        | some s1 => some (Step.cont s1)

/-- Lines 1571-1675 of `wm_make_new_client`: the title filter and the window
type hint. -/
def classify_by_type (K : Defs) (info : WinInfo) (s : MkState) (win : Window) : Option Step :=
  if wm_win_force_dialog s.w info then
    built_or_end (dialog_client_new info s win none) 0
  else
    match info.type_prop with
    | none => some (Step.cont s)
    | some tp =>
      if tp.realType = XA_ATOM ∧ tp.format = 32 then
        if tp.value0 = s.w.atoms.WINDOW_TYPE_DOCK then
          built_or_end (dockbar_client_new info s win) 0
        else if tp.value0 = s.w.atoms.WINDOW_TYPE_TOOLBAR
            ∨ tp.value0 = s.w.atoms.WINDOW_TYPE_INPUT then
          built_or_end (toolbar_client_new info s win) 0
        else if tp.value0 = s.w.atoms.WINDOW_TYPE_DESKTOP then
          built_or_end (desktop_client_new info s win) 0
        else if tp.value0 = s.w.atoms.WINDOW_TYPE_SPLASH then
          built_or_end (dialog_client_new info s win none) K.CLIENT_TITLE_HIDDEN_FLAG
        else if tp.value0 = s.w.atoms.WINDOW_TYPE_DIALOG then
          built_or_end (dialog_client_new info s win none) 0
        else if K.USE_MSG_WIN = true ∧ tp.value0 = s.w.atoms.WINDOW_TYPE_MESSAGE then
          let w1 := if s.w.msg_win_queue_head = []
            then wm_msg_win_queue_add s.w win info.msg_timeout else s.w
          match w1.msg_win_queue_head with
          | [] => none
          | head :: _ =>
            if win = head.win then
              built_or_end (dialog_client_new info { s with w := w1 } win none)
                K.CLIENT_IS_MESSAGE_DIALOG
            else
              some (Step.ret ((wm_msg_win_queue_add w1 win info.msg_timeout).log
                Call.XUngrabServer))
        else if K.USE_MSG_WIN = true ∧ tp.value0 = s.w.atoms.WINDOW_TYPE_MESSAGE_STATIC_0 then
          built_or_end (dialog_client_new info s win none)
            (K.CLIENT_IS_MESSAGE_DIALOG ||| K.CLIENT_IS_MESSAGE_DIALOG_HI)
        else if K.USE_MSG_WIN = true ∧ tp.value0 = s.w.atoms.WINDOW_TYPE_MESSAGE_STATIC_1 then
          built_or_end (dialog_client_new info s win none)
            (K.CLIENT_IS_MESSAGE_DIALOG ||| K.CLIENT_IS_MESSAGE_DIALOG_LO)
        else some (Step.cont s)
      else some (Step.cont s)

/-- Lines 1677-1683 of `wm_make_new_client`: the decoration hints. -/
def apply_mwm (info : WinInfo) (s : MkState) (win : Window) : Option MkState :=
  if info.mwm_flags ≠ 0 then
    let r := match s.c with
      | none => dialog_client_new info s win none
      | some _ => some s
    match r with
    | none => none
    | some s1 =>
      match s1.c with
      | some c => xor_flags s1 c info.mwm_flags
      | none => some s1
  else some s

/-- Lines 1691-1706 of `wm_make_new_client`: the owner of a transient window,
the client of the hinted window or else the first client of its group leader. -/
def find_transient_owner (info : WinInfo) (w : Wm) : Option ClientPtr :=
  match wm_find_client w info.trans_win WINDOW with
  | some t => some t
  | none =>
    match info.wmhints with
    | none => none
    | some wmhints =>
      if wmhints.window_group ≠ 0 ∧ w.head_client ≠ none then
        (stack_enumerate w).find? (fun p =>
          match w.client? p with
          | some cl => wmhints.window_group == cl.window
          | none => false)
      else none

/-- Lines 1685-1713 of `wm_make_new_client`: the transient-for hint. -/
def apply_transient (info : WinInfo) (s : MkState) (win : Window) : Option MkState :=
  if info.trans_win ≠ 0 ∧ info.trans_win ≠ win then
    let t := find_transient_owner info s.w
    match s.c with
    | none => dialog_client_new info s win t
    | some c =>
      match s.w.client? c with
      | none => none
      | some cl =>
        if cl.type = MBCLIENT_TYPE_DIALOG then
          match heap_modify s.w.clients c (fun cl => { cl with trans := t }) with
          | none => none
          | some cs => some { s with w := s.w.set_clients cs }
        else some s
  else some s

/-- Lines 1715-1730 of `wm_make_new_client`: default to a main client. -/
def default_main (info : WinInfo) (s : MkState) (win : Window) : Option Step :=
  match s.c with
  | none => built_or_end (main_client_new info s win) 0
  | some _ => some (Step.cont s)

/-- Lines 1761-1796 of `wm_make_new_client`: set up and show the client `c`.
(The icon fields filled in at lines 1732-1759 are not part of the model.) -/
def setup_new_client (K : Defs) (w : Wm) (c : ClientPtr) : Option Wm :=
  match w.client? c with
  | none => none
  | some cl =>
    let w3 := w.logs
      ([Call.XChangeProperty_NET_WM_DESKTOP cl.window, Call.ewmh_set_allowed_actions c] ++
       (if w.config.no_cursor = true ∧ cl.type ≠ MBCLIENT_TYPE_PANEL
          then [Call.XDefineCursor cl.window] else []) ++
       [Call.configure c, Call.comp_engine_client_init c, Call.reparent c, Call.move_resize c])
    match wm_activate_client K w3 (some c) with
    | none => none
    | some w4 =>
      some (w4.logs [Call.XGrabButton cl.window, Call.ewmh_state_set c, Call.client_set_state c])

/-- The label `end:` of `wm_make_new_client`. -/
def make_new_client_end (w : Wm) (c : Option ClientPtr) : Wm × Option ClientPtr :=
  ((w.log Call.XUngrabServer).log Call.XFlush, c)

/-- Lines 1715-1815 of `wm_make_new_client`: the default constructor, the
set-up of the client and the exit through `end:`. -/
def make_new_client_finish (K : Defs) (info : WinInfo) (s : MkState) (win : Window) :
    Option (Wm × Option ClientPtr) :=
  match default_main info s win with
  | none => none
  | some (Step.ret w4) => some (w4, none)
  | some (Step.goto_end s4) => some (make_new_client_end s4.w s4.c)
  | some (Step.cont s4) =>
    match s4.c with
    | none => none
    | some c =>
      match setup_new_client K s4.w c with
      | none => none
      | some w5 => some (make_new_client_end w5 (some c))

/-- Lines 1677-1815 of `wm_make_new_client`: everything after the title filter
and the window type hint. -/
def make_new_client_tail (K : Defs) (info : WinInfo) (s : MkState) (win : Window) :
    Option (Wm × Option ClientPtr) :=
  match apply_mwm info s win with
  | none => none
  | some s2 =>
    match apply_transient info s2 win with
    | none => none
    | some s3 => make_new_client_finish K info s3 win

/-- Embeds `wm_make_new_client`: the final context and the returned client. -/
def wm_make_new_client (K : Defs) (info : WinInfo) (w : Wm) (win : Window) :
    Option (Wm × Option ClientPtr) :=
  match classify_by_type K info { w := w.log Call.XGrabServer, c := none, n := 0 } win with
  | none => none
  | some (Step.ret w1) => some (w1, none)
  | some (Step.goto_end s) => some (make_new_client_end s.w s.c)
  | some (Step.cont s1) => make_new_client_tail K info s1 win

/-- True for a constructor call. -/
def is_ctor (e : Call) : Bool :=
  match e with
  | Call.client_new _ _ _ => true
  | _ => false

/-- The constructor calls in a log, in order. -/
def ctor_calls (l : List Call) : List Call := l.filter is_ctor

/-- The calls in a log that set up or show a client: property stamping,
configure, reparent, move/resize and the activation's `show`. -/
def setup_calls (l : List Call) : List Call :=
  l.filter (fun e => match e with
    | Call.XChangeProperty_NET_WM_DESKTOP _ => true
    | Call.ewmh_set_allowed_actions _ => true
    | Call.configure _ => true
    | Call.reparent _ => true
    | Call.move_resize _ => true
    | Call.show _ => true
    | _ => false)

/-- The context with the client heap and the anchor blanked: what a
constructor leaves alone apart from the log. -/
def Wm.erase_heap (w : Wm) : Wm := { w with clients := [], head_client := none }

/-- A blank client record, as a constructor outcome. -/
def blank_client : Client :=
  { type := MBCLIENT_TYPE_APP, window := 0, frame := 0, title_frame := 0,
    x := 0, y := 0, width := 0, height := 0, flags := 0, mapped := false,
    want_shadow := false, trans := none, next := none, prev := none }

/-- A sample window with no hints at all whose constructors succeed. -/
def sample_info : WinInfo :=
  { fetch_name := some "xterm", type_prop := none, mwm_flags := 0, trans_win := 0,
    wmhints := none, msg_timeout := none, ctor := fun _ => some blank_client }

/-- What the owner lookup reads of a client: its window and its `next` link. -/
def Client.key (c : Client) : Window × Option ClientPtr := (c.window, c.next)

/-- True when the client at `p` has the window handle `win`. -/
def has_window (w : Wm) (win : Window) (p : ClientPtr) : Bool :=
  match w.client? p with
  | some cl => win == cl.window
  | none => false

/-- The owner of a transient window in the words of the classifier's rule 4:
the managed client whose window is the hint target if there is one, otherwise
the first managed client, in traversal order, whose window is the window's
group leader (when a group leader is given), otherwise none. -/
def resolved_owner (w : Wm) (ring : List ClientPtr) (info : WinInfo) : Option ClientPtr :=
  match ring.find? (has_window w info.trans_win) with
  | some t => some t
  | none =>
    match info.wmhints with
    | none => none
    | some wmhints =>
      if wmhints.window_group ≠ 0 then ring.find? (has_window w wmhints.window_group) else none

/-- The variant that the classifier's rule 2 assigns to a declared window
type, in the order of the rule: Dock gives Panel, Toolbar and Input give
Toolbar, Desktop gives Desktop, Splash and Dialog give Dialog. -/
def variant_of_type (atoms : Atoms) (v : Atom) : Option MBClientType :=
  if v = atoms.WINDOW_TYPE_DOCK then some MBCLIENT_TYPE_PANEL
  else if v = atoms.WINDOW_TYPE_TOOLBAR ∨ v = atoms.WINDOW_TYPE_INPUT then some MBCLIENT_TYPE_TOOLBAR
  else if v = atoms.WINDOW_TYPE_DESKTOP then some MBCLIENT_TYPE_DESKTOP
  else if v = atoms.WINDOW_TYPE_SPLASH then some MBCLIENT_TYPE_DIALOG
  else if v = atoms.WINDOW_TYPE_DIALOG then some MBCLIENT_TYPE_DIALOG
  else none

/-- True when the type property names a window type that the classifier's
type-hint step acts on. -/
def recognised_type (K : Defs) (atoms : Atoms) (tp : TypeProp) : Bool :=
  tp.realType = XA_ATOM ∧ tp.format = 32 ∧
    ((variant_of_type atoms tp.value0).isSome ∨
      (K.USE_MSG_WIN = true ∧ (tp.value0 = atoms.WINDOW_TYPE_MESSAGE
        ∨ tp.value0 = atoms.WINDOW_TYPE_MESSAGE_STATIC_0
        ∨ tp.value0 = atoms.WINDOW_TYPE_MESSAGE_STATIC_1)))

/-- The sample registry with `-force_dialogs xterm` configured. -/
def sample_wm_forced : Wm :=
  { sample_wm with config := { force_dialogs := some "xterm", no_cursor := false,
                               use_icons := false } }

/-- A sample window titled `xterm` with a transient-for hint naming window 10,
the window of the Application at address 0 of the sample registry. -/
def sample_info_trans : WinInfo :=
  { fetch_name := some "xterm", type_prop := none, mwm_flags := 0, trans_win := 10,
    wmhints := none, msg_timeout := none, ctor := fun _ => some blank_client }

/-- A sample window with decoration hints that has disappeared: every
constructor fails. -/
def sample_info_mwm_gone : WinInfo :=
  { fetch_name := none, type_prop := none, mwm_flags := 4, trans_win := 0,
    wmhints := none, msg_timeout := none, ctor := fun _ => none }

/-- A sample window with a transient-for hint naming window 10 that has
disappeared: every constructor fails. -/
def sample_info_trans_gone : WinInfo :=
  { fetch_name := none, type_prop := none, mwm_flags := 0, trans_win := 10,
    wmhints := none, msg_timeout := none, ctor := fun _ => none }

/-- A sample window with decoration hints for which the first constructor call
fails and the second succeeds. -/
def sample_info_mwm_race : WinInfo :=
  { fetch_name := none, type_prop := none, mwm_flags := 4, trans_win := 0,
    wmhints := none, msg_timeout := none,
    ctor := fun n => if n = 0 then none else some blank_client }

/-- Embeds `wm_sn_cycle_update_root_prop`.  The published value is the name of
every cycle with `xid == None`, each followed by `|`.  (`strlen` is taken in
characters; the test only asks whether the sum exceeds 1.) -/
def wm_sn_cycle_update_root_prop (w : Wm) : Wm :=
  let w1 := w.log Call.ewmh_update_lists
  match w1.sn_cycles with
  | [] => (w1.log Call.XDeleteProperty_STARTUP_LIST).log Call.XFlush
  | cycles =>
    let w2 := w1.log Call.XGrabServer
    let prop_str_len : Nat :=
      cycles.foldl (fun len c => if c.xid = 0 then len + (c.bin_name.length + 1) else len) 0
    let w3 :=
      if prop_str_len > 1 then
        let prop_str : String :=
          cycles.foldl (fun s c => if c.xid = 0 then (s ++ c.bin_name) ++ "|" else s) ""
        w2.log (Call.XChangeProperty_STARTUP_LIST prop_str)
      else w2.log Call.XDeleteProperty_STARTUP_LIST
    (w3.log Call.XFlush).log Call.XUngrabServer

/-- Embeds `wm_sn_cycle_new`. -/
def wm_sn_cycle_new (bin_name : String) : SnCycle := { bin_name := bin_name, xid := 0 }

/-- The `while (current_cycle->next != NULL)` loop of `wm_sn_cycle_add`: true
when it returns early because a launching cycle for `bin_name` was met. -/
def sn_cycle_scan (bin_name : String) : List SnCycle → Bool
  | [] => false
  | [_] => false
  | c :: c1 :: rest =>
    if c.bin_name = bin_name ∧ c.xid = 0 then true else sn_cycle_scan bin_name (c1 :: rest)

/-- Set the list `w->sn_cycles`. -/
def Wm.set_sn_cycles (w : Wm) (l : List SnCycle) : Wm := { w with sn_cycles := l }

/-- Embeds `wm_sn_cycle_add`. -/
def wm_sn_cycle_add (w : Wm) (bin_name : String) : Wm :=
  match w.sn_cycles with
  | [] => wm_sn_cycle_update_root_prop (w.set_sn_cycles [wm_sn_cycle_new bin_name])
  | first :: rest =>
    if first.bin_name = bin_name ∧ first.xid = 0 then w
    else if sn_cycle_scan bin_name (first :: rest) then w
    else wm_sn_cycle_update_root_prop
      (w.set_sn_cycles ((first :: rest) ++ [wm_sn_cycle_new bin_name]))

/-- The list operation of `wm_sn_cycle_remove`: unlink the first cycle whose
`xid` is the given one. -/
def sn_cycle_unlink (xid : Window) : List SnCycle → List SnCycle
  | [] => []
  | c :: rest => if c.xid = xid then rest else c :: sn_cycle_unlink xid rest

/-- Embeds `wm_sn_cycle_remove`. -/
def wm_sn_cycle_remove (w : Wm) (xid : Window) : Wm :=
  wm_sn_cycle_update_root_prop (w.set_sn_cycles (sn_cycle_unlink xid w.sn_cycles))

/-- The list operation of `wm_sn_cycle_update_xid`: the first launching cycle
for `bin_name` gets the window. -/
def sn_cycle_bind (bin_name : String) (xid : Window) : List SnCycle → List SnCycle
  | [] => []
  | c :: rest =>
    if c.bin_name = bin_name ∧ c.xid = 0 then { c with xid := xid } :: rest
    else c :: sn_cycle_bind bin_name xid rest

/-- Embeds `wm_sn_cycle_update_xid`. -/
def wm_sn_cycle_update_xid (w : Wm) (bin_name : String) (xid : Window) : Wm :=
  wm_sn_cycle_update_root_prop (w.set_sn_cycles (sn_cycle_bind bin_name xid w.sn_cycles))

/-- The result of `sn_monitor_event_get_type`. -/
inductive SnMonitorEventType where
  | SN_MONITOR_EVENT_INITIATED
  | SN_MONITOR_EVENT_CHANGED
  | SN_MONITOR_EVENT_COMPLETED
  | SN_MONITOR_EVENT_CANCELED
  deriving DecidableEq, Repr

export SnMonitorEventType (SN_MONITOR_EVENT_INITIATED SN_MONITOR_EVENT_CHANGED
  SN_MONITOR_EVENT_COMPLETED SN_MONITOR_EVENT_CANCELED)

/-- A startup sequence: its id and its binary name, either of which may be `NULL`. -/
structure SnStartupSequence where
  id : Option String
  binary_name : Option String
  deriving DecidableEq, Repr

/-- A monitor event: its startup sequence (possibly `NULL`) and its type. -/
structure SnMonitorEvent where
  sequence : Option SnStartupSequence
  type : SnMonitorEventType
  deriving DecidableEq, Repr

/-- Set the counter `w->sn_busy_cnt`. -/
def Wm.set_sn_busy_cnt (w : Wm) (n : Int) : Wm := { w with sn_busy_cnt := n }

/-- Embeds `wm_sn_monitor_event_func` (the time stamp `sn_init_time` is not
part of the model). -/
def wm_sn_monitor_event_func (w : Wm) (event : SnMonitorEvent) : Wm :=
  match event.sequence with
  | none => w
  | some sequence =>
    match sequence.id, sequence.binary_name with
    | some seq_id, some bin_name =>
      let w1 :=
        match event.type with
        | SN_MONITOR_EVENT_INITIATED =>
          wm_sn_cycle_add (w.set_sn_busy_cnt (w.sn_busy_cnt + 1)) bin_name
        | SN_MONITOR_EVENT_CHANGED => w
        | SN_MONITOR_EVENT_COMPLETED =>
          if w.head_client ≠ none then
            match (stack_enumerate w).find? (fun p =>
              match w.client? p with
              | some cl => cl.startup_id = some seq_id
              | none => false) with
            | some p =>
              match w.client? p with
              | some cl =>
                let w2 := wm_sn_cycle_update_root_prop (wm_sn_cycle_update_xid w bin_name cl.window)
                w2.set_sn_busy_cnt (w2.sn_busy_cnt - 1)
              | none => w
            | none => w
          else w.set_sn_busy_cnt (w.sn_busy_cnt - 1)
        | SN_MONITOR_EVENT_CANCELED => w.set_sn_busy_cnt (w.sn_busy_cnt - 1)
      w1.log (Call.XDefineCursor_root (w1.sn_busy_cnt ≠ 0))
    | _, _ => w

/-! ## Message window queue -/

/-- Embeds `wm_remove_client`; the capability method `c->destroy` is defined in
another file and is logged. -/
def wm_remove_client (w : Wm) (c : ClientPtr) : Wm :=
  ((w.log Call.XGrabServer).log (Call.destroy c)).log Call.XUngrabServer

/-- Set the list `w->msg_win_queue_head`. -/
def Wm.set_msg_win_queue (w : Wm) (q : List MsgWinQueue) : Wm := { w with msg_win_queue_head := q }

/-- Embeds `wm_msg_win_queue_process`. -/
def wm_msg_win_queue_process (w : Wm) : Wm :=
  match w.msg_win_queue_head with
  | [] => w
  | head :: rest =>
    let head1 : MsgWinQueue :=
      if head.timeout > 0 then { head with timeout := head.timeout - 1 } else head
    let w1 := w.set_msg_win_queue (head1 :: rest)
    if head1.timeout = 0 then
      match wm_find_client w1 head1.win WINDOW with
      | some client_msg => wm_remove_client w1 client_msg
      | none => w1
    else w1

/-- Run `n` ticks of `wm_msg_win_queue_process`. -/
def msg_win_queue_ticks : Nat → Wm → Wm
  | 0, w => w
  | n + 1, w => msg_win_queue_ticks n (wm_msg_win_queue_process w)

/-- A sample cycle list: `a` is resolved to window 5, `b` is still launching
and is the last cycle of the list. -/
def sample_wm_sn : Wm := { sn_cycles := [{ bin_name := "a", xid := 5 }, { bin_name := "b", xid := 0 }] }

/-- A sample cycle list with one launching cycle whose binary name is empty. -/
def sample_wm_sn_empty_name : Wm := { sn_cycles := [{ bin_name := "", xid := 0 }] }

/-- The cycles of a list that are still launching. -/
def launching (l : List SnCycle) : List SnCycle := l.filter (fun c => c.xid = 0)

/-- A sample completed event for the sequence `id1` of the binary `xterm`. -/
def sample_completed : SnMonitorEvent :=
  { sequence := some { id := some "id1", binary_name := some "xterm" },
    type := SN_MONITOR_EVENT_COMPLETED }

/-- A sample registry whose message queue holds window 10 with a timeout of
two ticks; window 10 is managed (address 0). -/
def sample_wm_msg : Wm := { sample_wm with msg_win_queue_head := [{ win := 10, timeout := 2 }] }

/-- The value published for a cycle list: the binary name of every launching
cycle, in list order, each followed by `|`. -/
def sn_prop_value (l : List SnCycle) : String :=
  String.join ((launching l).map (fun c => c.bin_name ++ "|"))

/-- True when the property is removed for a cycle list: no cycle is launching,
or the only launching cycle has an empty binary name. -/
def sn_prop_removed (l : List SnCycle) : Bool :=
  match launching l with
  | [] => true
  | [c] => c.bin_name = ""
  | _ => false

/-- The requests of one publication of the cycle list `l`. -/
def sn_publish_calls (l : List SnCycle) : List Call :=
  [Call.ewmh_update_lists] ++ (if l = [] then [] else [Call.XGrabServer]) ++
    [if sn_prop_removed l then Call.XDeleteProperty_STARTUP_LIST
      else Call.XChangeProperty_STARTUP_LIST (sn_prop_value l)] ++
    [Call.XFlush] ++ (if l = [] then [] else [Call.XUngrabServer])

/-- The test of the completed branch of `wm_sn_monitor_event_func`: some client
of the ring carries the startup id `seq_id`. -/
def sn_id_matched (w : Wm) (seq_id : String) : Bool :=
  (stack_enumerate w).any (fun p =>
    match w.client? p with
    | some cl => cl.startup_id = some seq_id
    | none => false)

/-- The monitor event of the given type for the sequence `seq_id` of `bin_name`. -/
def sn_event (seq_id bin_name : String) (type : SnMonitorEventType) : SnMonitorEvent :=
  { sequence := some { id := some seq_id, binary_name := some bin_name }, type := type }

/-- The registry with the message queue and the log blanked: what a queue tick
may not change. -/
def Wm.erase_queue (w : Wm) : Wm := { w with msg_win_queue_head := [], calls := [] }

/-- The head entry after one tick: a positive timeout is decremented. -/
def msg_tick (head : MsgWinQueue) : MsgWinQueue :=
  { head with timeout := if head.timeout > 0 then head.timeout - 1 else head.timeout }

/-- The queue entry that `wm_msg_win_queue_add` makes for a window: the timeout
property of the window, or -1 when it has none. -/
def msg_entry (info : WinInfo) (win : Window) : MsgWinQueue :=
  { win := win, timeout := match info.msg_timeout with
                           | none => -1
                           | some d => d }

/-- A sample window that declares the message window type, with a timeout of
three ticks. -/
def sample_info_msg : WinInfo :=
  { fetch_name := some "note", type_prop := some { realType := 4, format := 32, value0 := 7 },
    mwm_flags := 0, trans_win := 0, wmhints := none, msg_timeout := some 3,
    ctor := fun _ => some blank_client }

/-! ## Layout -/

/-- An `XRectangle`. -/
structure XRectangle where
  x : Int
  y : Int
  width : Int
  height : Int
  deriving DecidableEq, Repr

/-- The direction constants passed to `wm_get_offsets_size`; they are declared
in a header that is not part of `wm.c`. -/
inductive Direction where
  | NORTH
  | SOUTH
  | EAST
  | WEST
  deriving DecidableEq, Repr

export Direction (NORTH SOUTH EAST WEST)

/-- The capability methods and collaborators that the layout code calls and
that are defined in other files: `p->get_coverage` and `p->configure` read the
client they are called on, `mbtheme_get_titlebar_panel_rect` reads the theme
and the client to ignore, and `dialog_check_geometry` is the dialog fitting
policy: it receives a dialog and a requested rectangle, may rewrite the
rectangle, and returns a `Bool`. -/
structure LayoutEnv where
  get_coverage : ClientPtr → Client → XRectangle
  configure : ClientPtr → Client → XRectangle
  mbtheme_get_titlebar_panel_rect : Client → XRectangle
  dialog_check_geometry : ClientPtr → XRectangle → Bool × XRectangle

/-- The fields `x`, `y`, `width`, `height` of a client. -/
def Client.geom (c : Client) : XRectangle :=
  { x := c.x, y := c.y, width := c.width, height := c.height }

/-- Assign the fields `x`, `y`, `width`, `height` of a client. -/
def Client.set_geom (c : Client) (g : XRectangle) : Client :=
  { c with x := g.x, y := g.y, width := g.width, height := g.height }

/-- Embeds `wm_get_offsets_size`. -/
def wm_get_offsets_size (E : LayoutEnv) (K : Defs) (w : Wm) (wanted_direction : Direction)
    (ignore_client : Option ClientPtr) (include_toolbars : Bool) : Int :=
  if w.head_client = none then 0
  else
    (stack_enumerate w).foldl (fun result p =>
      match w.client? p with
      | none => result
      | some cl =>
        if ignore_client = some p ∨ cl.mapped = false then result
        else
          match wanted_direction with
          | NORTH =>
            if cl.type = MBCLIENT_TYPE_PANEL ∧ cl.flags &&& K.CLIENT_DOCK_NORTH ≠ 0
            then result + (E.get_coverage p cl).height else result
          | SOUTH =>
            if (cl.type = MBCLIENT_TYPE_PANEL ∧ cl.flags &&& K.CLIENT_DOCK_SOUTH ≠ 0)
                ∨ (cl.type = MBCLIENT_TYPE_TOOLBAR ∧ include_toolbars = true)
            then result + (E.get_coverage p cl).height else result
          | EAST =>
            if cl.type = MBCLIENT_TYPE_PANEL ∧ cl.flags &&& K.CLIENT_DOCK_EAST ≠ 0
            then result + (E.get_coverage p cl).width else result
          | WEST =>
            if cl.type = MBCLIENT_TYPE_PANEL ∧ cl.flags &&& K.CLIENT_DOCK_WEST ≠ 0
            then result + (E.get_coverage p cl).width else result) 0

/-- The titlebar-panel case of `wm_update_layout` (the same text in the west
and the east branch): for a positive change the rectangle is taken from the
theme, otherwise `p->configure` is called; then `move_resize` and
`client_deliver_config`. -/
def layout_titlebar (E : LayoutEnv) (K : Defs) (w : Wm) (client_changed : ClientPtr)
    (rc : Client) (change_amount : Int) (p : ClientPtr) (pc : Client) : XRectangle × List Call :=
  if change_amount > 0 then
    ({ pc.geom with
        x := (E.mbtheme_get_titlebar_panel_rect rc).x
              + wm_get_offsets_size E K w WEST (some client_changed) true,
        width := (E.mbtheme_get_titlebar_panel_rect rc).width },
      [Call.move_resize p, Call.client_deliver_config p])
  else
    (E.configure p pc, [Call.configure p, Call.move_resize p, Call.client_deliver_config p])

/-- The body of the `for` loop of `wm_update_layout` (lines 1841-2019) for the
client `p` with record `pc`, `rc` being the record of `client_changed`: the new
geometry of `p` and the calls made, or `none` when `p` is left alone. -/
def layout_effect (E : LayoutEnv) (K : Defs) (w : Wm) (client_changed : ClientPtr)
    (rc : Client) (change_amount : Int) (p : ClientPtr) (pc : Client) :
    Option (XRectangle × List Call) :=
  if rc.type = MBCLIENT_TYPE_PANEL ∧ rc.flags &&& K.CLIENT_DOCK_WEST ≠ 0 then
    if pc.x ≥ rc.x then
      match pc.type with
      | MBCLIENT_TYPE_APP =>
        some ({ pc.geom with width := pc.width + change_amount, x := pc.x - change_amount },
          [Call.move_resize p, Call.theme_img_cache_clear, Call.client_deliver_config p,
           Call.client_buttons_delete_all p, Call.main_client_redraw p])
      | MBCLIENT_TYPE_TOOLBAR | MBCLIENT_TYPE_PANEL =>
        if pc.flags &&& K.CLIENT_DOCK_EAST ≠ 0 then none
        else if pc.flags &&& K.CLIENT_DOCK_TITLEBAR ≠ 0 then
          some (layout_titlebar E K w client_changed rc change_amount p pc)
        else
          some ({ pc.geom with width := pc.width + change_amount, x := pc.x - change_amount },
            [Call.move_resize p, Call.client_deliver_config p])
      | _ => none
    else none
  else if rc.type = MBCLIENT_TYPE_PANEL ∧ rc.flags &&& K.CLIENT_DOCK_EAST ≠ 0 then
    if pc.x ≤ rc.x then
      match pc.type with
      | MBCLIENT_TYPE_APP =>
        some ({ pc.geom with width := pc.width + change_amount },
          [Call.move_resize p, Call.client_deliver_config p, Call.theme_img_cache_clear,
           Call.client_buttons_delete_all p, Call.main_client_redraw p])
      | MBCLIENT_TYPE_TOOLBAR | MBCLIENT_TYPE_PANEL =>
        if pc.flags &&& K.CLIENT_DOCK_WEST ≠ 0 then none
        else if pc.flags &&& K.CLIENT_DOCK_TITLEBAR ≠ 0 then
          some (layout_titlebar E K w client_changed rc change_amount p pc)
        else
          some ({ pc.geom with width := pc.width + change_amount },
            [Call.move_resize p, Call.client_deliver_config p])
      | _ => none
    else none
  else if rc.type = MBCLIENT_TYPE_PANEL ∧ rc.flags &&& K.CLIENT_DOCK_NORTH ≠ 0 then
    if pc.y ≥ rc.y then
      match pc.type with
      | MBCLIENT_TYPE_APP =>
        some ({ pc.geom with height := pc.height + change_amount, y := pc.y - change_amount },
          [Call.move_resize p, Call.theme_img_cache_clear, Call.client_deliver_config p,
           Call.main_client_redraw p])
      | MBCLIENT_TYPE_PANEL =>
        if pc.flags &&& K.CLIENT_DOCK_NORTH ≠ 0 ∨ pc.flags &&& K.CLIENT_DOCK_TITLEBAR ≠ 0 then
          some ({ pc.geom with y := pc.y - change_amount },
            [Call.move_resize p, Call.client_deliver_config p])
        else none
      | _ => none
    else none
  else
    if pc.y ≤ rc.y ∨ (rc.type = MBCLIENT_TYPE_PANEL ∧ pc.type = MBCLIENT_TYPE_TOOLBAR) then
      match pc.type with
      | MBCLIENT_TYPE_APP =>
        some ({ pc.geom with height := pc.height + change_amount },
          [Call.move_resize p, Call.theme_img_cache_clear, Call.client_deliver_config p,
           Call.main_client_redraw p])
      | MBCLIENT_TYPE_TOOLBAR =>
        some ({ pc.geom with y := pc.y + change_amount },
          [Call.move_resize p, Call.client_deliver_config p])
      | MBCLIENT_TYPE_PANEL =>
        if pc.flags &&& K.CLIENT_DOCK_SOUTH ≠ 0 then
          some ({ pc.geom with y := pc.y + change_amount },
            [Call.move_resize p, Call.client_deliver_config p])
        else none
      | _ => none
    else none

/-- One pass of the loop body: read `client_changed` and `p`, store the new
geometry of `p` and log the calls. -/
def update_layout_step (E : LayoutEnv) (K : Defs) (client_changed : ClientPtr)
    (change_amount : Int) (w : Wm) (p : ClientPtr) : Option Wm :=
  match w.client? client_changed, w.client? p with
  | some rc, some pc =>
    match layout_effect E K w client_changed rc change_amount p pc with
    | none => some w
    | some (g, es) => some ((w.set_clients (w.clients.set p (pc.set_geom g))).logs es)
  | _, _ => none

/-- The loop `for (p = client_changed->next; p != client_changed; p = p->next)`
from the client `p` on; it gives `none` when a pointer is invalid or the fuel
runs out before the walk is back at `client_changed`.  (The test
`if (p == client_changed) continue;` inside the body can never hold.) -/
def update_layout_loop (E : LayoutEnv) (K : Defs) (client_changed : ClientPtr)
    (change_amount : Int) : Nat → Wm → ClientPtr → Option Wm
  | 0, _, _ => none
  | fuel + 1, w, p =>
    if p = client_changed then some w
    else
      match update_layout_step E K client_changed change_amount w p with
      | none => none
      | some w1 =>
        match nextOf w1.clients p with
        | none => none
        | some n => update_layout_loop E K client_changed change_amount fuel w1 n

/-- The body of the dialog loop of `wm_update_layout` (lines 2027-2039). -/
def dialog_fit (E : LayoutEnv) (w : Wm) (p : ClientPtr) : Option Wm :=
  match w.client? p with
  | none => none
  | some pc =>
    if pc.type = MBCLIENT_TYPE_DIALOG then
      let w1 := w.log (Call.dialog_check_geometry p pc.x pc.y pc.width pc.height)
      if (E.dialog_check_geometry p pc.geom).1 = false then
        some ((w1.set_clients
          (w1.clients.set p (pc.set_geom (E.dialog_check_geometry p pc.geom).2))).logs
            [Call.move_resize p, Call.client_deliver_config p])
      else some w1
    else some w

/-- The dialog loop over the clients that `stack_enumerate` visits. -/
def dialog_pass (E : LayoutEnv) : List ClientPtr → Wm → Option Wm
  | [], w => some w
  | p :: ps, w =>
    match dialog_fit E w p with
    | none => none
    | some w1 => dialog_pass E ps w1

/-- The bulk pass of `wm_update_layout`: the server grab and the `for` loop. -/
def update_layout_bulk (E : LayoutEnv) (K : Defs) (w : Wm) (client_changed : ClientPtr)
    (change_amount : Int) : Option Wm :=
  match nextOf w.clients client_changed with
  | none => none
  | some first =>
    update_layout_loop E K client_changed change_amount (w.clients.length + 1)
      (w.log Call.XGrabServer) first

/-- Embeds `wm_update_layout`. -/
def wm_update_layout (E : LayoutEnv) (K : Defs) (w : Wm) (client_changed : ClientPtr)
    (change_amount : Int) : Option Wm :=
  match update_layout_bulk E K w client_changed change_amount with
  | none => none
  | some w1 =>
    match dialog_pass E (stack_enumerate w1) w1 with
    | none => none
    | some w2 => some (w2.logs [Call.XSync, Call.XUngrabServer, Call.ewmh_update_rects])

/-- A client with its geometry blanked: what the layout pass leaves alone. -/
def Client.geom_blank (c : Client) : Client := { c with x := 0, y := 0, width := 0, height := 0 }

/-- The registry with the client heap and the log blanked. -/
def Wm.erase_layout (w : Wm) : Wm := { w with clients := [], calls := [] }

/-- A sample environment: the coverage of a client is its own rectangle,
`configure` and the theme give fixed rectangles, and the fitting policy moves
every dialog to the origin and reports `False`. -/
def sample_env : LayoutEnv :=
  { get_coverage := fun _ c => c.geom,
    configure := fun _ c => c.geom,
    mbtheme_get_titlebar_panel_rect := fun _ => { x := 0, y := 0, width := 10, height := 10 },
    dialog_check_geometry := fun _ g => (false, { g with x := 0, y := 0 }) }

/-- A sample registry for the layout: a south-docked Panel at `y = 100`
(address 0), a Toolbar at `y = 150` (address 1), an Application at the origin
(address 2) and a Dialog at `x = 7` (address 3), in one ring anchored at the
Panel. -/
def sample_wm_south : Wm :=
  { clients := [{ sample_client MBCLIENT_TYPE_PANEL 20 21 0 1 3 with y := 100, flags := 512 },
                { sample_client MBCLIENT_TYPE_TOOLBAR 30 31 0 2 0 with y := 150 },
                sample_client MBCLIENT_TYPE_APP 10 11 12 3 1,
                { sample_client MBCLIENT_TYPE_DIALOG 40 41 42 0 2 with x := 7 }],
    head_client := some 0, main_client := some 2 }

/-- A sample registry for the layout: a west-docked Panel at the origin
(address 0), an Application at `x = 20` (address 1), a Toolbar at `x = 20`
(address 2) and an east-docked Panel at `x = 300` (address 3). -/
def sample_wm_west : Wm :=
  { clients := [{ sample_client MBCLIENT_TYPE_PANEL 20 21 0 1 3 with flags := 2048 },
                { sample_client MBCLIENT_TYPE_APP 10 11 12 2 0 with x := 20 },
                { sample_client MBCLIENT_TYPE_TOOLBAR 30 31 0 3 1 with x := 20 },
                { sample_client MBCLIENT_TYPE_PANEL 50 51 0 0 2 with x := 300, flags := 1024 }],
    head_client := some 0, main_client := some 1 }

/-- The dock flag of a direction. -/
def dock_flag (K : Defs) (d : Direction) : Nat :=
  match d with
  | NORTH => K.CLIENT_DOCK_NORTH
  | SOUTH => K.CLIENT_DOCK_SOUTH
  | EAST => K.CLIENT_DOCK_EAST
  | WEST => K.CLIENT_DOCK_WEST

/-- The coverage extent of a client along a direction: the height for NORTH and
SOUTH, the width for EAST and WEST. -/
def coverage_extent (E : LayoutEnv) (d : Direction) (p : ClientPtr) (cl : Client) : Int :=
  match d with
  | NORTH => (E.get_coverage p cl).height
  | SOUTH => (E.get_coverage p cl).height
  | EAST => (E.get_coverage p cl).width
  | WEST => (E.get_coverage p cl).width

/-- The clients that the reservation query counts, in the words of the claim:
mapped, not the ignore client, and a Panel docked to `d` or, when
`include_toolbars` is true, a Toolbar. -/
def counted_as_claimed (K : Defs) (d : Direction) (ignore_client : Option ClientPtr)
    (include_toolbars : Bool) (p : ClientPtr) (cl : Client) : Bool :=
  cl.mapped = true ∧ ignore_client ≠ some p ∧
    ((cl.type = MBCLIENT_TYPE_PANEL ∧ cl.flags &&& dock_flag K d ≠ 0)
      ∨ (include_toolbars = true ∧ cl.type = MBCLIENT_TYPE_TOOLBAR))

/-- The clients that the reservation query counts, amended: a Toolbar is
counted only for the direction SOUTH. -/
def counted_amended (K : Defs) (d : Direction) (ignore_client : Option ClientPtr)
    (include_toolbars : Bool) (p : ClientPtr) (cl : Client) : Bool :=
  cl.mapped = true ∧ ignore_client ≠ some p ∧
    ((cl.type = MBCLIENT_TYPE_PANEL ∧ cl.flags &&& dock_flag K d ≠ 0)
      ∨ (d = SOUTH ∧ cl.type = MBCLIENT_TYPE_TOOLBAR ∧ include_toolbars = true))

/-- The sum of the coverage extents along `d` of the counted clients among the
clients listed in `l`. -/
def extent_sum (E : LayoutEnv) (w : Wm) (d : Direction)
    (counted : ClientPtr → Client → Bool) (l : List ClientPtr) : Int :=
  (l.map (fun p =>
    match w.client? p with
    | some cl => if counted p cl then coverage_extent E d p cl else 0
    | none => 0)).sum

/-- True for a call of the dialog fitting policy. -/
def is_fit (e : Call) : Bool :=
  match e with
  | Call.dialog_check_geometry _ _ _ _ _ => true
  | _ => false

/-- The calls of the dialog fitting policy in a log, in order. -/
def fit_calls (l : List Call) : List Call := l.filter is_fit

/-- The new record of the client `p` after one pass of the loop body. -/
def layout_cell (E : LayoutEnv) (K : Defs) (w : Wm) (client_changed : ClientPtr)
    (rc : Client) (change_amount : Int) (p : ClientPtr) (pc : Client) : Client :=
  match layout_effect E K w client_changed rc change_amount p pc with
  | none => pc
  | some ge => pc.set_geom ge.1

/-- Modelled from the spec: the report `changed` of the dialog geometry policy
(`fitDialog(inout x,y,w,h) → changed:bool`).  The policy is
`dialog_check_geometry`, which is defined in another file; it returns `False`
when it had to rewrite the requested rectangle and `True` when the rectangle
fits as requested. -/
def fit_changed (E : LayoutEnv) (p : ClientPtr) (g : XRectangle) : Bool :=
  !(E.dialog_check_geometry p g).1

/-- The rectangle that the dialog geometry policy writes back. -/
def fit_rect (E : LayoutEnv) (p : ClientPtr) (g : XRectangle) : XRectangle :=
  (E.dialog_check_geometry p g).2

/-- The calls of the dialog loop for the client `p` of the registry `w`: the
fitting policy is called with the rectangle of `p` if `p` is a Dialog, and
`move_resize` and `client_deliver_config` follow when it reports a change. -/
def dialog_calls (E : LayoutEnv) (w : Wm) (p : ClientPtr) : List Call :=
  match w.client? p with
  | none => []
  | some pc =>
    if pc.type = MBCLIENT_TYPE_DIALOG then
      Call.dialog_check_geometry p pc.x pc.y pc.width pc.height ::
        (if fit_changed E p pc.geom = true
          then [Call.move_resize p, Call.client_deliver_config p] else [])
    else []

/-- The calls of the dialog loop for the clients of a list, in order. -/
def dialog_calls_all (E : LayoutEnv) (w : Wm) : List ClientPtr → List Call
  | [] => []
  | p :: ps => dialog_calls E w p ++ dialog_calls_all E w ps

/-- The record of the client `p` after the dialog loop over the clients of
`ring`: a Dialog of the ring for which the fitting policy reports a change
gets the fitted rectangle; every other record stays. -/
def dialog_cell (E : LayoutEnv) (ring : List ClientPtr) (p : ClientPtr) (pc : Client) : Client :=
  if p ∈ ring ∧ pc.type = MBCLIENT_TYPE_DIALOG ∧ fit_changed E p pc.geom = true
  then pc.set_geom (fit_rect E p pc.geom) else pc

/-- The far side of the resized client with record `rc`, as the loop decides
it for a client with record `pc`: for a west Panel `x >= r.x`, for an east
Panel `x <= r.x`, for a north Panel `y >= r.y`, and otherwise `y <= r.y` or,
when the resized client is a Panel, every Toolbar. -/
def far_side (K : Defs) (rc pc : Client) : Bool :=
  if rc.type = MBCLIENT_TYPE_PANEL ∧ rc.flags &&& K.CLIENT_DOCK_WEST ≠ 0 then pc.x ≥ rc.x
  else if rc.type = MBCLIENT_TYPE_PANEL ∧ rc.flags &&& K.CLIENT_DOCK_EAST ≠ 0 then pc.x ≤ rc.x
  else if rc.type = MBCLIENT_TYPE_PANEL ∧ rc.flags &&& K.CLIENT_DOCK_NORTH ≠ 0 then pc.y ≥ rc.y
  else pc.y ≤ rc.y ∨ (rc.type = MBCLIENT_TYPE_PANEL ∧ pc.type = MBCLIENT_TYPE_TOOLBAR)

/-- The far side in the words of the claim: position comparison alone. -/
def far_side_by_position (K : Defs) (rc pc : Client) : Bool :=
  if rc.type = MBCLIENT_TYPE_PANEL ∧ rc.flags &&& K.CLIENT_DOCK_WEST ≠ 0 then pc.x ≥ rc.x
  else if rc.type = MBCLIENT_TYPE_PANEL ∧ rc.flags &&& K.CLIENT_DOCK_EAST ≠ 0 then pc.x ≤ rc.x
  else if rc.type = MBCLIENT_TYPE_PANEL ∧ rc.flags &&& K.CLIENT_DOCK_NORTH ≠ 0 then pc.y ≥ rc.y
  else pc.y ≤ rc.y

/-! ## Force-dialog title list -/

/-- The entries of a comma-separated list. -/
def comma_entries : List Char → List (List Char)
  | [] => [[]]
  | c :: cs =>
    if c = ',' then [] :: comma_entries cs
    else
      match comma_entries cs with
      | [] => [[c]]
      | e :: es => (c :: e) :: es

/-- The result that the usage text of `-force_dialogs` describes: a list is
configured, the title can be fetched, and the title is one of the entries of
the comma-separated list. -/
def force_dialog_listed (w : Wm) (info : WinInfo) : Bool :=
  match w.config.force_dialogs, info.fetch_name with
  | some force_dialogs, some win_title =>
    decide (win_title.data ∈ comma_entries force_dialogs.data)
  | _, _ => false

/-- The sample registry with `-force_dialogs xterm,gedit` configured. -/
def sample_wm_forced_list : Wm :=
  { sample_wm with config := { force_dialogs := some "xterm,gedit", no_cursor := false,
                               use_icons := false } }

/-- A sample window titled `term`, with no other hints. -/
def sample_info_term : WinInfo :=
  { fetch_name := some "term", type_prop := none, mwm_flags := 0, trans_win := 0,
    wmhints := none, msg_timeout := none, ctor := fun _ => some blank_client }

/-- A sample window titled `gedit`, with no other hints. -/
def sample_info_gedit : WinInfo :=
  { fetch_name := some "gedit", type_prop := none, mwm_flags := 0, trans_win := 0,
    wmhints := none, msg_timeout := none, ctor := fun _ => some blank_client }

/-! ## Event loop -/

/-- Embeds `wm_sn_timeout_check`; `timed_out` is the outcome of the comparison
`(now - w->sn_init_time) > MB_SN_APP_TIMEOUT` (the clock and the time stamp
`sn_init_time` are not part of the model). -/
def wm_sn_timeout_check (w : Wm) (timed_out : Bool) : Wm :=
  if w.sn_busy_cnt = 0 then w
  else
    let w1 := if timed_out = true then w.set_sn_busy_cnt (w.sn_busy_cnt - 1) else w
    if w1.sn_busy_cnt ≠ 0 then w1.log (Call.XDefineCursor_root true)
    else (w1.log (Call.XDefineCursor_root false)).log Call.XDeleteProperty_STARTUP_LIST

/-- What the connection to the window server does during one call of
`get_xevent_timed`: whether `XPending` is non-zero, and whether `select`
returns non-zero before the timeout. -/
structure XConn where
  pending : Bool
  select_ready : Bool
  deriving DecidableEq, Repr

/-- The value of `tvt.tv_sec` computed at the start of an iteration of
`wm_event_loop`, in seconds (`tvt.tv_usec` is always 0). -/
def loop_timeout (K : Defs) (w : Wm) : Nat :=
  let t1 := if K.USE_LIBSN = true ∧ w.sn_busy_cnt ≠ 0 then 1 else 0
  let t2 := if K.USE_MSG_WIN = true ∧ w.msg_win_queue_head ≠ [] then 1 else t1
  let t3 := if K.USE_GCONF = true ∧ w.gconf_client = true then 1 else t2
  if K.NO_PING = false ∧ w.n_active_ping_clients ≠ 0 then 1 else t3

/-- Embeds `get_xevent_timed`: true when an event is returned.  With a zero
timeout it blocks in `XNextEvent` until an event arrives. -/
def get_xevent_timed (tv_sec : Nat) (X : XConn) (w : Wm) : Bool × Wm :=
  if tv_sec = 0 then (true, w)
  else
    let w1 := w.log Call.XFlush
    if X.pending = false then
      if X.select_ready = false then (false, w1) else (true, w1)
    else (true, w1)

/-- The variables of `wm_event_loop` that live across iterations. -/
structure LoopState where
  w : Wm
  hung_app_timer : Int
  deriving DecidableEq, Repr

/-- The periodic tasks of `wm_event_loop` (lines 744-771), run when no event
was returned. -/
def loop_periodic (K : Defs) (timed_out : Bool) (s : LoopState) : LoopState :=
  let w1 := if K.USE_LIBSN = true ∧ s.w.sn_busy_cnt ≠ 0
    then wm_sn_timeout_check s.w timed_out else s.w
  let w2 := if K.USE_MSG_WIN = true ∧ w1.msg_win_queue_head ≠ []
    then wm_msg_win_queue_process w1 else w1
  let w3 := if K.USE_GCONF = true ∧ w2.gconf_client = true
    then w2.log (Call.more MoreCall.g_main_context_iteration) else w2
  if K.NO_PING = false then
    if s.hung_app_timer + 1 > 2 ∧ w3.n_active_ping_clients ≠ 0 then
      { w := w3.log (Call.more MoreCall.ewmh_hung_app_check), hung_app_timer := 0 }
    else { w := w3, hung_app_timer := s.hung_app_timer + 1 }
  else { w := w3, hung_app_timer := s.hung_app_timer }

/-- One iteration of the `for (;;)` loop of `wm_event_loop`.  The handling of a
returned event (the `switch` over the event type and the event hooks of the
compositing, settings and startup-notification libraries) is the parameter
`dispatch`. -/
def wm_event_loop_iter (K : Defs) (dispatch : Wm → Option Wm) (X : XConn) (timed_out : Bool)
    (s : LoopState) : Option LoopState :=
  let r := get_xevent_timed (loop_timeout K s.w) X s.w
  if r.1 = true then
    match dispatch r.2 with
    | none => none
    | some w1 => some { w := w1, hung_app_timer := s.hung_app_timer }
  else some (loop_periodic K timed_out { s with w := r.2 })

/-- Run `n` iterations in which the wait times out. -/
def loop_timeouts (K : Defs) : Nat → LoopState → Option LoopState
  | 0, s => some s
  | n + 1, s =>
    match wm_event_loop_iter K (fun w => some w) { pending := false, select_ready := false }
        false s with
    | none => none
    | some s1 => loop_timeouts K n s1

/-- A sample context with one active ping client and nothing else pending. -/
def sample_wm_ping : Wm := { n_active_ping_clients := 1 }

/-- The number of hung-application checks in a log. -/
def hung_checks (l : List Call) : Nat := l.count (Call.more MoreCall.ewmh_hung_app_check)

/-- True when one of the four reasons to wake up periodically holds. -/
def loop_pending (K : Defs) (w : Wm) : Bool :=
  (K.USE_LIBSN = true ∧ w.sn_busy_cnt ≠ 0) ∨ (K.USE_MSG_WIN = true ∧ w.msg_win_queue_head ≠ [])
    ∨ (K.USE_GCONF = true ∧ w.gconf_client = true)
    ∨ (K.NO_PING = false ∧ w.n_active_ping_clients ≠ 0)

/-! ## Layout: the edge a resize is handled for -/

/-- The branch of the loop of `wm_update_layout` that handles the resized
client with record `rc`: a west-docked Panel, else an east-docked Panel, else
a north-docked Panel, and in the remaining case (a south Panel, a Toolbar or
any other client) the south rule. -/
def resized_edge (K : Defs) (rc : Client) : Direction :=
  if rc.type = MBCLIENT_TYPE_PANEL ∧ rc.flags &&& K.CLIENT_DOCK_WEST ≠ 0 then WEST
  else if rc.type = MBCLIENT_TYPE_PANEL ∧ rc.flags &&& K.CLIENT_DOCK_EAST ≠ 0 then EAST
  else if rc.type = MBCLIENT_TYPE_PANEL ∧ rc.flags &&& K.CLIENT_DOCK_NORTH ≠ 0 then NORTH
  else SOUTH

/-- The relation between the record `pc` of an Application before the layout
pass and its record `pc1` after it, when the pass adjusts it by `D`: the edge
opposite the resized dock stays where it was. -/
def app_edge_kept (d : Direction) (D : Int) (pc pc1 : Client) : Prop :=
  match d with
  | WEST => pc1.x + pc1.width = pc.x + pc.width ∧ pc1.width = pc.width + D ∧
      pc1.y = pc.y ∧ pc1.height = pc.height
  | NORTH => pc1.y + pc1.height = pc.y + pc.height ∧ pc1.height = pc.height + D ∧
      pc1.x = pc.x ∧ pc1.width = pc.width
  | EAST => pc1.x = pc.x ∧ pc1.width = pc.width + D ∧ pc1.y = pc.y ∧ pc1.height = pc.height
  | SOUTH => pc1.y = pc.y ∧ pc1.height = pc.height + D ∧ pc1.x = pc.x ∧ pc1.width = pc.width

/-! ## Event handlers -/

/-- The value mask bits of `X.h`. -/
def CWX : Nat := 1

/-- The value mask bit `CWY` of `X.h`. -/
def CWY : Nat := 2

/-- The value mask bit `CWWidth` of `X.h`. -/
def CWWidth : Nat := 4

/-- The value mask bit `CWHeight` of `X.h`. -/
def CWHeight : Nat := 8

/-- The fields of `XConfigureRequestEvent` that reach the stored geometry or
the logged requests (`above` and `detail` are copied to the request
unchanged and are not part of the model). -/
structure XConfigureRequestEvent where
  window : Window
  value_mask : Nat
  x : Int
  y : Int
  width : Int
  height : Int
  deriving DecidableEq, Repr

/-- The fields of `XConfigureEvent` read by `wm_handle_configure_notify`. -/
structure XConfigureEvent where
  window : Window
  width : Int
  height : Int
  deriving DecidableEq, Repr

/-- The geometry methods of the client variants that the configure handlers
call and that are defined in other files: each computes the rectangle of the
client it is called on. -/
structure ConfigEnv where
  dialog_client_configure : ClientPtr → Client → XRectangle
  dockbar_client_configure : ClientPtr → Client → XRectangle

/-- The request `XConfigureWindow(w->dpy, e->window, e->value_mask, &xwc)`. -/
def configure_window (e : XConfigureRequestEvent) (x y width height : Int) : Call :=
  Call.more (MoreCall.XConfigureWindow e.window e.value_mask x y width height)

/-- Lines 1184-1277 of `wm_handle_configure_request`: the answer to a request
of a client that is neither a Panel nor a Toolbar whose height changes.  (The
fields `init_width` and `init_height` of a Dialog are not part of the model.) -/
def configure_request_reply (E : LayoutEnv) (K : Defs) (w : Wm) (e : XConfigureRequestEvent)
    (c : ClientPtr) (cl : Client) : Wm :=
  let req : XRectangle :=
    { x := if e.x ≤ 0 ∨ e.value_mask &&& CWX = 0 then cl.x else e.x,
      y := if e.y ≤ 0 ∨ e.value_mask &&& CWY = 0 then cl.y else e.y,
      width := if e.value_mask &&& CWWidth = 0 then cl.width else e.width,
      height := if e.value_mask &&& CWHeight = 0 then cl.height else e.height }
  if cl.type = MBCLIENT_TYPE_DIALOG ∧
      (req.x ≠ cl.x ∨ req.y ≠ cl.y ∨ req.width ≠ cl.width ∨ req.height ≠ cl.height) then
    let fit := (E.dialog_check_geometry c req).2
    let w1 := w.logs
      ([Call.dialog_check_geometry c req.x req.y req.width req.height] ++
       (if cl.width ≠ fit.width then [Call.client_buttons_delete_all c] else []) ++
       [Call.more (MoreCall.comp_engine_client_hide c)] ++
       (if K.USE_COMPOSITE = true then [Call.XSync] else []))
    ((w1.set_clients (w1.clients.set c (cl.set_geom fit))).logs
      [Call.more (MoreCall.dialog_client_move_resize c), Call.client_deliver_config c,
       Call.more (MoreCall.comp_engine_client_configure c), Call.comp_engine_client_show c])
  else
    w.logs
      ((if w.config.awt_workaround = true
          then [configure_window e cl.x cl.y e.width e.height] else []) ++
       [configure_window e cl.x cl.y cl.width cl.height, Call.client_deliver_config c])

/-- The test of `wm_handle_configure_request` for a Toolbar that may change
its height (line 1172). -/
def toolbar_height_request (K : Defs) (e : XConfigureRequestEvent) (cl : Client) : Bool :=
  e.value_mask &&& CWHeight ≠ 0 ∧ e.height ≠ 0 ∧ e.height ≠ cl.height
    ∧ cl.flags &&& K.CLIENT_IS_MINIMIZED = 0

/-- Embeds `wm_handle_configure_request`; `info` is the snapshot of the window
for the re-creation of a Panel that moved. -/
def wm_handle_configure_request (E : LayoutEnv) (K : Defs) (info : WinInfo) (w : Wm)
    (e : XConfigureRequestEvent) : Option Wm :=
  match wm_find_client w e.window WINDOW with
  | none => some (w.log (configure_window e e.x e.y e.width e.height))
  | some c =>
    match w.client? c with
    | none => none
    | some cl =>
      if cl.type = MBCLIENT_TYPE_PANEL then
        if cl.height ≠ e.height ∨ cl.width ≠ e.width ∨ cl.x ≠ e.x ∨ cl.y ≠ e.y then
          let w1 := w.logs
            [configure_window e e.x e.y e.width e.height, Call.client_deliver_config c,
             Call.more (MoreCall.client_set_state_withdrawn c),
             Call.more (MoreCall.XReparentWindow cl.window e.x e.y), Call.destroy c]
          match wm_make_new_client K info w1 cl.window with
          | none => none
          | some (w2, none) => some w2
          | some (w2, some c2) =>
            match heap_modify w2.clients c2
                (fun x => { x with ignore_unmap := x.ignore_unmap + 1 }) with
            | none => none
            | some cs => some (w2.set_clients cs)
        else some w
      else if cl.type = MBCLIENT_TYPE_TOOLBAR ∧ toolbar_height_request K e cl = true then
        let change_amount := cl.height - e.height
        let w1 := (w.set_clients (w.clients.set c
          (cl.set_geom { cl.geom with y := cl.y + change_amount, height := e.height }))).log
            (Call.move_resize c)
        wm_update_layout E K w1 c change_amount
      else some (configure_request_reply E K w e c cl)

/-- The new rectangle of the client `p` in the loop of
`wm_handle_configure_notify` (lines 1014-1058). -/
def notify_geom (K : Defs) (N : ConfigEnv) (width_diff height_diff : Int) (p : ClientPtr)
    (pc : Client) : XRectangle :=
  match pc.type with
  | MBCLIENT_TYPE_APP =>
    { pc.geom with width := pc.width + width_diff, height := pc.height + height_diff }
  | MBCLIENT_TYPE_TOOLBAR =>
    { pc.geom with width := pc.width + width_diff, y := pc.y + height_diff }
  | MBCLIENT_TYPE_PANEL =>
    if pc.flags &&& K.CLIENT_DOCK_WEST ≠ 0 then
      { pc.geom with height := pc.height + height_diff }
    else if pc.flags &&& K.CLIENT_DOCK_EAST ≠ 0 then
      { pc.geom with height := pc.height + height_diff, x := pc.x + width_diff }
    else if pc.flags &&& K.CLIENT_DOCK_SOUTH ≠ 0 then
      { pc.geom with width := pc.width + width_diff, y := pc.y + height_diff }
    else if pc.flags &&& K.CLIENT_DOCK_NORTH ≠ 0 then
      { pc.geom with width := pc.width + width_diff }
    else pc.geom
  | MBCLIENT_TYPE_DIALOG => N.dialog_client_configure p pc
  | MBCLIENT_TYPE_DESKTOP =>
    { pc.geom with width := pc.width + width_diff, height := pc.height + height_diff }
  | _ => pc.geom

/-- True for the Panel that the loop keeps as `ctitledock`: no edge flag and
the titlebar flag. -/
def is_titledock (K : Defs) (pc : Client) : Bool :=
  pc.type = MBCLIENT_TYPE_PANEL ∧ pc.flags &&& K.CLIENT_DOCK_WEST = 0
    ∧ pc.flags &&& K.CLIENT_DOCK_EAST = 0 ∧ pc.flags &&& K.CLIENT_DOCK_SOUTH = 0
    ∧ pc.flags &&& K.CLIENT_DOCK_NORTH = 0 ∧ pc.flags &&& K.CLIENT_DOCK_TITLEBAR ≠ 0

/-- The variables of the loop of `wm_handle_configure_notify`. -/
structure NotifyState where
  w : Wm
  cdesktop : Option ClientPtr
  ctitledock : Option ClientPtr

/-- One pass of the loop body of `wm_handle_configure_notify` for the client
`p` (the field `have_cache` is not part of the model). -/
def notify_step (K : Defs) (N : ConfigEnv) (width_diff height_diff : Int) (s : NotifyState)
    (p : ClientPtr) : Option NotifyState :=
  match s.w.client? p with
  | none => none
  | some pc =>
    let w1 := if pc.type = MBCLIENT_TYPE_DIALOG
      then s.w.log (Call.more (MoreCall.dialog_client_configure p)) else s.w
    let w2 := w1.set_clients
      (w1.clients.set p (pc.set_geom (notify_geom K N width_diff height_diff p pc)))
    let cdesktop := if pc.type = MBCLIENT_TYPE_DESKTOP then some p else s.cdesktop
    let ctitledock := if is_titledock K pc = true then some p else s.ctitledock
    let w3 := if some p ≠ cdesktop ∧ some p ≠ ctitledock
      then w2.logs [Call.move_resize p, Call.client_buttons_delete_all p,
        Call.more (MoreCall.redraw p), Call.client_deliver_config p]
      else w2
    some { w := w3.log (Call.more (MoreCall.comp_engine_client_repair p)),
           cdesktop := cdesktop, ctitledock := ctitledock }

/-- The loop of `wm_handle_configure_notify` over the clients that
`stack_enumerate` visits. -/
def notify_pass (K : Defs) (N : ConfigEnv) (width_diff height_diff : Int) :
    List ClientPtr → NotifyState → Option NotifyState
  | [], s => some s
  | p :: ps, s =>
    match notify_step K N width_diff height_diff s p with
    | none => none
    | some s1 => notify_pass K N width_diff height_diff ps s1

/-- Lines 1086-1097 of `wm_handle_configure_notify`: the Desktop and the
titlebar Panel, left till last. -/
def notify_last (N : ConfigEnv) (s : NotifyState) : Option Wm :=
  let w1 := match s.cdesktop with
    | some d => s.w.logs [Call.move_resize d, Call.client_deliver_config d]
    | none => s.w
  match s.ctitledock with
  | none => some w1
  | some t =>
    match w1.client? t with
    | none => none
    | some tc =>
      some ((w1.set_clients (w1.clients.set t (tc.set_geom (N.dockbar_client_configure t tc)))).logs
        [Call.more (MoreCall.dockbar_client_configure t), Call.move_resize t,
         Call.client_deliver_config t])

/-- Embeds `wm_handle_configure_notify`.  Modelled from the spec: the macro
`stack_empty(w)` is declared in a header that is not part of `wm.c`; it holds
when the registry has no client, that is when the anchor is `NULL`. -/
def wm_handle_configure_notify (K : Defs) (N : ConfigEnv) (w : Wm) (e : XConfigureEvent) :
    Option Wm :=
  if e.window = w.root then
    if e.width ≠ w.dpy_width ∨ e.height ≠ w.dpy_height then
      let height_diff := e.height - w.dpy_height
      let width_diff := e.width - w.dpy_width
      let w0 : Wm := { w with dpy_width := e.width, dpy_height := e.height }
      if w0.head_client = none then some w0
      else
        let w1 := (w0.log Call.XGrabServer).log Call.theme_img_cache_clear
        match notify_pass K N width_diff height_diff (stack_enumerate w1)
            { w := w1, cdesktop := none, ctitledock := none } with
        | none => none
        | some s =>
          match notify_last N s with
          | none => none
          | some w2 =>
            let w3 := w2.logs [Call.more MoreCall.comp_engine_destroy_root_buffer,
              Call.more MoreCall.comp_engine_render, Call.ewmh_update_rects]
            match wm_activate_client K w3 (wm_get_visible_main_client K w3) with
            | none => none
            | some w4 => some ((w4.log Call.XSync).log Call.XUngrabServer)
    else some w
  else some w

/-- Embeds `wm_handle_destroy_event`. -/
def wm_handle_destroy_event (w : Wm) (window : Window) : Wm :=
  match wm_find_client w window WINDOW with
  | none => w
  | some c => wm_remove_client w c

/-- Embeds `wm_handle_unmap_event`; `destroy_ev` is what
`XCheckTypedWindowEvent` finds for the frame: the window of a pending
`DestroyNotify` event, if there is one. -/
def wm_handle_unmap_event (w : Wm) (window : Window) (destroy_ev : Option Window) : Option Wm :=
  match wm_find_client w window WINDOW with
  | none => some w
  | some c =>
    match w.client? c with
    | none => none
    | some cl =>
      if cl.ignore_unmap ≠ 0 then
        some (w.set_clients (w.clients.set c { cl with ignore_unmap := cl.ignore_unmap - 1 }))
      else if cl.mapped = false then some w
      else
        let w1 := w.logs [Call.XGrabServer, Call.more (MoreCall.XUnmapWindow cl.frame),
          Call.XSync]
        let w2 := match destroy_ev with
          | some dw => wm_handle_destroy_event w1 dw
          | none =>
            w1.logs [Call.more (MoreCall.client_set_state_withdrawn c), Call.destroy c,
              Call.more (MoreCall.XReparentWindow cl.window 0 0),
              Call.more (MoreCall.XUnmapWindow cl.window)]
        some (w2.log Call.XUngrabServer)

/-! ## Message window queue: advancing -/

/-- What `wm_msg_win_queue_pop` learns from the window server about a queued
window: whether `XGetWindowAttributes` succeeds for it, and the snapshot of
its hints if it is realized. -/
structure PopEnv where
  window_exists : Window → Bool
  info : Window → WinInfo

/-- The part of `wm_msg_win_queue_pop` after the head has been unlinked, for
the remaining queue `q`: a new head whose window is gone is popped in turn. -/
def msg_win_queue_pop_rest (K : Defs) (X : PopEnv) (w : Wm) : List MsgWinQueue → Option Wm
  | [] => some (w.set_msg_win_queue [])
  | h :: t =>
    if X.window_exists h.win = true then
      match wm_make_new_client K (X.info h.win) (w.set_msg_win_queue (h :: t)) h.win with
      | none => none
      | some r => some r.1
    else msg_win_queue_pop_rest K X w t

/-- Embeds `wm_msg_win_queue_pop`. -/
def wm_msg_win_queue_pop (K : Defs) (X : PopEnv) (w : Wm) : Option Wm :=
  match w.msg_win_queue_head with
  | [] => some w
  | _ :: rest => msg_win_queue_pop_rest K X w rest

/-! ## Server grabs -/

/-- True for a server grab or ungrab request. -/
def is_grab (e : Call) : Bool :=
  match e with
  | Call.XGrabServer => true
  | Call.XUngrabServer => true
  | _ => false

/-- The grab and ungrab requests in a log, in order. -/
def grab_calls (l : List Call) : List Call := l.filter is_grab

/-- The state of `wm_make_new_client` is usable: the registry is well formed,
`w->have_titlebar_panel` and the client built so far point into the heap. -/
def MkState.valid (s : MkState) : Prop :=
  (∃ ring, s.w.WF ring) ∧ (∀ tp, s.w.have_titlebar_panel = some tp → tp < s.w.clients.length)
    ∧ (∀ c, s.c = some c → c < s.w.clients.length)

/-- A sample configure request for the Toolbar window 30 of the south sample
registry: only the height, 30. -/
def sample_request_toolbar : XConfigureRequestEvent :=
  { window := 30, value_mask := 8, x := 0, y := 0, width := 0, height := 30 }

/-- A sample configure request for the Application window 10 asking for a new
position and size. -/
def sample_request_app : XConfigureRequestEvent :=
  { window := 10, value_mask := 15, x := 5, y := 6, width := 70, height := 80 }

/-- The log of `w1` extends the log of `w` by requests none of which is a grab
or an ungrab. -/
def grab_free_ext (w w1 : Wm) : Prop := ∃ es, w1.calls = w.calls ++ es ∧ grab_calls es = []

/-- True for a queue entry whose window no longer exists. -/
def window_gone (X : PopEnv) (q : MsgWinQueue) : Bool := !X.window_exists q.win

/-- A sample environment in which window 50 is gone and every other window
exists and declares the message window type. -/
def sample_pop_env : PopEnv :=
  { window_exists := fun win => win != 50, info := fun _ => sample_info_msg }

/-- A sample registry whose queue holds the windows 40, 50 and 60. -/
def sample_wm_queue : Wm :=
  { sample_wm with msg_win_queue_head :=
      [{ win := 40, timeout := -1 }, { win := 50, timeout := -1 }, { win := 60, timeout := 3 }] }

/-- The record of the client `q` after the loop of
`wm_handle_configure_notify` over the clients of `ring`. -/
def notify_cell (K : Defs) (N : ConfigEnv) (width_diff height_diff : Int)
    (ring : List ClientPtr) (q : ClientPtr) (qc : Client) : Client :=
  if q ∈ ring then qc.set_geom (notify_geom K N width_diff height_diff q qc) else qc

/-- The registry as the event handlers expect it: the ring invariant holds, and
`w->have_titlebar_panel`, `w->stack_top_app` and `w->client_desktop`, when
set, point into the heap. -/
def Wm.ready (w : Wm) (ring : List ClientPtr) : Prop :=
  IsRing w.clients w.head_client ring ∧
  (∀ tp, w.have_titlebar_panel = some tp → tp < w.clients.length) ∧
  (∀ c, w.stack_top_app = some c → c < w.clients.length) ∧
  (∀ c, w.client_desktop = some c → c < w.clients.length)

/-- The clients whose stored rectangle the handler computes itself from the
size differences: Applications, Toolbars, Desktops and Panels docked to an
edge. -/
def resized_linearly (K : Defs) (pc : Client) : Bool :=
  pc.type = MBCLIENT_TYPE_APP ∨ pc.type = MBCLIENT_TYPE_TOOLBAR
    ∨ pc.type = MBCLIENT_TYPE_DESKTOP
    ∨ (pc.type = MBCLIENT_TYPE_PANEL ∧
        (pc.flags &&& K.CLIENT_DOCK_WEST ≠ 0 ∨ pc.flags &&& K.CLIENT_DOCK_EAST ≠ 0
          ∨ pc.flags &&& K.CLIENT_DOCK_SOUTH ≠ 0 ∨ pc.flags &&& K.CLIENT_DOCK_NORTH ≠ 0))

/-- A sample environment for the configure handlers. -/
def sample_config_env : ConfigEnv :=
  { dialog_client_configure := fun _ c => { c.geom with x := 1, y := 1 },
    dockbar_client_configure := fun _ c => c.geom }

/-- The south sample registry on a screen of 240 by 320 with root window 1. -/
def sample_wm_screen : Wm :=
  { sample_wm_south with root := 1, dpy_width := 240, dpy_height := 320 }

/-- True when `wm_handle_unmap_event` gets as far as its `XGrabServer`: the
window belongs to a client whose `ignore_unmap` count is zero and which is
mapped. -/
def unmap_reaches_grab (w : Wm) (window : Window) : Bool :=
  match wm_find_client w window WINDOW with
  | none => false
  | some c =>
    match w.client? c with
    | none => false
    | some cl => cl.ignore_unmap = 0 ∧ cl.mapped = true

/-- True when `wm_handle_configure_notify` gets as far as its `XGrabServer`:
the notification is for the root window, the size differs from the recorded
one and the stack is not empty. -/
def notify_reaches_grab (w : Wm) (e : XConfigureEvent) : Bool :=
  e.window = w.root ∧ (e.width ≠ w.dpy_width ∨ e.height ≠ w.dpy_height) ∧ w.head_client ≠ none

/-! ## Theorems: registry ring -/

theorem nodup_bounded_length {l : List Nat} {n : Nat} (hn : l.Nodup) (hb : ∀ p ∈ l, p < n) :
    l.length ≤ n := by
  have hsub : l ⊆ List.range n := fun p hp => List.mem_range.mpr (hb p hp)
  have := (List.subperm_of_subset hn hsub).length_le
  simpa using this

theorem nextOf_some_lt {cs : List Client} {a b : ClientPtr} (h : nextOf cs a = some b) :
    a < cs.length := by
  unfold nextOf at h
  by_contra hlt
  rw [List.getElem?_eq_none (Nat.le_of_not_lt hlt)] at h
  simp at h

theorem prevOf_some_lt {cs : List Client} {a b : ClientPtr} (h : prevOf cs a = some b) :
    a < cs.length := by
  unfold prevOf at h
  by_contra hlt
  rw [List.getElem?_eq_none (Nat.le_of_not_lt hlt)] at h
  simp at h

theorem chain_succ {α : Type} {R : α → α → Prop} :
    ∀ (l : List α) (z : α), List.Chain' R (l ++ [z]) → ∀ x ∈ l, ∃ y, R x y
  | [], _, _, x, hx => by simp at hx
  | [a], z, h, x, hx => by
    simp at hx
    subst hx
    exact ⟨z, by simpa using h⟩
  | a :: b :: l, z, h, x, hx => by
    simp only [List.cons_append, List.chain'_cons] at h
    rcases List.mem_cons.mp hx with rfl | hx
    · exact ⟨b, h.1⟩
    · exact chain_succ (b :: l) z (by simpa using h.2) x hx

theorem IsRing.valid {cs : List Client} {head : Option ClientPtr} {ring : List ClientPtr}
    (h : IsRing cs head ring) : ∀ p ∈ ring, p < cs.length := by
  intro p hp
  obtain ⟨_, _, hc⟩ := h
  cases ring with
  | nil => simp at hp
  | cons hd tl =>
    simp only [List.head?_cons, Option.toList] at hc
    obtain ⟨y, hy⟩ := chain_succ (hd :: tl) hd hc p hp
    exact nextOf_some_lt hy.1

theorem ring_walk_chain (cs : List Client) (hd : ClientPtr) :
    ∀ (post : List ClientPtr) (c : ClientPtr) (fuel : Nat),
      List.Chain' (link cs) (c :: post ++ [hd]) → hd ∉ post → post.length < fuel →
      ring_walk cs hd fuel c = c :: post
  | [], c, fuel, hc, _, hf => by
    obtain ⟨f, rfl⟩ : ∃ f, fuel = f + 1 := ⟨fuel - 1, by simp at hf; omega⟩
    have hl : link cs c hd := by simpa using hc
    have hn := hl.1
    unfold nextOf at hn
    cases hcl : cs[c]? with
    | none => simp [hcl] at hn
    | some cl =>
      simp [hcl] at hn
      simp [ring_walk, hcl, hn]
  | d :: post, c, fuel, hc, hnot, hf => by
    obtain ⟨f, rfl⟩ : ∃ f, fuel = f + 1 := ⟨fuel - 1, by simp at hf; omega⟩
    simp only [List.cons_append, List.chain'_cons] at hc
    have hn := hc.1.1
    unfold nextOf at hn
    have hne : d ≠ hd := fun e => hnot (by simp [e])
    have hrec := ring_walk_chain cs hd post d f (by simpa using hc.2)
      (fun hm => hnot (List.mem_cons_of_mem _ hm)) (by simp at hf; omega)
    cases hcl : cs[c]? with
    | none => simp [hcl] at hn
    | some cl =>
      simp [hcl] at hn
      simp [ring_walk, hcl, hn, hne, hrec]

theorem stack_enumerate_eq {w : Wm} {ring : List ClientPtr}
    (h : IsRing w.clients w.head_client ring) : stack_enumerate w = ring := by
  have hv := h.valid
  obtain ⟨hnd, hh, hc⟩ := h
  cases ring with
  | nil => simp at hh; simp [stack_enumerate, hh]
  | cons hd tl =>
    simp only [List.head?_cons] at hh
    simp only [List.head?_cons, Option.toList] at hc
    have hlen := nodup_bounded_length hnd hv
    simp only [stack_enumerate, hh]
    exact ring_walk_chain w.clients hd tl hd _ hc (List.nodup_cons.mp hnd).1
      (by simp at hlen; omega)

theorem heap_modify_some {cs : List Client} {p : ClientPtr} (f : Client → Client)
    (hp : p < cs.length) :
    ∃ c cs', cs[p]? = some c ∧ heap_modify cs p f = some cs' ∧ cs'.length = cs.length ∧
      ∀ x, cs'[x]? = if x = p then some (f c) else cs[x]? := by
  refine ⟨cs[p], cs.set p (f cs[p]), List.getElem?_eq_getElem hp, ?_, by simp, ?_⟩
  · simp [heap_modify, List.getElem?_eq_getElem hp]
  · intro x
    by_cases hx : x = p
    · subst hx; simp [hp]
    · simp [List.getElem?_set, hx, Ne.symm hx]

theorem set_next_some {cs : List Client} {p : ClientPtr} (v : Option ClientPtr)
    (hp : p < cs.length) :
    ∃ cs', set_next cs p v = some cs' ∧ cs'.length = cs.length ∧
      cs'.map Client.unlinked = cs.map Client.unlinked ∧
      (∀ x, nextOf cs' x = if x = p then v else nextOf cs x) ∧
      (∀ x, prevOf cs' x = prevOf cs x) := by
  obtain ⟨c, cs', hc, hm, hl, hg⟩ := heap_modify_some (fun c => { c with next := v }) hp
  refine ⟨cs', hm, hl, ?_, ?_, ?_⟩
  · apply List.ext_getElem? 
    intro x
    simp only [List.getElem?_map, hg]
    by_cases hx : x = p
    · subst hx; simp [hc, Client.unlinked]
    · simp [hx]
  · intro x
    simp only [nextOf, hg]
    by_cases hx : x = p
    · subst hx; simp
    · simp [hx]
  · intro x
    simp only [prevOf, hg]
    by_cases hx : x = p
    · subst hx; simp [hc]
    · simp [hx]

theorem set_prev_some {cs : List Client} {p : ClientPtr} (v : Option ClientPtr)
    (hp : p < cs.length) :
    ∃ cs', set_prev cs p v = some cs' ∧ cs'.length = cs.length ∧
      cs'.map Client.unlinked = cs.map Client.unlinked ∧
      (∀ x, nextOf cs' x = nextOf cs x) ∧
      (∀ x, prevOf cs' x = if x = p then v else prevOf cs x) := by
  obtain ⟨c, cs', hc, hm, hl, hg⟩ := heap_modify_some (fun c => { c with prev := v }) hp
  refine ⟨cs', hm, hl, ?_, ?_, ?_⟩
  · apply List.ext_getElem? 
    intro x
    simp only [List.getElem?_map, hg]
    by_cases hx : x = p
    · subst hx; simp [hc, Client.unlinked]
    · simp [hx]
  · intro x
    simp only [nextOf, hg]
    by_cases hx : x = p
    · subst hx; simp [hc]
    · simp [hx]
  · intro x
    simp only [prevOf, hg]
    by_cases hx : x = p
    · subst hx; simp
    · simp [hx]

theorem nextOf_append (cs : List Client) (nc : Client) (x : ClientPtr) :
    nextOf (cs ++ [nc]) x = if x = cs.length then nc.next else nextOf cs x := by
  unfold nextOf
  by_cases hx : x = cs.length
  · subst hx; simp
  · by_cases hlt : x < cs.length
    · simp [List.getElem?_append_left hlt, hx]
    · have h1 : cs.length + 1 ≤ x := by
        have := Nat.le_of_not_lt hlt
        exact Nat.lt_of_le_of_ne this (Ne.symm hx)
      rw [List.getElem?_eq_none (by simpa using h1), List.getElem?_eq_none (Nat.le_of_not_lt hlt)]
      simp [hx]

theorem prevOf_append (cs : List Client) (nc : Client) (x : ClientPtr) :
    prevOf (cs ++ [nc]) x = if x = cs.length then nc.prev else prevOf cs x := by
  unfold prevOf
  by_cases hx : x = cs.length
  · subst hx; simp
  · by_cases hlt : x < cs.length
    · simp [List.getElem?_append_left hlt, hx]
    · have h1 : cs.length + 1 ≤ x := by
        have := Nat.le_of_not_lt hlt
        exact Nat.lt_of_le_of_ne this (Ne.symm hx)
      rw [List.getElem?_eq_none (by simpa using h1), List.getElem?_eq_none (Nat.le_of_not_lt hlt)]
      simp [hx]

theorem ring_insert_empty (w : Wm) (nc : Client) (hh : w.head_client = none) :
    ∃ cs, ring_insert { w with clients := w.clients ++ [nc] } w.clients.length =
        some { w with clients := cs, head_client := some w.clients.length } ∧
      cs.length = w.clients.length + 1 ∧
      cs.map Client.unlinked = w.clients.map Client.unlinked ++ [nc.unlinked] ∧
      (∀ x, nextOf cs x = if x = w.clients.length then some w.clients.length
                          else nextOf w.clients x) ∧
      (∀ y, prevOf cs y = if y = w.clients.length then some w.clients.length
                          else prevOf w.clients y) := by
  have h0 : w.clients.length < (w.clients ++ [nc]).length := by simp
  obtain ⟨cs1, e1, l1, u1, n1, p1⟩ := set_next_some (some w.clients.length) h0
  obtain ⟨cs2, e2, l2, u2, n2, p2⟩ :=
    @set_prev_some cs1 w.clients.length (some w.clients.length) (by rw [l1]; exact h0)
  refine ⟨cs2, ?_, ?_, ?_, ?_, ?_⟩
  · simp [ring_insert, hh, e1, e2]
  · rw [l2, l1]; simp
  · rw [u2, u1]; simp
  · intro x
    rw [n2, n1, nextOf_append]
    by_cases hx : x = w.clients.length <;> simp [hx]
  · intro y
    rw [p2, p1, prevOf_append]
    by_cases hy : y = w.clients.length <;> simp [hy]

theorem ring_insert_after (w : Wm) (nc : Client) (hd a n : ClientPtr)
    (hh : w.head_client = some hd)
    (ha : (match w.main_client with | some m => m | none => hd) = a)
    (hn : nextOf w.clients a = some n) (hnv : n < w.clients.length) :
    ∃ cs, ring_insert { w with clients := w.clients ++ [nc] } w.clients.length =
        some { w with clients := cs } ∧
      cs.length = w.clients.length + 1 ∧
      cs.map Client.unlinked = w.clients.map Client.unlinked ++ [nc.unlinked] ∧
      (∀ x, nextOf cs x = if x = a then some w.clients.length
                          else if x = w.clients.length then some n else nextOf w.clients x) ∧
      (∀ y, prevOf cs y = if y = n then some w.clients.length
                          else if y = w.clients.length then some a else prevOf w.clients y) := by
  have hav : a < w.clients.length := nextOf_some_lt hn
  have hane : a ≠ w.clients.length := Nat.ne_of_lt hav
  have hnne : n ≠ w.clients.length := Nat.ne_of_lt hnv
  have h0 : w.clients.length < (w.clients ++ [nc]).length := by simp
  obtain ⟨cs1, e1, l1, u1, n1, p1⟩ := set_prev_some (some a) h0
  obtain ⟨ac, hac⟩ : ∃ ac, cs1[a]? = some ac :=
    ⟨_, List.getElem?_eq_getElem (by rw [l1]; exact Nat.lt_trans hav h0)⟩
  have hacn : ac.next = some n := by
    have := n1 a
    rw [nextOf_append, if_neg hane, hn] at this
    simpa [nextOf, hac] using this
  obtain ⟨cs2, e2, l2, u2, n2, p2⟩ :=
    @set_next_some cs1 w.clients.length ac.next (by rw [l1]; exact h0)
  have hp : prevOf cs2 w.clients.length = some a := by rw [p2, p1]; simp
  obtain ⟨cs3, e3, l3, u3, n3, p3⟩ :=
    @set_next_some cs2 a (some w.clients.length)
      (by rw [l2, l1]; exact Nat.lt_trans hav h0)
  have hnx : nextOf cs3 w.clients.length = some n := by
    rw [n3, if_neg (Ne.symm hane), n2]; simp [hacn]
  obtain ⟨cs4, e4, l4, u4, n4, p4⟩ :=
    @set_prev_some cs3 n (some w.clients.length)
      (by rw [l3, l2, l1]; exact Nat.lt_trans hnv h0)
  refine ⟨cs4, ?_, ?_, ?_, ?_, ?_⟩
  · simp [ring_insert, hh, ha, e1, hac, e2, hp, e3, hnx, e4]
  · rw [l4, l3, l2, l1]; simp
  · rw [u4, u3, u2, u1]; simp
  · intro x
    rw [n4, n3, n2, n1, nextOf_append]
    by_cases hxa : x = a
    · simp [hxa]
    · by_cases hx : x = w.clients.length <;> simp [hxa, hx, hacn]
  · intro y
    rw [p4, p3, p2, p1, prevOf_append]
    by_cases hyn : y = n
    · simp [hyn]
    · by_cases hy : y = w.clients.length <;> simp [hyn, hy]

theorem chain_transfer {α : Type} {R S : α → α → Prop} :
    ∀ (l : List α), List.Chain' R l →
      (∀ x ∈ l.dropLast, ∀ y ∈ l.tail, R x y → S x y) → List.Chain' S l
  | [], _, _ => List.chain'_nil
  | [a], _, _ => List.chain'_singleton a
  | a :: b :: l, h, ht => by
    rw [List.chain'_cons] at h ⊢
    refine ⟨ht a (by simp) b (by simp) h.1, chain_transfer (b :: l) h.2 ?_⟩
    intro x hx y hy
    exact ht x (by simp [List.dropLast_cons₂, hx]) y
      (by simp only [List.tail_cons] at hy ⊢; exact List.mem_of_mem_tail hy)

theorem head_not_mem_tail {α : Type} {l : List α} {h : α} (hn : l.Nodup)
    (hh : l.head? = some h) : h ∉ l.tail := by
  cases l with
  | nil => simp at hh
  | cons a t =>
    simp only [List.head?_cons, Option.some.injEq] at hh
    subst hh
    simpa using (List.nodup_cons.mp hn).1

theorem link_transfer {cs cs' : List Client} {a n new x y : ClientPtr}
    (hlen : new = cs.length)
    (hnext : ∀ x, nextOf cs' x = if x = a then some new
                      else if x = new then some n else nextOf cs x)
    (hprev : ∀ y, prevOf cs' y = if y = n then some new
                      else if y = new then some a else prevOf cs y)
    (hxa : x ≠ a) (hyn : y ≠ n) (h : link cs x y) : link cs' x y := by
  have hx : x ≠ new := by rw [hlen]; exact Nat.ne_of_lt (nextOf_some_lt h.1)
  have hy : y ≠ new := by rw [hlen]; exact Nat.ne_of_lt (prevOf_some_lt h.2)
  exact ⟨by rw [hnext, if_neg hxa, if_neg hx]; exact h.1,
         by rw [hprev, if_neg hyn, if_neg hy]; exact h.2⟩

theorem isRing_insert {cs cs' : List Client} {hd a n new : ClientPtr}
    {pre post : List ClientPtr}
    (hring : IsRing cs (some hd) (pre ++ a :: post))
    (hn : nextOf cs a = some n) (hlen : new = cs.length)
    (hnext : ∀ x, nextOf cs' x = if x = a then some new
                      else if x = new then some n else nextOf cs x)
    (hprev : ∀ y, prevOf cs' y = if y = n then some new
                      else if y = new then some a else prevOf cs y) :
    IsRing cs' (some hd) (pre ++ a :: new :: post) := by
  have hvalid := hring.valid
  obtain ⟨hnd, hh, hc⟩ := hring
  have hnew : new ∉ pre ++ a :: post := fun hm => by
    have := hvalid new hm
    rw [hlen] at this
    exact Nat.lt_irrefl _ this
  have hhd : (pre ++ [a]).head? = some hd := by
    cases pre with
    | nil => simpa using hh.symm
    | cons p t => simpa using hh.symm
  have hhd' : (pre ++ a :: post).head? = some hd := hh.symm
  rw [hhd'] at hc
  simp only [Option.toList] at hc
  have hnd1 := List.nodup_middle.mp hnd
  have ha_not : a ∉ pre ++ post := (List.nodup_cons.mp hnd1).1
  have hndpp : (pre ++ post).Nodup := (List.nodup_cons.mp hnd1).2
  have hnd_pre_a : (pre ++ [a]).Nodup := by
    have : List.Sublist (pre ++ [a]) (pre ++ a :: post) := by
      apply List.Sublist.append_left
      simp
    exact hnd.sublist this
  -- split the old chain at the anchor
  have hc' : List.Chain' (link cs) (pre ++ a :: (post ++ [hd])) := by simpa using hc
  obtain ⟨h1, h2⟩ := List.chain'_split.mp hc'
  obtain ⟨h2a, h2b⟩ := List.chain'_cons'.mp h2
  -- the successor of the anchor is the head of `post ++ [hd]`
  obtain ⟨m, rest, hmr⟩ : ∃ m rest, post ++ [hd] = m :: rest := by
    cases post with
    | nil => exact ⟨hd, [], rfl⟩
    | cons b t => exact ⟨b, t ++ [hd], rfl⟩
  have hmn : m = n := by
    have := (h2a m (by simp [hmr])).1
    rw [hn] at this
    exact (Option.some.inj this).symm
  subst hmn
  have hm_mem : m ∈ post ∨ m = hd := by
    have : m ∈ post ++ [hd] := by rw [hmr]; simp
    simpa using this
  have hhd_mem : hd ∈ pre ++ [a] := List.mem_of_mem_head? hhd
  have hhd_post : hd ∉ post := fun hp => by
    rcases List.mem_append.mp hhd_mem with h | h
    · exact (List.nodup_append.mp hndpp).2.2 h hp
    · simp at h
      subst h
      exact ha_not (List.mem_append_right _ hp)
  have hnd_t : (post ++ [hd]).Nodup := by
    have hp : post.Nodup := (List.nodup_append.mp hndpp).2.1
    exact List.Nodup.append hp (List.nodup_singleton hd) (by
      intro z hz hz'
      simp at hz'
      subst hz'
      exact hhd_post hz)
  refine ⟨?_, ?_, ?_⟩
  · apply List.nodup_middle.mpr
    apply List.nodup_cons.mpr
    refine ⟨?_, ?_⟩
    · intro hm
      rcases List.mem_append.mp hm with h | h
      · exact ha_not (List.mem_append_left _ h)
      · rcases List.mem_cons.mp h with h | h
        · exact hnew (by simp [h])
        · exact ha_not (List.mem_append_right _ h)
    · apply List.nodup_middle.mpr
      apply List.nodup_cons.mpr
      refine ⟨fun hm => hnew ?_, hndpp⟩
      rcases List.mem_append.mp hm with h | h
      · exact List.mem_append_left _ h
      · exact List.mem_append_right _ (List.mem_cons_of_mem _ h)
  · cases pre with
    | nil => simpa using hh
    | cons p t => simpa using hh
  · have hhead' : (pre ++ a :: new :: post).head? = some hd := by
      cases pre with
      | nil => simpa using hh.symm
      | cons p t => simpa using hh.symm
    rw [hhead']
    simp only [Option.toList]
    have : pre ++ a :: new :: post ++ [hd] = pre ++ a :: (new :: m :: rest) := by
      simp [← hmr]
    rw [this]
    apply List.chain'_split.mpr
    refine ⟨?_, ?_⟩
    · apply chain_transfer _ h1
      intro x hx y hy hxy
      have hx' : x ∈ pre := by simpa [List.dropLast_concat] using hx
      have hxa : x ≠ a := fun e => ha_not (by rw [← e]; exact List.mem_append_left _ hx')
      have hym : y ≠ m := by
        intro e
        subst e
        rcases hm_mem with h | h
        · have hy' : y ∈ pre ++ [a] := List.mem_of_mem_tail hy
          rcases List.mem_append.mp hy' with h' | h'
          · exact (List.nodup_append.mp hndpp).2.2 h' h
          · simp at h'
            subst h'
            exact ha_not (List.mem_append_right _ h)
        · subst h
          exact head_not_mem_tail hnd_pre_a hhd hy
      exact link_transfer hlen hnext hprev hxa hym hxy
    · rw [List.chain'_cons, List.chain'_cons]
      refine ⟨?_, ?_, ?_⟩
      · constructor
        · rw [hnext]; simp
        · rw [hprev]
          have e : new ≠ m := by
            intro e
            apply hnew
            rw [e]
            rcases hm_mem with h | h
            · exact List.mem_append_right _ (List.mem_cons_of_mem _ h)
            · rw [h]; exact List.mem_of_mem_head? hhd'
          simp [e]
      · constructor
        · rw [hnext]
          have : new ≠ a := fun e => hnew (by simp [e])
          simp [this]
        · rw [hprev]; simp
      · rw [← hmr]
        apply chain_transfer _ h2b
        intro x hx y hy hxy
        have hx' : x ∈ post := by simpa [List.dropLast_concat] using hx
        have hxa : x ≠ a := fun e => ha_not (by rw [← e]; exact List.mem_append_right _ hx')
        have hym : y ≠ m := by
          intro e
          subst e
          exact head_not_mem_tail hnd_t (by rw [hmr]; rfl) hy
        exact link_transfer hlen hnext hprev hxa hym hxy

theorem chain_succ_mem {α : Type} {R : α → α → Prop} :
    ∀ (l : List α) (z : α), List.Chain' R (l ++ [z]) → ∀ x ∈ l, ∃ y ∈ (l ++ [z]).tail, R x y
  | [], _, _, x, hx => by simp at hx
  | [a], z, h, x, hx => by
    simp at hx
    subst hx
    exact ⟨z, by simp, by simpa using h⟩
  | a :: b :: l, z, h, x, hx => by
    simp only [List.cons_append, List.chain'_cons] at h
    rcases List.mem_cons.mp hx with rfl | hx
    · exact ⟨b, by simp, h.1⟩
    · obtain ⟨y, hy, hr⟩ := chain_succ_mem (b :: l) z (by simpa using h.2) x hx
      exact ⟨y, by simp only [List.cons_append, List.tail_cons] at hy ⊢; exact List.mem_cons_of_mem _ hy, hr⟩

theorem chain_pred_mem {α : Type} {R : α → α → Prop} :
    ∀ (l : List α) (z : α), List.Chain' R (l ++ [z]) → ∀ y ∈ (l ++ [z]).tail, ∃ x ∈ l, R x y
  | [], _, _, y, hy => by simp at hy
  | [a], z, h, y, hy => by
    simp at hy
    subst hy
    exact ⟨a, by simp, by simpa using h⟩
  | a :: b :: l, z, h, y, hy => by
    simp only [List.cons_append, List.chain'_cons] at h
    simp only [List.cons_append, List.tail_cons] at hy
    rcases List.mem_cons.mp hy with rfl | hy
    · exact ⟨a, by simp, h.1⟩
    · obtain ⟨x, hx, hr⟩ := chain_pred_mem (b :: l) z (by simpa using h.2) y (by simpa using hy)
      exact ⟨x, List.mem_cons_of_mem _ hx, hr⟩

theorem IsRing.next_prev {cs : List Client} {head : Option ClientPtr} {ring : List ClientPtr}
    (h : IsRing cs head ring) :
    ∀ p ∈ ring, ∃ n ∈ ring, nextOf cs p = some n ∧ prevOf cs n = some p := by
  intro p hp
  obtain ⟨_, _, hc⟩ := h
  cases ring with
  | nil => simp at hp
  | cons hd tl =>
    simp only [List.head?_cons, Option.toList] at hc
    obtain ⟨y, hy, hr⟩ := chain_succ_mem (hd :: tl) hd hc p hp
    refine ⟨y, ?_, hr⟩
    simp only [List.cons_append, List.tail_cons, List.mem_append, List.mem_singleton] at hy
    rcases hy with hy | hy
    · exact List.mem_cons_of_mem _ hy
    · simp [hy]

theorem IsRing.prev_next {cs : List Client} {head : Option ClientPtr} {ring : List ClientPtr}
    (h : IsRing cs head ring) :
    ∀ p ∈ ring, ∃ q ∈ ring, prevOf cs p = some q ∧ nextOf cs q = some p := by
  intro p hp
  obtain ⟨_, _, hc⟩ := h
  cases ring with
  | nil => simp at hp
  | cons hd tl =>
    simp only [List.head?_cons, Option.toList] at hc
    have hp' : p ∈ ((hd :: tl) ++ [hd]).tail := by
      simp only [List.cons_append, List.tail_cons, List.mem_append, List.mem_singleton]
      rcases List.mem_cons.mp hp with h | h
      · exact Or.inr h
      · exact Or.inl h
    obtain ⟨x, hx, hr⟩ := chain_pred_mem (hd :: tl) hd hc p hp'
    exact ⟨x, hx, hr.2, hr.1⟩

theorem ring_insert_wf (w : Wm) (ring : List ClientPtr) (nc : Client) (hwf : w.WF ring) :
    ∃ w' ring', ring_insert { w with clients := w.clients ++ [nc] } w.clients.length = some w' ∧
      w'.WF ring' ∧
      (∀ p, p ∈ ring' ↔ p ∈ ring ∨ p = w.clients.length) ∧
      ring'.length = ring.length + 1 ∧
      w'.clients.length = w.clients.length + 1 ∧
      w'.clients.map Client.unlinked = w.clients.map Client.unlinked ++ [nc.unlinked] ∧
      w' = { w with clients := w'.clients, head_client := w'.head_client } ∧
      (ring = [] → w'.head_client = some w.clients.length ∧
        nextOf w'.clients w.clients.length = some w.clients.length ∧
        prevOf w'.clients w.clients.length = some w.clients.length) ∧
      (ring ≠ [] → w'.head_client = w.head_client) := by
  obtain ⟨hring, hmain⟩ := hwf
  cases ring with
  | nil =>
    have hh : w.head_client = none := by simpa using hring.2.1
    obtain ⟨cs, e, l, u, hn, hp⟩ := ring_insert_empty w nc hh
    refine ⟨_, [w.clients.length], e, ⟨⟨by simp, by simp, ?_⟩, ?_⟩, by simp, by simp, l, u, rfl,
      fun _ => ⟨rfl, by simp [hn], by simp [hp]⟩, fun h => absurd rfl h⟩
    · simp only [List.head?_cons, Option.toList, List.singleton_append, List.chain'_pair]
      exact ⟨by simp [hn], by simp [hp]⟩
    · intro m hm
      exact absurd (hmain m hm) (by simp)
  | cons hd tl =>
    have hh : w.head_client = some hd := by simpa using hring.2.1
    obtain ⟨a, ha⟩ : ∃ a, (match w.main_client with | some m => m | none => hd) = a := ⟨_, rfl⟩
    have ha_mem : a ∈ hd :: tl := by
      cases hm : w.main_client with
      | none => simp [hm] at ha; simp [← ha]
      | some m => simp [hm] at ha; rw [← ha]; exact hmain m hm
    obtain ⟨n, hn_mem, hn, hpn⟩ := hring.next_prev a ha_mem
    have hnv : n < w.clients.length := prevOf_some_lt hpn
    obtain ⟨cs, e, l, u, hnx, hpv⟩ := ring_insert_after w nc hd a n hh ha hn hnv
    obtain ⟨pre, post, hsplit⟩ := List.append_of_mem ha_mem
    rw [hh, hsplit] at hring
    have hnew := isRing_insert hring hn rfl hnx hpv
    refine ⟨_, pre ++ a :: w.clients.length :: post, e, ⟨by simpa [hh] using hnew, ?_⟩, ?_, ?_, l, u,
      rfl, fun h => by simp at h, fun _ => rfl⟩
    · intro m hm
      have := hmain m hm
      rw [hsplit] at this
      simp only [List.mem_append, List.mem_cons] at this ⊢
      tauto
    · intro p
      rw [hsplit]
      simp only [List.mem_append, List.mem_cons]
      tauto
    · rw [hsplit]
      simp only [List.length_append, List.length_cons]
      omega


theorem wm_find_client_eq {w : Wm} {ring : List ClientPtr}
    (h : IsRing w.clients w.head_client ring) (win : Window) (mode : FindMode) :
    wm_find_client w win mode =
      match mode with
      | FRAME => ring.find? (fun c =>
          match w.client? c with
          | some cl => cl.frame == win || cl.title_frame == win
          | none => false)
      | WINDOW => ring.find? (fun c =>
          match w.client? c with
          | some cl => cl.window == win
          | none => false) := by
  have he := stack_enumerate_eq h
  unfold wm_find_client
  by_cases hh : w.head_client = none
  · have : ring = [] := by
      have := h.2.1
      rw [hh] at this
      cases ring with
      | nil => rfl
      | cons a t => simp at this
    subst this
    cases mode <;> simp [hh]
  · rw [if_neg hh, he]

theorem sample_wm_wf : Wm.WF sample_wm [0, 1] := by
  refine ⟨by simp [IsRing, link, nextOf, prevOf, sample_wm, sample_client], ?_⟩
  intro m hm
  simp [sample_wm] at hm
  simp [← hm]

/-- C1: inserting a newly observed override-redirect window with
`wm_handle_map_notify` into a well-formed registry yields a well-formed
registry: one ring holding exactly the old clients and one new client, an
Override client with `frame == window == win`; every client of the new ring has
`next->prev == self` and `prev->next == self`; the old clients keep every
field other than their links; and if the registry was empty the new client is
the head with `next == prev == itself`. -/
theorem wm_handle_map_notify_ring (w : Wm) (ring : List ClientPtr) (win : Window)
    (attr : XWindowAttributes) (hwf : w.WF ring)
    (hW : wm_find_client w win WINDOW = none) (hF : wm_find_client w win FRAME = none)
    (hov : attr.override_redirect = true) :
    ∃ w' ring', wm_handle_map_notify w win (some attr) = some w' ∧ w'.WF ring' ∧
      w.clients.length ∉ ring ∧
      (∀ p, p ∈ ring' ↔ p ∈ ring ∨ p = w.clients.length) ∧
      ring'.length = ring.length + 1 ∧
      (∀ p ∈ ring', ∃ n ∈ ring', nextOf w'.clients p = some n ∧ prevOf w'.clients n = some p) ∧
      (∀ p ∈ ring', ∃ q ∈ ring', prevOf w'.clients p = some q ∧ nextOf w'.clients q = some p) ∧
      (∀ p ∈ ring, (w'.client? p).map Client.unlinked = (w.client? p).map Client.unlinked) ∧
      (∃ nc, w'.client? w.clients.length = some nc ∧ nc.type = MBCLIENT_TYPE_OVERRIDE ∧
        nc.frame = win ∧ nc.window = win) ∧
      (ring = [] → w'.head_client = some w.clients.length ∧
        nextOf w'.clients w.clients.length = some w.clients.length ∧
        prevOf w'.clients w.clients.length = some w.clients.length) := by
  obtain ⟨w1, ring', e, hwf', hmem, hlen, hl, hu, _, hempty, _⟩ :=
    ring_insert_wf w ring
      { type := MBCLIENT_TYPE_OVERRIDE, window := win, frame := win, title_frame := 0,
        x := attr.x, y := attr.y, width := attr.width, height := attr.height,
        flags := 0, mapped := true, want_shadow := true,
        trans := none, next := none, prev := none } hwf
  have hvalid := hwf.1.valid
  have hget : ∀ p : Nat, (w1.clients[p]?).map Client.unlinked =
      (w1.clients.map Client.unlinked)[p]? := by
    intro p
    rw [List.getElem?_map]
  refine ⟨(w1.log (Call.comp_engine_client_init w.clients.length)).log
      (Call.comp_engine_client_show w.clients.length), ring', ?_, ?_, ?_, hmem, hlen, ?_, ?_, ?_, ?_, ?_⟩
  · simp [wm_handle_map_notify, hW, hF, hov, e]
  · exact hwf'
  · exact fun hm => Nat.lt_irrefl _ (hvalid _ hm)
  · exact hwf'.1.next_prev
  · exact hwf'.1.prev_next
  · intro p hp
    have hp' := hvalid p hp
    have := hget p
    rw [hu, List.getElem?_append_left (by simpa using hp'), List.getElem?_map] at this
    exact this
  · have := hget w.clients.length
    rw [hu] at this
    simp only [List.getElem?_append_right (Nat.le_of_eq (List.length_map _ _)),
      List.length_map, Nat.sub_self, List.getElem?_cons_zero] at this
    cases hc : w1.clients[w.clients.length]? with
    | none => simp [hc] at this
    | some nc =>
      simp only [hc, Option.map_some', Option.some.injEq] at this
      refine ⟨nc, hc, ?_, ?_, ?_⟩
      · have := congrArg Client.type this; simpa [Client.unlinked] using this
      · have := congrArg Client.frame this; simpa [Client.unlinked] using this
      · have := congrArg Client.window this; simpa [Client.unlinked] using this
  · exact hempty

/-- Witness for C1 on the sample registry: window 30 is not managed there. -/
theorem wm_handle_map_notify_ring_witness :
    Wm.WF sample_wm [0, 1] ∧
    ∃ w' ring', wm_handle_map_notify sample_wm 30 (some sample_attr) = some w' ∧ w'.WF ring' ∧
      sample_wm.clients.length ∉ [0, 1] ∧
      (∀ p, p ∈ ring' ↔ p ∈ [0, 1] ∨ p = sample_wm.clients.length) ∧
      ring'.length = [0, 1].length + 1 ∧
      (∀ p ∈ ring', ∃ n ∈ ring', nextOf w'.clients p = some n ∧ prevOf w'.clients n = some p) ∧
      (∀ p ∈ ring', ∃ q ∈ ring', prevOf w'.clients p = some q ∧ nextOf w'.clients q = some p) ∧
      (∀ p ∈ [0, 1], (w'.client? p).map Client.unlinked =
        (sample_wm.client? p).map Client.unlinked) ∧
      (∃ nc, w'.client? sample_wm.clients.length = some nc ∧ nc.type = MBCLIENT_TYPE_OVERRIDE ∧
        nc.frame = 30 ∧ nc.window = 30) ∧
      (([0, 1] : List ClientPtr) = [] → w'.head_client = some sample_wm.clients.length ∧
        nextOf w'.clients sample_wm.clients.length = some sample_wm.clients.length ∧
        prevOf w'.clients sample_wm.clients.length = some sample_wm.clients.length) :=
  ⟨sample_wm_wf,
   wm_handle_map_notify_ring sample_wm [0, 1] 30 sample_attr sample_wm_wf (by decide) (by decide)
     (by decide)⟩

/-- C2 (as stated, refuted): in FRAME mode `wm_find_client` also matches a
client's `title_frame`: on the sample registry no client has frame 12, yet the
lookup of 12 returns client 0, whose frame is 11. -/
theorem wm_find_client_frame_counterexample :
    IsRing sample_wm.clients sample_wm.head_client [0, 1] ∧
    wm_find_client sample_wm 12 FRAME = some 0 ∧
    (sample_wm.client? 0).map (fun cl => cl.frame) = some 11 ∧
    (∀ c ∈ [0, 1], ∀ cl, sample_wm.client? c = some cl → cl.frame ≠ 12) := by
  refine ⟨sample_wm_wf.1, by decide, by decide, ?_⟩
  intro c hc cl hcl
  simp at hc
  rcases hc with rfl | rfl <;>
    · simp [Wm.client?, sample_wm, sample_client] at hcl
      subst hcl
      decide

/-- C2 (amended): `wm_find_client` returns not-found for every handle when the
registry is empty; in WINDOW mode it returns a client only if that client's
window handle equals the given handle, and not-found iff no client of the
registry has that window handle; in FRAME mode it returns a client only if
that client's frame handle or title-frame handle equals the given handle, and
not-found iff no client of the registry has it as frame or title frame. -/
theorem wm_find_client_spec (w : Wm) (ring : List ClientPtr) (win : Window)
    (hring : IsRing w.clients w.head_client ring) :
    (w.head_client = none → ∀ mode, wm_find_client w win mode = none) ∧
    (∀ c, wm_find_client w win WINDOW = some c →
      c ∈ ring ∧ ∃ cl, w.client? c = some cl ∧ cl.window = win) ∧
    (wm_find_client w win WINDOW = none ↔
      ∀ c ∈ ring, ∀ cl, w.client? c = some cl → cl.window ≠ win) ∧
    (∀ c, wm_find_client w win FRAME = some c →
      c ∈ ring ∧ ∃ cl, w.client? c = some cl ∧ (cl.frame = win ∨ cl.title_frame = win)) ∧
    (wm_find_client w win FRAME = none ↔
      ∀ c ∈ ring, ∀ cl, w.client? c = some cl → cl.frame ≠ win ∧ cl.title_frame ≠ win) := by
  refine ⟨?_, ?_, ?_, ?_, ?_⟩
  · intro hh mode
    simp [wm_find_client, hh]
  · intro c hc
    rw [wm_find_client_eq hring] at hc
    have hm := List.mem_of_find?_eq_some hc
    have hp := List.find?_some hc
    refine ⟨hm, ?_⟩
    cases hcl : w.client? c with
    | none => simp [hcl] at hp
    | some cl => exact ⟨cl, rfl, by simpa [hcl] using hp⟩
  · rw [wm_find_client_eq hring]
    simp only [List.find?_eq_none]
    constructor
    · intro h c hc cl hcl
      have := h c hc
      simpa [hcl] using this
    · intro h c hc
      cases hcl : w.client? c with
      | none => simp
      | some cl => simpa using h c hc cl hcl
  · intro c hc
    rw [wm_find_client_eq hring] at hc
    have hm := List.mem_of_find?_eq_some hc
    have hp := List.find?_some hc
    refine ⟨hm, ?_⟩
    cases hcl : w.client? c with
    | none => simp [hcl] at hp
    | some cl => exact ⟨cl, rfl, by simpa [hcl] using hp⟩
  · rw [wm_find_client_eq hring]
    simp only [List.find?_eq_none]
    constructor
    · intro h c hc cl hcl
      have := h c hc
      simpa [hcl] using this
    · intro h c hc
      cases hcl : w.client? c with
      | none => simp
      | some cl => simpa using h c hc cl hcl

/-- Witness for C2 on the sample registry. -/
theorem wm_find_client_spec_witness :
    IsRing sample_wm.clients sample_wm.head_client [0, 1] ∧
    (wm_find_client sample_wm 30 FRAME = none ↔
      ∀ c ∈ [0, 1], ∀ cl, sample_wm.client? c = some cl →
        cl.frame ≠ 30 ∧ cl.title_frame ≠ 30) :=
  ⟨sample_wm_wf.1, (wm_find_client_spec sample_wm [0, 1] 30 sample_wm_wf.1).2.2.2.2⟩

/-! ## Theorems: activation protocol -/

theorem and_not_and (a b : Nat) : and_not a b &&& b = 0 := by
  apply Nat.eq_of_testBit_eq
  intro i
  simp only [and_not, Nat.testBit_and, Nat.testBit_xor, Nat.zero_testBit]
  cases a.testBit i <;> cases b.testBit i <;> rfl

theorem or_and_self (a b : Nat) : (a ||| b) &&& b = b := by
  apply Nat.eq_of_testBit_eq
  intro i
  simp only [Nat.testBit_and, Nat.testBit_or]
  cases a.testBit i <;> cases b.testBit i <;> rfl

@[simp] theorem log_calls (w : Wm) (e : Call) : (w.log e).calls = w.calls ++ [e] := rfl
@[simp] theorem log_clients (w : Wm) (e : Call) : (w.log e).clients = w.clients := rfl
@[simp] theorem log_flags (w : Wm) (e : Call) : (w.log e).flags = w.flags := rfl
@[simp] theorem log_stack_top_app (w : Wm) (e : Call) :
    (w.log e).stack_top_app = w.stack_top_app := rfl
@[simp] theorem log_head_client (w : Wm) (e : Call) : (w.log e).head_client = w.head_client := rfl
@[simp] theorem log_main_client (w : Wm) (e : Call) : (w.log e).main_client = w.main_client := rfl
@[simp] theorem log_have_titlebar_panel (w : Wm) (e : Call) :
    (w.log e).have_titlebar_panel = w.have_titlebar_panel := rfl
@[simp] theorem log_client_desktop (w : Wm) (e : Call) :
    (w.log e).client_desktop = w.client_desktop := rfl
@[simp] theorem log_theme (w : Wm) (e : Call) :
    (w.log e).mbtheme_has_titlebar_panel = w.mbtheme_has_titlebar_panel := rfl
@[simp] theorem log_config (w : Wm) (e : Call) : (w.log e).config = w.config := rfl
@[simp] theorem log_queue (w : Wm) (e : Call) :
    (w.log e).msg_win_queue_head = w.msg_win_queue_head := rfl
@[simp] theorem log_client? (w : Wm) (e : Call) (p : ClientPtr) :
    (w.log e).client? p = w.client? p := rfl
@[simp] theorem log_erase (w : Wm) (e : Call) : (w.log e).erase = w.erase := rfl

@[simp] theorem logs_calls (w : Wm) (es : List Call) : (w.logs es).calls = w.calls ++ es := rfl
@[simp] theorem logs_clients (w : Wm) (es : List Call) : (w.logs es).clients = w.clients := rfl
@[simp] theorem logs_flags (w : Wm) (es : List Call) : (w.logs es).flags = w.flags := rfl
@[simp] theorem logs_stack_top_app (w : Wm) (es : List Call) :
    (w.logs es).stack_top_app = w.stack_top_app := rfl
@[simp] theorem logs_have_titlebar_panel (w : Wm) (es : List Call) :
    (w.logs es).have_titlebar_panel = w.have_titlebar_panel := rfl
@[simp] theorem logs_theme (w : Wm) (es : List Call) :
    (w.logs es).mbtheme_has_titlebar_panel = w.mbtheme_has_titlebar_panel := rfl
@[simp] theorem logs_client? (w : Wm) (es : List Call) (p : ClientPtr) :
    (w.logs es).client? p = w.client? p := rfl
@[simp] theorem logs_erase (w : Wm) (es : List Call) : (w.logs es).erase = w.erase := rfl

@[simp] theorem set_flags_calls (w : Wm) (f : Nat) : (w.set_flags f).calls = w.calls := rfl
@[simp] theorem set_flags_clients (w : Wm) (f : Nat) : (w.set_flags f).clients = w.clients := rfl
@[simp] theorem set_flags_flags (w : Wm) (f : Nat) : (w.set_flags f).flags = f := rfl
@[simp] theorem set_flags_stack_top_app (w : Wm) (f : Nat) :
    (w.set_flags f).stack_top_app = w.stack_top_app := rfl
@[simp] theorem set_flags_have_titlebar_panel (w : Wm) (f : Nat) :
    (w.set_flags f).have_titlebar_panel = w.have_titlebar_panel := rfl
@[simp] theorem set_flags_theme (w : Wm) (f : Nat) :
    (w.set_flags f).mbtheme_has_titlebar_panel = w.mbtheme_has_titlebar_panel := rfl
@[simp] theorem set_flags_client? (w : Wm) (f : Nat) (p : ClientPtr) :
    (w.set_flags f).client? p = w.client? p := rfl
@[simp] theorem set_flags_erase (w : Wm) (f : Nat) : (w.set_flags f).erase = w.erase := rfl

@[simp] theorem set_stack_top_app_calls (w : Wm) (p : Option ClientPtr) :
    (w.set_stack_top_app p).calls = w.calls := rfl
@[simp] theorem set_stack_top_app_clients (w : Wm) (p : Option ClientPtr) :
    (w.set_stack_top_app p).clients = w.clients := rfl
@[simp] theorem set_stack_top_app_flags (w : Wm) (p : Option ClientPtr) :
    (w.set_stack_top_app p).flags = w.flags := rfl
@[simp] theorem set_stack_top_app_top (w : Wm) (p : Option ClientPtr) :
    (w.set_stack_top_app p).stack_top_app = p := rfl
@[simp] theorem set_stack_top_app_erase (w : Wm) (p : Option ClientPtr) :
    (w.set_stack_top_app p).erase = w.erase := rfl

theorem foldl_log (f : ClientPtr → Call) (l : List ClientPtr) (w : Wm) :
    l.foldl (fun v t => v.log (f t)) w = w.logs (l.map f) := by
  induction l generalizing w with
  | nil => simp [Wm.logs]
  | cons a t ih =>
    simp only [List.foldl_cons, ih, Wm.logs, log_calls, List.map_cons, List.append_assoc,
      List.singleton_append]
    rfl

theorem log_eq_logs (w : Wm) (e : Call) : w.log e = w.logs [e] := rfl

@[simp] theorem logs_nil (w : Wm) : w.logs [] = w := by
  cases w
  simp [Wm.logs]

@[simp] theorem logs_logs (w : Wm) (a b : List Call) : (w.logs a).logs b = w.logs (a ++ b) := by
  simp [Wm.logs, List.append_assoc]

@[simp] theorem logs_log (w : Wm) (a : List Call) (e : Call) :
    (w.logs a).log e = w.logs (a ++ [e]) := by
  rw [log_eq_logs, logs_logs]

@[simp] theorem transient_list_logs (w : Wm) (es : List Call) (c : ClientPtr) :
    client_get_transient_list (w.logs es) c = client_get_transient_list w c := rfl

theorem raise_panels_eq (K : Defs) (w : Wm) (c : ClientPtr) (cl : Client) :
    raise_panels K w c cl =
      w.logs ((if cl.flags &&& K.CLIENT_FULLSCREEN_FLAG = 0
                then [Call.stack_move_type_above_client [MBCLIENT_TYPE_PANEL] c] else []) ++
        [Call.stack_move_type_above_client [MBCLIENT_TYPE_TOOLBAR] c]) := by
  unfold raise_panels
  by_cases h : cl.flags &&& K.CLIENT_FULLSCREEN_FLAG = 0
  · simp [h, log_eq_logs]
  · simp [h, log_eq_logs]

theorem raise_transients_eq (w : Wm) (c : ClientPtr) :
    raise_transients w c =
      w.logs ((client_get_transient_list w c).map Call.stack_move_top ++
        [Call.stack_move_transients_to_top none]) := by
  simp [raise_transients, foldl_log]

theorem hide_titlebar_panel_spec (K : Defs) (w : Wm) (c : ClientPtr)
    (htp : ∀ tp, w.have_titlebar_panel = some tp → tp < w.clients.length) :
    ∃ es, hide_titlebar_panel K w c = some (w.logs es) ∧
      ∀ e ∈ es, ∃ tp, e = Call.stack_move_below_client tp (some c) := by
  unfold hide_titlebar_panel
  cases htpv : w.have_titlebar_panel with
  | none => exact ⟨[], by simp, by simp⟩
  | some tp =>
    obtain ⟨tcl, htcl⟩ : ∃ tcl, w.client? tp = some tcl :=
      ⟨_, List.getElem?_eq_getElem (htp tp htpv)⟩
    by_cases hth : w.mbtheme_has_titlebar_panel = true
    · by_cases hfl : tcl.flags &&& K.CLIENT_DOCK_TITLEBAR_SHOW_ON_DESKTOP = 0
      · exact ⟨[Call.stack_move_below_client tp (some c)], by simp [hth, htcl, hfl, log_eq_logs],
          by simp⟩
      · exact ⟨[], by rw [logs_nil]; simp [hth, htcl, hfl], by simp⟩
    · exact ⟨[], by rw [logs_nil]; simp [hth], by simp⟩

/-- The type-specific part of the activation writes only `flags`,
`stack_top_app` and the log. -/
theorem activate_by_type_frame {K : Defs} {w w' : Wm} {c : ClientPtr} {cl : Client}
    (h : activate_by_type K w c cl = some w') : w'.erase = w.erase := by
  unfold activate_by_type hide_titlebar_panel activate_dialog activate_panel at h
  simp only [raise_panels_eq, raise_transients_eq] at h
  repeat' split at h
  all_goals first
    | (cases h; done)
    | (simp only [Option.some.injEq] at h; subst h; simp)

/-- The calls that `wm_activate_client` issues before the type-specific part. -/
theorem wm_activate_client_eq (K : Defs) (w : Wm) (c : ClientPtr) (cl : Client)
    (hcl : w.client? c = some cl) :
    wm_activate_client K w (some c) =
      (activate_by_type K (w.logs [Call.XGrabServer, Call.show c]) c cl).map (fun w2 =>
        w2.logs [Call.ewmh_update, Call.ewmh_set_active, Call.stack_sync_to_display,
          Call.XSync, Call.XUngrabServer]) := by
  simp only [wm_activate_client, hcl, log_eq_logs, logs_logs, List.singleton_append,
    List.cons_append, List.nil_append]
  cases activate_by_type K (w.logs [Call.XGrabServer, Call.show c]) c cl <;> rfl

/-- C8: `wm_activate_client` on a null target returns the context unchanged
(log included); on an Application target it ends with the desktop-raised flag
clear and `stack_top_app` equal to the target; on a Desktop target it ends with
the desktop-raised flag set and `stack_top_app` unchanged; on a target of any
other variant it changes neither `flags` nor `stack_top_app`. -/
theorem wm_activate_client_flags (K : Defs) (w : Wm) :
    wm_activate_client K w none = some w ∧
    (∀ c cl, w.client? c = some cl → cl.type = MBCLIENT_TYPE_APP →
      ∃ w', wm_activate_client K w (some c) = some w' ∧
        w'.flags &&& K.DESKTOP_RAISED_FLAG = 0 ∧ w'.stack_top_app = some c) ∧
    (∀ c cl, w.client? c = some cl → cl.type = MBCLIENT_TYPE_DESKTOP →
      (∀ tp, w.have_titlebar_panel = some tp → tp < w.clients.length) →
      ∃ w', wm_activate_client K w (some c) = some w' ∧
        w'.flags &&& K.DESKTOP_RAISED_FLAG = K.DESKTOP_RAISED_FLAG ∧
        (K.DESKTOP_RAISED_FLAG ≠ 0 → w'.flags &&& K.DESKTOP_RAISED_FLAG ≠ 0) ∧
        w'.stack_top_app = w.stack_top_app) ∧
    (∀ c cl, w.client? c = some cl → cl.type ≠ MBCLIENT_TYPE_APP →
      cl.type ≠ MBCLIENT_TYPE_DESKTOP →
      ∃ w', wm_activate_client K w (some c) = some w' ∧
        w'.flags = w.flags ∧ w'.stack_top_app = w.stack_top_app) := by
  refine ⟨rfl, ?_, ?_, ?_⟩
  · intro c cl hcl ht
    rw [wm_activate_client_eq K w c cl hcl]
    unfold activate_by_type
    rw [if_pos (Or.inl ht), if_pos (by rw [ht]; decide)]
    simp [raise_panels_eq, raise_transients_eq, and_not_and]
  · intro c cl hcl ht htp
    rw [wm_activate_client_eq K w c cl hcl]
    unfold activate_by_type
    rw [if_pos (Or.inr ht), if_neg (not_not.mpr ht)]
    simp only [raise_panels_eq, raise_transients_eq, logs_logs, logs_flags]
    obtain ⟨es, he, _⟩ := hide_titlebar_panel_spec K
      ((w.logs ([Call.XGrabServer, Call.show c] ++
          ((if cl.flags &&& K.CLIENT_FULLSCREEN_FLAG = 0
            then [Call.stack_move_type_above_client [MBCLIENT_TYPE_PANEL] c] else []) ++
            [Call.stack_move_type_above_client [MBCLIENT_TYPE_TOOLBAR] c]) ++
          (List.map Call.stack_move_top (client_get_transient_list w c) ++
            [Call.stack_move_transients_to_top none]))).set_flags
        (w.flags ||| K.DESKTOP_RAISED_FLAG)) c (by simpa using htp)
    simp only [transient_list_logs] at he ⊢
    rw [he]
    refine ⟨_, rfl, by simp [or_and_self], ?_, by simp⟩
    intro hK
    simp only [logs_flags, set_flags_flags, or_and_self]
    exact hK
  · intro c cl hcl ha hd
    rw [wm_activate_client_eq K w c cl hcl]
    unfold activate_by_type
    rw [if_neg (by simp [ha, hd])]
    by_cases hdl : cl.type = MBCLIENT_TYPE_DIALOG
    · rw [if_pos hdl]
      unfold activate_dialog
      split_ifs <;> simp
    · rw [if_neg hdl]
      by_cases hp : cl.type = MBCLIENT_TYPE_PANEL
      · rw [if_pos hp]
        unfold activate_panel
        split_ifs <;> simp
      · rw [if_neg hp]
        simp

/-- Witness for C8 on the sample registry: client 0 is an Application. -/
theorem wm_activate_client_flags_witness :
    ∃ w', wm_activate_client sample_defs sample_wm2 (some 0) = some w' ∧
      w'.flags &&& sample_defs.DESKTOP_RAISED_FLAG = 0 ∧ w'.stack_top_app = some 0 :=
  (wm_activate_client_flags sample_defs sample_wm2).2.1 0
    { sample_client MBCLIENT_TYPE_APP 10 11 12 1 2 with flags := 2 } rfl rfl

/-- C9 (as stated, refuted): client 0 of the sample registry is a fullscreen
Application, and activating it still issues the move of all Toolbar clients
above it. -/
theorem wm_activate_client_fullscreen_counterexample :
    (sample_wm2.client? 0).map
        (fun cl => (cl.type, cl.flags &&& sample_defs.CLIENT_FULLSCREEN_FLAG)) =
      some (MBCLIENT_TYPE_APP, 2) ∧
    ∃ w', wm_activate_client sample_defs sample_wm2 (some 0) = some w' ∧
      Call.stack_move_type_above_client [MBCLIENT_TYPE_TOOLBAR] 0 ∈ w'.calls ∧
      Call.stack_move_type_above_client [MBCLIENT_TYPE_PANEL] 0 ∉ w'.calls := by
  refine ⟨by decide, _, rfl, by decide, by decide⟩

/-- C9 (amended): for an Application or Desktop target, right after
`XGrabServer` and `show` the activation moves all Panel clients above the
target if and only if the target is not flagged fullscreen, and then, in both
cases, moves all Toolbar clients above it; no other bulk move above a client
is issued. -/
theorem wm_activate_client_raise_panels (K : Defs) (w : Wm) (c : ClientPtr) (cl : Client)
    (hcl : w.client? c = some cl)
    (ht : cl.type = MBCLIENT_TYPE_APP ∨ cl.type = MBCLIENT_TYPE_DESKTOP)
    (htp : ∀ tp, w.have_titlebar_panel = some tp → tp < w.clients.length) :
    ∃ w' rest, wm_activate_client K w (some c) = some w' ∧
      w'.calls = w.calls ++ [Call.XGrabServer, Call.show c] ++
        (if cl.flags &&& K.CLIENT_FULLSCREEN_FLAG = 0
          then [Call.stack_move_type_above_client [MBCLIENT_TYPE_PANEL] c] else []) ++
        [Call.stack_move_type_above_client [MBCLIENT_TYPE_TOOLBAR] c] ++ rest ∧
      ∀ e ∈ rest, ∀ ts p, e ≠ Call.stack_move_type_above_client ts p := by
  rw [wm_activate_client_eq K w c cl hcl]
  unfold activate_by_type
  rw [if_pos ht]
  simp only [raise_panels_eq, raise_transients_eq, logs_logs, logs_flags, transient_list_logs]
  by_cases hd : cl.type = MBCLIENT_TYPE_DESKTOP
  · rw [if_neg (not_not.mpr hd)]
    obtain ⟨es, he, hes⟩ := hide_titlebar_panel_spec K
      ((w.logs ([Call.XGrabServer, Call.show c] ++
          ((if cl.flags &&& K.CLIENT_FULLSCREEN_FLAG = 0
            then [Call.stack_move_type_above_client [MBCLIENT_TYPE_PANEL] c] else []) ++
            [Call.stack_move_type_above_client [MBCLIENT_TYPE_TOOLBAR] c]) ++
          (List.map Call.stack_move_top (client_get_transient_list w c) ++
            [Call.stack_move_transients_to_top none]))).set_flags
        (w.flags ||| K.DESKTOP_RAISED_FLAG)) c (by simpa using htp)
    rw [he]
    refine ⟨_, List.map Call.stack_move_top (client_get_transient_list w c) ++
      [Call.stack_move_transients_to_top none] ++ es ++
      [Call.ewmh_update, Call.ewmh_set_active, Call.stack_sync_to_display,
        Call.XSync, Call.XUngrabServer], rfl, by simp [List.append_assoc], ?_⟩
    intro e he ts p
    simp only [List.mem_append, List.mem_map, List.mem_cons, List.mem_singleton,
      List.not_mem_nil, or_false] at he
    rcases he with ((⟨t, _, rfl⟩ | rfl) | h) | h
    · simp
    · simp
    · obtain ⟨tp, rfl⟩ := hes e h
      simp
    · rcases h with rfl | rfl | rfl | rfl | rfl <;> simp
  · rw [if_pos hd]
    refine ⟨_, List.map Call.stack_move_top (client_get_transient_list w c) ++
      [Call.stack_move_transients_to_top none] ++
      [Call.ewmh_update, Call.ewmh_set_active, Call.stack_sync_to_display,
        Call.XSync, Call.XUngrabServer], rfl, by simp [List.append_assoc], ?_⟩
    intro e he ts p
    simp only [List.mem_append, List.mem_map, List.mem_cons, List.mem_singleton,
      List.not_mem_nil, or_false] at he
    rcases he with (⟨t, _, rfl⟩ | rfl) | h
    · simp
    · simp
    · rcases h with rfl | rfl | rfl | rfl | rfl <;> simp

/-- Witness for C9 (amended) on the sample registry. -/
theorem wm_activate_client_raise_panels_witness :
    ∃ w' rest, wm_activate_client sample_defs sample_wm2 (some 2) = some w' ∧
      w'.calls = sample_wm2.calls ++ [Call.XGrabServer, Call.show 2] ++
        (if (sample_client MBCLIENT_TYPE_DESKTOP 30 30 0 0 1).flags &&&
              sample_defs.CLIENT_FULLSCREEN_FLAG = 0
          then [Call.stack_move_type_above_client [MBCLIENT_TYPE_PANEL] 2] else []) ++
        [Call.stack_move_type_above_client [MBCLIENT_TYPE_TOOLBAR] 2] ++ rest ∧
      ∀ e ∈ rest, ∀ ts p, e ≠ Call.stack_move_type_above_client ts p :=
  wm_activate_client_raise_panels sample_defs sample_wm2 2
    (sample_client MBCLIENT_TYPE_DESKTOP 30 30 0 0 1) rfl (Or.inr rfl)
    (by intro tp h; simp [sample_wm2] at h)

/-- C10 (code evaluated): for a Dialog target the test
`!w->flags & DESKTOP_RAISED_FLAG` is zero whenever `w->flags` is any non-zero
word, so no Toolbar or Panel is moved below the dialog's anchor, also when the
desktop-raised bit of that word is clear. -/
theorem wm_activate_client_dialog_flags (K : Defs) (w : Wm) (c : ClientPtr) (cl : Client)
    (hcl : w.client? c = some cl) (ht : cl.type = MBCLIENT_TYPE_DIALOG) (hf : w.flags ≠ 0) :
    wm_activate_client K w (some c) =
      some (w.logs [Call.XGrabServer, Call.show c, Call.ewmh_update, Call.ewmh_set_active,
        Call.stack_sync_to_display, Call.XSync, Call.XUngrabServer]) := by
  rw [wm_activate_client_eq K w c cl hcl]
  unfold activate_by_type
  rw [if_neg (by rw [ht]; decide), if_pos ht]
  unfold activate_dialog
  simp [c_not, hf]

/-- Witness for C10: in the sample registry with `w->flags = 1` the
desktop-raised bit (8) is clear and the Dialog at address 1 is activated
without any move of Toolbars and Panels. -/
theorem wm_activate_client_dialog_flags_witness :
    (1 : Nat) &&& sample_defs.DESKTOP_RAISED_FLAG = 0 ∧
    wm_activate_client sample_defs (sample_wm2.set_flags 1) (some 1) =
      some ((sample_wm2.set_flags 1).logs [Call.XGrabServer, Call.show 1, Call.ewmh_update,
        Call.ewmh_set_active, Call.stack_sync_to_display, Call.XSync, Call.XUngrabServer]) :=
  ⟨by decide, wm_activate_client_dialog_flags sample_defs (sample_wm2.set_flags 1) 1
    (sample_client MBCLIENT_TYPE_DIALOG 20 21 22 2 0) rfl rfl (by decide)⟩

/-! ## Theorems: client classifier -/

@[simp] theorem set_clients_clients (w : Wm) (cs : List Client) :
    (w.set_clients cs).clients = cs := rfl
@[simp] theorem set_clients_calls (w : Wm) (cs : List Client) :
    (w.set_clients cs).calls = w.calls := rfl
@[simp] theorem set_clients_head_client (w : Wm) (cs : List Client) :
    (w.set_clients cs).head_client = w.head_client := rfl
@[simp] theorem set_clients_main_client (w : Wm) (cs : List Client) :
    (w.set_clients cs).main_client = w.main_client := rfl
@[simp] theorem set_clients_have_titlebar_panel (w : Wm) (cs : List Client) :
    (w.set_clients cs).have_titlebar_panel = w.have_titlebar_panel := rfl
@[simp] theorem set_clients_client? (w : Wm) (cs : List Client) (p : ClientPtr) :
    (w.set_clients cs).client? p = cs[p]? := rfl
@[simp] theorem set_clients_erase_heap (w : Wm) (cs : List Client) :
    (w.set_clients cs).erase_heap = w.erase_heap := rfl

theorem erase_clients {w w' : Wm} (h : w'.erase = w.erase) : w'.clients = w.clients := by
  have e := congrArg Wm.clients h
  exact e
theorem erase_head_client {w w' : Wm} (h : w'.erase = w.erase) :
    w'.head_client = w.head_client := by
  have e := congrArg Wm.head_client h
  exact e
theorem erase_heap_calls {w w' : Wm} (h : w'.erase_heap = w.erase_heap) : w'.calls = w.calls := by
  have e := congrArg Wm.calls h
  exact e
theorem erase_heap_have_titlebar_panel {w w' : Wm} (h : w'.erase_heap = w.erase_heap) :
    w'.have_titlebar_panel = w.have_titlebar_panel := by
  have e := congrArg Wm.have_titlebar_panel h
  exact e

/-- A failing constructor builds nothing and only logs its call. -/
theorem client_new_fail (info : WinInfo) (s : MkState) (type : MBClientType) (win : Window)
    (trans : Option ClientPtr) (hc : info.ctor s.n = none) :
    client_new info s type win trans =
      some { w := s.w.log (Call.client_new type win trans), c := none, n := s.n + 1 } := by
  simp [client_new, hc]

/-- A succeeding constructor on a well-formed registry. -/
theorem client_new_ok (info : WinInfo) (s : MkState) (type : MBClientType) (win : Window)
    (trans : Option ClientPtr) (init : Client) (ring : List ClientPtr)
    (hwf : s.w.WF ring) (hc : info.ctor s.n = some init) :
    ∃ w1 cl, client_new info s type win trans =
        some { w := w1, c := some s.w.clients.length, n := s.n + 1 } ∧
      w1.clients.length = s.w.clients.length + 1 ∧
      w1.client? s.w.clients.length = some cl ∧
      cl.type = type ∧ cl.window = win ∧ cl.trans = trans ∧ cl.flags = init.flags ∧
      w1.calls = s.w.calls ++ [Call.client_new type win trans] ∧
      w1.have_titlebar_panel = s.w.have_titlebar_panel := by
  have hwf' : (s.w.log (Call.client_new type win trans)).WF ring := hwf
  obtain ⟨w1, ring', e, _, _, _, hl, hu, hfr, _, _⟩ :=
    ring_insert_wf (s.w.log (Call.client_new type win trans)) ring
      { init with type := type, window := win, trans := trans, next := none, prev := none } hwf'
  have hget : (w1.clients[s.w.clients.length]?).map Client.unlinked =
      (w1.clients.map Client.unlinked)[s.w.clients.length]? := by
    rw [List.getElem?_map]
  rw [hu] at hget
  simp only [log_clients, List.getElem?_append_right (Nat.le_of_eq (List.length_map _ _)),
    List.length_map, Nat.sub_self, List.getElem?_cons_zero] at hget
  cases hcl : w1.clients[s.w.clients.length]? with
  | none => simp [hcl] at hget
  | some cl =>
    simp only [hcl, Option.map_some', Option.some.injEq] at hget
    refine ⟨w1, cl, ?_, by simpa using hl, hcl, ?_, ?_, ?_, ?_, ?_, ?_⟩
    · simp only [client_new, hc, log_clients]
      have e' : ring_insert ((s.w.log (Call.client_new type win trans)).set_clients
          (s.w.clients ++ [{ init with type := type, window := win, trans := trans,
                                       next := none, prev := none }])) s.w.clients.length =
          some w1 := e
      rw [e']
    · have := congrArg Client.type hget; simpa [Client.unlinked] using this
    · have := congrArg Client.window hget; simpa [Client.unlinked] using this
    · have := congrArg Client.trans hget; simpa [Client.unlinked] using this
    · have := congrArg Client.flags hget; simpa [Client.unlinked] using this
    · rw [hfr]
      rfl
    · rw [hfr]
      rfl

@[simp] theorem ctor_calls_nil : ctor_calls [] = [] := rfl

@[simp] theorem ctor_calls_append (a b : List Call) :
    ctor_calls (a ++ b) = ctor_calls a ++ ctor_calls b := by
  simp [ctor_calls]

theorem ctor_calls_cons (e : Call) (l : List Call) :
    ctor_calls (e :: l) = if is_ctor e = true then e :: ctor_calls l else ctor_calls l := by
  simp [ctor_calls, List.filter_cons]

@[simp] theorem ctor_calls_map_top (l : List ClientPtr) :
    ctor_calls (l.map Call.stack_move_top) = [] := by
  induction l with
  | nil => rfl
  | cons a t ih => simp [ctor_calls_cons, is_ctor, ih]

theorem ctor_calls_below {es : List Call} {c : ClientPtr}
    (h : ∀ e ∈ es, ∃ tp, e = Call.stack_move_below_client tp (some c)) : ctor_calls es = [] := by
  induction es with
  | nil => rfl
  | cons a t ih =>
    obtain ⟨tp, rfl⟩ := h _ (List.mem_cons_self _ _)
    simp [ctor_calls_cons, is_ctor, ih (fun e he => h e (List.mem_cons_of_mem _ he))]

/-- The type-specific part of the activation succeeds when the titlebar panel
pointer is valid, and issues no constructor call. -/
theorem activate_by_type_total (K : Defs) (w : Wm) (c : ClientPtr) (cl : Client)
    (htp : ∀ tp, w.have_titlebar_panel = some tp → tp < w.clients.length) :
    ∃ w2 es, activate_by_type K w c cl = some w2 ∧ w2.calls = w.calls ++ es ∧
      ctor_calls es = [] := by
  unfold activate_by_type
  by_cases ht : cl.type = MBCLIENT_TYPE_APP ∨ cl.type = MBCLIENT_TYPE_DESKTOP
  · rw [if_pos ht]
    simp only [raise_panels_eq, raise_transients_eq, logs_logs, logs_flags, transient_list_logs]
    by_cases hd : cl.type = MBCLIENT_TYPE_DESKTOP
    · rw [if_neg (not_not.mpr hd)]
      obtain ⟨es, he, hes⟩ := hide_titlebar_panel_spec K
        ((w.logs (((if cl.flags &&& K.CLIENT_FULLSCREEN_FLAG = 0
              then [Call.stack_move_type_above_client [MBCLIENT_TYPE_PANEL] c] else []) ++
              [Call.stack_move_type_above_client [MBCLIENT_TYPE_TOOLBAR] c]) ++
            (List.map Call.stack_move_top (client_get_transient_list w c) ++
              [Call.stack_move_transients_to_top none]))).set_flags
          (w.flags ||| K.DESKTOP_RAISED_FLAG)) c (by simpa using htp)
      rw [he]
      refine ⟨_, _, rfl, by simp only [logs_calls, set_flags_calls, List.append_assoc]; rfl, ?_⟩
      have := ctor_calls_below hes
      split_ifs <;> simp [ctor_calls_cons, is_ctor, this]
    · rw [if_pos hd]
      refine ⟨_, _, rfl, by simp only [logs_calls, set_flags_calls, set_stack_top_app_calls]; rfl, ?_⟩
      split_ifs <;> simp [ctor_calls_cons, is_ctor]
  · rw [if_neg ht]
    by_cases hdl : cl.type = MBCLIENT_TYPE_DIALOG
    · rw [if_pos hdl]
      unfold activate_dialog
      split_ifs
      · exact ⟨_, _, rfl, by simp only [log_calls]; rfl, by simp [ctor_calls_cons, is_ctor]⟩
      · exact ⟨_, [], rfl, by simp, rfl⟩
    · rw [if_neg hdl]
      by_cases hp : cl.type = MBCLIENT_TYPE_PANEL
      · rw [if_pos hp]
        unfold activate_panel
        split_ifs
        · exact ⟨_, _, rfl, by simp only [log_calls]; rfl, by simp [ctor_calls_cons, is_ctor]⟩
        · exact ⟨_, [], rfl, by simp, rfl⟩
      · rw [if_neg hp]
        exact ⟨_, [], rfl, by simp, rfl⟩

/-- Activation of a valid client succeeds, writes only `flags`,
`stack_top_app` and the log, and issues no constructor call. -/
theorem wm_activate_client_total (K : Defs) (w : Wm) (c : ClientPtr) (cl : Client)
    (hcl : w.client? c = some cl)
    (htp : ∀ tp, w.have_titlebar_panel = some tp → tp < w.clients.length) :
    ∃ w' es, wm_activate_client K w (some c) = some w' ∧ w'.erase = w.erase ∧
      w'.calls = w.calls ++ es ∧ ctor_calls es = [] := by
  rw [wm_activate_client_eq K w c cl hcl]
  obtain ⟨w2, es, h2, hc2, he2⟩ := activate_by_type_total K
    (w.logs [Call.XGrabServer, Call.show c]) c cl (by simpa using htp)
  have hfr := activate_by_type_frame h2
  rw [h2]
  refine ⟨_, [Call.XGrabServer, Call.show c] ++ es ++ [Call.ewmh_update, Call.ewmh_set_active,
    Call.stack_sync_to_display, Call.XSync, Call.XUngrabServer], rfl, ?_, ?_, ?_⟩
  · simpa using hfr
  · simp [hc2, List.append_assoc]
  · simp [he2, ctor_calls_cons, is_ctor]

/-- The set-up of a valid client succeeds, writes only `flags`,
`stack_top_app` and the log, and issues no constructor call. -/
theorem setup_new_client_total (K : Defs) (w : Wm) (c : ClientPtr) (cl : Client)
    (hcl : w.client? c = some cl)
    (htp : ∀ tp, w.have_titlebar_panel = some tp → tp < w.clients.length) :
    ∃ w' es, setup_new_client K w c = some w' ∧ w'.erase = w.erase ∧
      w'.calls = w.calls ++ es ∧ ctor_calls es = [] := by
  unfold setup_new_client
  simp only [hcl]
  obtain ⟨w4, es, h4, hfr, hc4, he4⟩ := wm_activate_client_total K
    (w.logs
      ([Call.XChangeProperty_NET_WM_DESKTOP cl.window, Call.ewmh_set_allowed_actions c] ++
       (if w.config.no_cursor = true ∧ cl.type ≠ MBCLIENT_TYPE_PANEL
          then [Call.XDefineCursor cl.window] else []) ++
       [Call.configure c, Call.comp_engine_client_init c, Call.reparent c, Call.move_resize c]))
    c cl (by simpa using hcl) (by simpa using htp)
  rw [h4]
  refine ⟨_, _, rfl, by simpa using hfr, by simp only [logs_calls, hc4, List.append_assoc]; rfl, ?_⟩
  split_ifs <;> simp [he4, ctor_calls_cons, is_ctor]

theorem xor_flags_ok (s : MkState) (c : ClientPtr) (m : Nat) (cl : Client)
    (hcl : s.w.client? c = some cl) :
    xor_flags s c m =
      some { s with
        w := Wm.set_clients s.w (s.w.clients.set c { cl with flags := cl.flags ^^^ m }) } := by
  have hcl' : s.w.clients[c]? = some cl := hcl
  simp [xor_flags, heap_modify, hcl']

theorem getElem?_set_self_of_some {cs : List Client} {c : ClientPtr} {cl v : Client}
    (h : cs[c]? = some cl) : (cs.set c v)[c]? = some v := by
  have hlt : c < cs.length := by
    by_contra hn
    rw [List.getElem?_eq_none (Nat.le_of_not_lt hn)] at h
    cases h
  simp [hlt]

/-- From a state that holds a valid client, the default step keeps it and the
set-up runs to the exit. -/
theorem finish_with_client (K : Defs) (info : WinInfo) (s : MkState) (win : Window)
    (c : ClientPtr) (cl : Client) (hc : s.c = some c) (hcl : s.w.client? c = some cl)
    (htp : ∀ tp, s.w.have_titlebar_panel = some tp → tp < s.w.clients.length) :
    ∃ w' es, make_new_client_finish K info s win = some (w', some c) ∧
      w'.erase = s.w.erase ∧ w'.calls = s.w.calls ++ es ∧ ctor_calls es = [] := by
  obtain ⟨w5, es, h5, hfr, hc5, he5⟩ := setup_new_client_total K s.w c cl hcl htp
  refine ⟨(w5.log Call.XUngrabServer).log Call.XFlush, es ++ [Call.XUngrabServer, Call.XFlush],
    ?_, by simpa using hfr, by simp [hc5], by simp [he5, ctor_calls_cons, is_ctor]⟩
  simp [make_new_client_finish, default_main, hc, h5, make_new_client_end]

theorem ring_walk_congr {cs cs' : List Client} (hd : ClientPtr)
    (hk : ∀ p : Nat, (cs'[p]?).map Client.key = (cs[p]?).map Client.key) :
    ∀ (fuel : Nat) (c : ClientPtr), ring_walk cs' hd fuel c = ring_walk cs hd fuel c
  | 0, _ => rfl
  | fuel + 1, c => by
    have h := hk c
    unfold ring_walk
    cases h1 : cs'[c]? with
    | none =>
      cases h2 : cs[c]? with
      | none => rfl
      | some b => simp [h1, h2] at h
    | some a =>
      cases h2 : cs[c]? with
      | none => simp [h1, h2] at h
      | some b =>
        simp only [h1, h2, Option.map_some', Option.some.injEq, Client.key, Prod.mk.injEq] at h
        simp only [h.2]
        cases b.next with
        | none => rfl
        | some n => simp only [ring_walk_congr hd hk fuel n]

theorem find_transient_owner_congr (info : WinInfo) {w w' : Wm}
    (hh : w'.head_client = w.head_client)
    (hk : w'.clients.map Client.key = w.clients.map Client.key) :
    find_transient_owner info w' = find_transient_owner info w := by
  have hlen : w'.clients.length = w.clients.length := by
    have := congrArg List.length hk
    simpa using this
  have hget : ∀ p : Nat, (w'.clients[p]?).map Client.key = (w.clients[p]?).map Client.key := by
    intro p
    rw [← List.getElem?_map, ← List.getElem?_map, hk]
  have hen : stack_enumerate w' = stack_enumerate w := by
    unfold stack_enumerate
    rw [hh, hlen]
    cases w.head_client with
    | none => rfl
    | some hd => exact ring_walk_congr hd hget _ _
  have hwin : ∀ (f : Window → Bool),
      (fun c => match w'.client? c with | some cl => f cl.window | none => false) =
      (fun c => match w.client? c with | some cl => f cl.window | none => false) := by
    intro f
    funext c
    have h := hget c
    unfold Wm.client?
    cases h1 : w'.clients[c]? with
    | none =>
      cases h2 : w.clients[c]? with
      | none => rfl
      | some b => simp [h1, h2] at h
    | some a =>
      cases h2 : w.clients[c]? with
      | none => simp [h1, h2] at h
      | some b =>
        simp only [h1, h2, Option.map_some', Option.some.injEq, Client.key, Prod.mk.injEq] at h
        simp only [h.1]
  unfold find_transient_owner wm_find_client
  rw [hh, hen, hwin (fun x => x == info.trans_win)]
  cases info.wmhints with
  | none => rfl
  | some h => simp only [hwin (fun x => h.window_group == x)]

theorem map_key_set {cs : List Client} {c : ClientPtr} {cl v : Client}
    (h : cs[c]? = some cl) (hv : v.key = cl.key) :
    (cs.set c v).map Client.key = cs.map Client.key := by
  apply List.ext_getElem?
  intro p
  simp only [List.getElem?_map, List.getElem?_set]
  by_cases hp : c = p
  · subst hp
    have hlt : c < cs.length := by
      by_contra hn
      rw [List.getElem?_eq_none (Nat.le_of_not_lt hn)] at h
      cases h
    simp [hlt, h, hv]
  · simp [hp]

theorem apply_mwm_with_client (info : WinInfo) (s : MkState) (win : Window)
    (c : ClientPtr) (cl : Client) (hc : s.c = some c) (hcl : s.w.client? c = some cl) :
    ∃ s2 cl2, apply_mwm info s win = some s2 ∧ s2.c = some c ∧
      s2.w.client? c = some cl2 ∧ cl2.type = cl.type ∧ cl2.window = cl.window ∧
      cl2.trans = cl.trans ∧
      cl2.flags = (if info.mwm_flags ≠ 0 then cl.flags ^^^ info.mwm_flags else cl.flags) ∧
      s2.w.calls = s.w.calls ∧ s2.w.have_titlebar_panel = s.w.have_titlebar_panel ∧
      s2.w.clients.length = s.w.clients.length ∧ s2.w.head_client = s.w.head_client ∧
      s2.w.clients.map Client.key = s.w.clients.map Client.key := by
  unfold apply_mwm
  by_cases hm : info.mwm_flags ≠ 0
  · simp only [hm, if_true, hc, ne_eq, not_false_eq_true]
    rw [xor_flags_ok s c info.mwm_flags cl hcl]
    refine ⟨_, { cl with flags := cl.flags ^^^ info.mwm_flags }, rfl, hc, ?_, rfl, rfl, rfl, rfl,
      rfl, rfl, by simp, rfl, ?_⟩
    · simp only [set_clients_client?]
      exact getElem?_set_self_of_some hcl
    · simp only [set_clients_clients]
      exact map_key_set hcl rfl
  · simp only [hm, if_false]
    exact ⟨s, cl, rfl, hc, hcl, rfl, rfl, rfl, rfl, rfl, rfl, rfl, rfl, rfl⟩

theorem apply_transient_with_client (info : WinInfo) (s : MkState) (win : Window)
    (c : ClientPtr) (cl : Client) (hc : s.c = some c) (hcl : s.w.client? c = some cl) :
    ∃ s3 cl3, apply_transient info s win = some s3 ∧ s3.c = some c ∧
      s3.w.client? c = some cl3 ∧ cl3.type = cl.type ∧ cl3.window = cl.window ∧
      cl3.flags = cl.flags ∧
      cl3.trans = (if (info.trans_win ≠ 0 ∧ info.trans_win ≠ win) ∧ cl.type = MBCLIENT_TYPE_DIALOG
        then find_transient_owner info s.w else cl.trans) ∧
      s3.w.calls = s.w.calls ∧ s3.w.have_titlebar_panel = s.w.have_titlebar_panel ∧
      s3.w.clients.length = s.w.clients.length ∧ s3.w.head_client = s.w.head_client ∧
      s3.w.clients.map Client.key = s.w.clients.map Client.key := by
  unfold apply_transient
  have hcl' : s.w.clients[c]? = some cl := hcl
  by_cases hh : info.trans_win ≠ 0 ∧ info.trans_win ≠ win
  · by_cases hd : cl.type = MBCLIENT_TYPE_DIALOG
    · rw [if_pos hh]
      simp only [hc, hcl, heap_modify, hcl']
      rw [if_pos hd]
      refine ⟨_, { cl with trans := find_transient_owner info s.w }, rfl, rfl, ?_, rfl, rfl, rfl,
        by simp [hh, hd], rfl, rfl, by simp, rfl, ?_⟩
      · simp only [set_clients_client?]
        exact getElem?_set_self_of_some hcl
      · simp only [set_clients_clients]
        exact map_key_set hcl rfl
    · rw [if_pos hh]
      simp only [hc, hcl]
      rw [if_neg hd]
      exact ⟨s, cl, rfl, hc, hcl, rfl, rfl, rfl, by simp [hd], rfl, rfl, rfl, rfl, rfl⟩
  · rw [if_neg hh]
    exact ⟨s, cl, rfl, hc, hcl, rfl, rfl, rfl, by simp [hh], rfl, rfl, rfl, rfl, rfl⟩

/-- From a state that already holds a client: the decoration hints toggle its
flags, a transient-for hint sets the owner of a Dialog, the variant stays, and
no constructor is called. -/
theorem tail_with_client (K : Defs) (info : WinInfo) (s : MkState) (win : Window)
    (c : ClientPtr) (cl : Client) (hc : s.c = some c) (hcl : s.w.client? c = some cl)
    (htp : ∀ tp, s.w.have_titlebar_panel = some tp → tp < s.w.clients.length) :
    ∃ w' cl' es, make_new_client_tail K info s win = some (w', some c) ∧
      w'.client? c = some cl' ∧ cl'.type = cl.type ∧ cl'.window = cl.window ∧
      cl'.flags = (if info.mwm_flags ≠ 0 then cl.flags ^^^ info.mwm_flags else cl.flags) ∧
      cl'.trans = (if (info.trans_win ≠ 0 ∧ info.trans_win ≠ win) ∧ cl.type = MBCLIENT_TYPE_DIALOG
        then find_transient_owner info w' else cl.trans) ∧
      w'.calls = s.w.calls ++ es ∧ ctor_calls es = [] := by
  obtain ⟨s2, cl2, h2, hc2, hcl2, hty2, hwin2, htr2, hfl2, hcalls2, htp2, hlen2, hhd2, hk2⟩ :=
    apply_mwm_with_client info s win c cl hc hcl
  obtain ⟨s3, cl3, h3, hc3, hcl3, hty3, hwin3, hfl3, htr3, hcalls3, htp3, hlen3, hhd3, hk3⟩ :=
    apply_transient_with_client info s2 win c cl2 hc2 hcl2
  obtain ⟨w', es, hfin, hfr, hcalls, hes⟩ := finish_with_client K info s3 win c cl3 hc3 hcl3
    (by rw [htp3, htp2, hlen3, hlen2]; exact htp)
  have hclients : w'.clients = s3.w.clients := erase_clients hfr
  have hown : find_transient_owner info w' = find_transient_owner info s2.w :=
    find_transient_owner_congr info ((erase_head_client hfr).trans hhd3) (by rw [hclients, hk3])
  refine ⟨w', cl3, es, ?_, ?_, by rw [hty3, hty2], by rw [hwin3, hwin2], by rw [hfl3, hfl2], ?_,
    by rw [hcalls, hcalls3, hcalls2], hes⟩
  · simp [make_new_client_tail, h2, h3, hfin]
  · show w'.clients[c]? = _
    rw [hclients]
    exact hcl3
  · rw [htr3, hown, hty2, htr2]

theorem xor_and_of_and_eq_zero (a b : Nat) (h : a &&& b = 0) : (a ^^^ b) &&& b = b := by
  apply Nat.eq_of_testBit_eq
  intro i
  have hi := congrArg (fun n => n.testBit i) h
  simp only [Nat.testBit_and, Nat.zero_testBit] at hi
  simp only [Nat.testBit_and, Nat.testBit_xor]
  revert hi
  cases a.testBit i <;> cases b.testBit i <;> simp

/-- A constructor that succeeds on a well-formed registry, followed by the
`if (c == NULL) goto end;` test and the flag statement. -/
theorem construct_ok (info : WinInfo) (s : MkState) (type : MBClientType) (win : Window)
    (trans : Option ClientPtr) (m : Nat) (init : Client) (ring : List ClientPtr)
    (hwf : s.w.WF ring) (hc : info.ctor s.n = some init) :
    ∃ s1 cl1, built_or_end (client_new info s type win trans) m = some (Step.cont s1) ∧
      s1.c = some s.w.clients.length ∧ s1.w.client? s.w.clients.length = some cl1 ∧
      cl1.type = type ∧ cl1.window = win ∧ cl1.trans = trans ∧ cl1.flags = init.flags ^^^ m ∧
      s1.w.calls = s.w.calls ++ [Call.client_new type win trans] ∧
      s1.w.have_titlebar_panel = s.w.have_titlebar_panel ∧
      s1.w.clients.length = s.w.clients.length + 1 := by
  obtain ⟨w1, cl, e, hlen, hcl, hty, hwin, htr, hfl, hcalls, htp⟩ :=
    client_new_ok info s type win trans init ring hwf hc
  rw [e]
  by_cases hm : m = 0
  · subst hm
    refine ⟨{ w := w1, c := some s.w.clients.length, n := s.n + 1 }, cl, by simp [built_or_end],
      rfl, hcl, hty, hwin, htr, by simpa using hfl, hcalls, htp, hlen⟩
  · have hx := xor_flags_ok { w := w1, c := some s.w.clients.length, n := s.n + 1 }
      s.w.clients.length m cl hcl
    refine ⟨{ w := w1.set_clients (w1.clients.set s.w.clients.length
                { cl with flags := cl.flags ^^^ m }),
              c := some s.w.clients.length, n := s.n + 1 },
      { cl with flags := cl.flags ^^^ m }, ?_, rfl, ?_,
      hty, hwin, htr, by simp [hfl], hcalls, htp, by simpa using hlen⟩
    · simp only [built_or_end, hm, if_false, hx]
    · simp only [set_clients_client?]
      exact getElem?_set_self_of_some hcl

/-- A constructor that fails, followed by `if (c == NULL) goto end;`. -/
theorem construct_fail (info : WinInfo) (s : MkState) (type : MBClientType) (win : Window)
    (trans : Option ClientPtr) (m : Nat) (hc : info.ctor s.n = none) :
    built_or_end (client_new info s type win trans) m =
      some (Step.goto_end
        { w := s.w.log (Call.client_new type win trans), c := none, n := s.n + 1 }) := by
  rw [client_new_fail info s type win trans hc]
  rfl

/-- The whole function when the first step constructs a client. -/
theorem make_after_construct (K : Defs) (info : WinInfo) (w : Wm) (win : Window)
    (type : MBClientType) (m : Nat) (init : Client) (ring : List ClientPtr)
    (hwf : w.WF ring)
    (htp : ∀ tp, w.have_titlebar_panel = some tp → tp < w.clients.length)
    (hcls : classify_by_type K info { w := w.log Call.XGrabServer, c := none, n := 0 } win =
      built_or_end (client_new info { w := w.log Call.XGrabServer, c := none, n := 0 }
        type win none) m)
    (hc : info.ctor 0 = some init) :
    ∃ w' cl', wm_make_new_client K info w win = some (w', some w.clients.length) ∧
      w'.client? w.clients.length = some cl' ∧ cl'.type = type ∧ cl'.window = win ∧
      cl'.flags = (if info.mwm_flags ≠ 0 then (init.flags ^^^ m) ^^^ info.mwm_flags
        else init.flags ^^^ m) ∧
      cl'.trans = (if (info.trans_win ≠ 0 ∧ info.trans_win ≠ win) ∧ type = MBCLIENT_TYPE_DIALOG
        then find_transient_owner info w' else none) ∧
      ctor_calls w'.calls = ctor_calls w.calls ++ [Call.client_new type win none] := by
  have hwf' : (w.log Call.XGrabServer).WF ring := hwf
  obtain ⟨s1, cl1, e1, hc1, hcl1, hty1, hwin1, htr1, hfl1, hcalls1, htp1, hlen1⟩ :=
    construct_ok info { w := w.log Call.XGrabServer, c := none, n := 0 } type win none m init
      ring hwf' hc
  simp only [log_clients, log_calls, log_have_titlebar_panel] at hc1 hcl1 hcalls1 htp1 hlen1
  obtain ⟨w', cl', es, ht, hcl', hty', hwin', hfl', htr', hcalls', hes⟩ :=
    tail_with_client K info s1 win w.clients.length cl1 hc1 hcl1
      (by intro tp h; rw [htp1] at h; rw [hlen1]; exact Nat.lt_succ_of_lt (htp tp h))
  refine ⟨w', cl', ?_, hcl', by rw [hty', hty1], by rw [hwin', hwin1], by rw [hfl', hfl1], ?_, ?_⟩
  · unfold wm_make_new_client
    rw [hcls, e1]
    exact ht
  · rw [htr', hty1, htr1]
  · rw [hcalls', hcalls1]
    simp [hes, ctor_calls_cons, is_ctor]

theorem find_transient_owner_log (info : WinInfo) (w : Wm) (e : Call) :
    find_transient_owner info (w.log e) = find_transient_owner info w :=
  find_transient_owner_congr info rfl rfl

/-- On a well-formed registry the owner lookup of the code is the owner of
the classifier's rule. -/
theorem find_transient_owner_eq (info : WinInfo) (w : Wm) (ring : List ClientPtr)
    (hring : IsRing w.clients w.head_client ring) :
    find_transient_owner info w = resolved_owner w ring info := by
  have hen := stack_enumerate_eq hring
  have hfun : ∀ win, (fun c => match w.client? c with
      | some cl => cl.window == win
      | none => false) = has_window w win := by
    intro win
    funext c
    unfold has_window
    cases w.client? c with
    | none => rfl
    | some cl => exact BEq.comm
  have hfun2 : ∀ win, (fun c => match w.client? c with
      | some cl => win == cl.window
      | none => false) = has_window w win := by
    intro win
    funext c
    rfl
  unfold find_transient_owner resolved_owner
  rw [wm_find_client_eq hring]
  simp only [hfun, hfun2, hen]
  cases ring.find? (has_window w info.trans_win) with
  | some t => rfl
  | none =>
    cases info.wmhints with
    | none => rfl
    | some h =>
      by_cases hg : h.window_group ≠ 0
      · by_cases hh : w.head_client ≠ none
        · simp [hg, hh]
        · have : ring = [] := by
            have h1 := hring.2.1
            simp only [ne_eq, not_not] at hh
            rw [hh] at h1
            cases ring with
            | nil => rfl
            | cons a t => simp at h1
          subst this
          simp [hg, hh]
      · simp [hg]

theorem classify_unrecognised (K : Defs) (info : WinInfo) (s : MkState) (win : Window)
    (hforce : wm_win_force_dialog s.w info = false)
    (htype : ∀ tp, info.type_prop = some tp → recognised_type K s.w.atoms tp = false) :
    classify_by_type K info s win = some (Step.cont s) := by
  unfold classify_by_type
  simp only [hforce, Bool.false_eq_true, if_false]
  cases htp : info.type_prop with
  | none => rfl
  | some tp =>
    have h := htype tp htp
    simp only [recognised_type, variant_of_type, decide_eq_false_iff_not] at h
    by_cases h1 : tp.realType = XA_ATOM ∧ tp.format = 32
    · simp only [h1, and_self, if_true]
      simp only [h1, true_and] at h
      split_ifs at h ⊢ <;> simp_all
    · simp only [h1, if_false]

/-- C3: a window with no hints (title not matching the force-dialog filter, no
recognised window type, zero decoration flags, no transient-for hint naming
another window) is classified as an Application: the only constructor called
is `main_client_new`; when it fails no client is returned, and when it
succeeds the client it built is the one returned. -/
theorem wm_make_new_client_default (K : Defs) (info : WinInfo) (w : Wm) (win : Window)
    (ring : List ClientPtr) (hwf : w.WF ring)
    (htp : ∀ tp, w.have_titlebar_panel = some tp → tp < w.clients.length)
    (hforce : wm_win_force_dialog w info = false)
    (htype : ∀ tp, info.type_prop = some tp → recognised_type K w.atoms tp = false)
    (hmwm : info.mwm_flags = 0)
    (htrans : info.trans_win = 0 ∨ info.trans_win = win) :
    (info.ctor 0 = none →
      ∃ w', wm_make_new_client K info w win = some (w', none) ∧
        ctor_calls w'.calls =
          ctor_calls w.calls ++ [Call.client_new MBCLIENT_TYPE_APP win none]) ∧
    (∀ init, info.ctor 0 = some init →
      ∃ w' cl', wm_make_new_client K info w win = some (w', some w.clients.length) ∧
        w'.client? w.clients.length = some cl' ∧ cl'.type = MBCLIENT_TYPE_APP ∧
        cl'.window = win ∧
        ctor_calls w'.calls =
          ctor_calls w.calls ++ [Call.client_new MBCLIENT_TYPE_APP win none]) := by
  have hnohint : ¬ (info.trans_win ≠ 0 ∧ info.trans_win ≠ win) := by
    rcases htrans with h | h <;> simp [h]
  have hpre : wm_make_new_client K info w win =
      make_new_client_finish K info { w := w.log Call.XGrabServer, c := none, n := 0 } win := by
    unfold wm_make_new_client
    rw [classify_unrecognised K info _ win hforce htype]
    simp only [make_new_client_tail, apply_mwm, hmwm, apply_transient, hnohint, ne_eq,
      not_true_eq_false, if_false]
  have hfin : make_new_client_finish K info { w := w.log Call.XGrabServer, c := none, n := 0 } win
      = match built_or_end (client_new info { w := w.log Call.XGrabServer, c := none, n := 0 }
          MBCLIENT_TYPE_APP win none) 0 with
        | none => none
        | some (Step.ret w4) => some (w4, none)
        | some (Step.goto_end s4) => some (make_new_client_end s4.w s4.c)
        | some (Step.cont s4) =>
          match s4.c with
          | none => none
          | some c =>
            match setup_new_client K s4.w c with
            | none => none
            | some w5 => some (make_new_client_end w5 (some c)) := rfl
  rw [hpre, hfin]
  refine ⟨?_, ?_⟩
  · intro hc
    rw [construct_fail info _ MBCLIENT_TYPE_APP win none 0 hc]
    refine ⟨_, rfl, ?_⟩
    simp [make_new_client_end, ctor_calls_cons, is_ctor]
  · intro init hc
    have hwf' : (w.log Call.XGrabServer).WF ring := hwf
    obtain ⟨s1, cl1, e1, hc1, hcl1, hty1, hwin1, htr1, hfl1, hcalls1, htp1, hlen1⟩ :=
      construct_ok info { w := w.log Call.XGrabServer, c := none, n := 0 } MBCLIENT_TYPE_APP win
        none 0 init ring hwf' hc
    simp only [log_clients, log_calls, log_have_titlebar_panel] at hc1 hcl1 hcalls1 htp1 hlen1
    obtain ⟨w5, es, h5, hfr, hc5, he5⟩ := setup_new_client_total K s1.w w.clients.length cl1 hcl1
      (by intro tp h; rw [htp1] at h; rw [hlen1]; exact Nat.lt_succ_of_lt (htp tp h))
    rw [e1]
    simp only [hc1, h5]
    refine ⟨_, cl1, rfl, ?_, hty1, hwin1, ?_⟩
    · show ((w5.log Call.XUngrabServer).log Call.XFlush).clients[w.clients.length]? = _
      simp only [log_clients, erase_clients hfr]
      exact hcl1
    · simp [make_new_client_end, hc5, hcalls1, he5, ctor_calls_cons, is_ctor]

/-- Witness for C3: the sample window without hints on the sample registry. -/
theorem wm_make_new_client_default_witness :
    ∃ w' cl', wm_make_new_client sample_defs sample_info sample_wm 30 =
        some (w', some sample_wm.clients.length) ∧
      w'.client? sample_wm.clients.length = some cl' ∧ cl'.type = MBCLIENT_TYPE_APP ∧
      cl'.window = 30 ∧
      ctor_calls w'.calls =
        ctor_calls sample_wm.calls ++ [Call.client_new MBCLIENT_TYPE_APP 30 none] :=
  (wm_make_new_client_default sample_defs sample_info sample_wm 30 [0, 1] sample_wm_wf
    (by intro tp h; simp [sample_wm] at h) rfl (by intro tp h; simp [sample_info] at h) rfl
    (Or.inl rfl)).2 blank_client rfl

/-- C5: when no earlier rule produced a client and the window carries a
transient-for hint naming another window, the transient-for step calls the
Dialog constructor with the owner found by the lookup; on a well-formed
registry that owner is the managed client whose window is the hint target if
there is one, else the first managed client in traversal order whose window is
the group leader, else none; and when the constructor succeeds the returned
client is a Dialog with that owner. -/
theorem wm_make_new_client_transient (K : Defs) (info : WinInfo) (w : Wm) (win : Window)
    (ring : List ClientPtr) (hwf : w.WF ring)
    (htp : ∀ p, w.have_titlebar_panel = some p → p < w.clients.length)
    (hforce : wm_win_force_dialog w info = false)
    (htype : ∀ tp, info.type_prop = some tp → recognised_type K w.atoms tp = false)
    (hmwm : info.mwm_flags = 0)
    (hhint : info.trans_win ≠ 0 ∧ info.trans_win ≠ win) :
    (∀ s : MkState, s.c = none →
      apply_transient info s win =
        dialog_client_new info s win (find_transient_owner info s.w)) ∧
    find_transient_owner info w = resolved_owner w ring info ∧
    (∀ init, info.ctor 0 = some init →
      ∃ w' cl', wm_make_new_client K info w win = some (w', some w.clients.length) ∧
        w'.client? w.clients.length = some cl' ∧ cl'.type = MBCLIENT_TYPE_DIALOG ∧
        cl'.window = win ∧ cl'.trans = resolved_owner w ring info ∧
        ctor_calls w'.calls = ctor_calls w.calls ++
          [Call.client_new MBCLIENT_TYPE_DIALOG win (resolved_owner w ring info)]) := by
  have hown := find_transient_owner_eq info w ring hwf.1
  refine ⟨?_, hown, ?_⟩
  · intro s hs
    simp only [apply_transient, hhint, hs, and_self, if_true, ne_eq, not_false_eq_true]
  · intro init hc
    have hwf' : (w.log Call.XGrabServer).WF ring := hwf
    have hown' : find_transient_owner info (w.log Call.XGrabServer) = resolved_owner w ring info := by
      rw [find_transient_owner_log, hown]
    obtain ⟨w1, cl1, e1, hlen1, hcl1, hty1, hwin1, htr1, hfl1, hcalls1, htp1⟩ :=
      client_new_ok info { w := w.log Call.XGrabServer, c := none, n := 0 } MBCLIENT_TYPE_DIALOG
        win (resolved_owner w ring info) init ring hwf' hc
    simp only [log_clients, log_calls, log_have_titlebar_panel] at e1 hcl1 hcalls1 htp1 hlen1
    obtain ⟨w', es, hfin, hfr, hcalls, hes⟩ := finish_with_client K info
      { w := w1, c := some w.clients.length, n := 0 + 1 } win w.clients.length cl1 rfl hcl1
      (by intro tp h; rw [htp1] at h; rw [hlen1]; exact Nat.lt_succ_of_lt (htp tp h))
    refine ⟨w', cl1, ?_, ?_, hty1, hwin1, htr1, ?_⟩
    · unfold wm_make_new_client
      rw [classify_unrecognised K info _ win hforce htype]
      simp only [make_new_client_tail, apply_mwm, hmwm, ne_eq, not_true_eq_false, if_false,
        apply_transient, hhint, and_self, if_true, not_false_eq_true, dialog_client_new, hown', e1]
      exact hfin
    · show w'.clients[w.clients.length]? = _
      rw [erase_clients hfr]
      exact hcl1
    · rw [hcalls, hcalls1]
      simp [hes, ctor_calls_cons, is_ctor]

/-- Witness for C5: the sample window with a transient-for hint naming window
10 becomes a Dialog owned by the client at address 0. -/
theorem wm_make_new_client_transient_witness :
    resolved_owner sample_wm [0, 1] sample_info_trans = some 0 ∧
    ∃ w' cl', wm_make_new_client sample_defs sample_info_trans sample_wm 30 =
        some (w', some sample_wm.clients.length) ∧
      w'.client? sample_wm.clients.length = some cl' ∧ cl'.type = MBCLIENT_TYPE_DIALOG ∧
      cl'.window = 30 ∧ cl'.trans = resolved_owner sample_wm [0, 1] sample_info_trans ∧
      ctor_calls w'.calls = ctor_calls sample_wm.calls ++
        [Call.client_new MBCLIENT_TYPE_DIALOG 30
          (resolved_owner sample_wm [0, 1] sample_info_trans)] :=
  ⟨by decide,
   (wm_make_new_client_transient sample_defs sample_info_trans sample_wm 30 [0, 1] sample_wm_wf
     (by intro tp h; simp [sample_wm] at h) rfl (by intro tp h; simp [sample_info_trans] at h)
     rfl (by decide)).2.2 blank_client rfl⟩

/-- C6 (as stated, refuted): with `-force_dialogs xterm` the sample window
titled `xterm` matches the filter, and its transient-for hint names the window
of the client at address 0: the returned client is a Dialog whose owner is
that client, not none. -/
theorem wm_make_new_client_forced_counterexample :
    wm_win_force_dialog sample_wm_forced sample_info_trans = true ∧
    (wm_make_new_client sample_defs sample_info_trans sample_wm_forced 30).map
        (fun r => (r.2, r.2.bind (fun c => (r.1.client? c).map (fun cl => (cl.type, cl.trans))))) =
      some (some 2, some (MBCLIENT_TYPE_DIALOG, some 0)) := by
  refine ⟨by decide, by decide⟩

/-- C6 (amended): for a window whose name matches the force-dialog filter,
whatever its other hints are, the only constructor called is the Dialog
constructor with no owner, and when it succeeds the returned client is a
Dialog; its owner is none unless the window carries a transient-for hint
naming another window, in which case it is the owner that the transient-for
step looks up in the registry. -/
theorem wm_make_new_client_forced (K : Defs) (info : WinInfo) (w : Wm) (win : Window)
    (ring : List ClientPtr) (init : Client) (hwf : w.WF ring)
    (htp : ∀ p, w.have_titlebar_panel = some p → p < w.clients.length)
    (hforce : wm_win_force_dialog w info = true)
    (hctor : info.ctor 0 = some init) :
    ∃ w' cl', wm_make_new_client K info w win = some (w', some w.clients.length) ∧
      w'.client? w.clients.length = some cl' ∧ cl'.type = MBCLIENT_TYPE_DIALOG ∧
      cl'.window = win ∧
      cl'.trans = (if info.trans_win ≠ 0 ∧ info.trans_win ≠ win
        then find_transient_owner info w' else none) ∧
      ctor_calls w'.calls =
        ctor_calls w.calls ++ [Call.client_new MBCLIENT_TYPE_DIALOG win none] := by
  have hcls : classify_by_type K info { w := w.log Call.XGrabServer, c := none, n := 0 } win =
      built_or_end (client_new info { w := w.log Call.XGrabServer, c := none, n := 0 }
        MBCLIENT_TYPE_DIALOG win none) 0 := by
    unfold classify_by_type
    have : wm_win_force_dialog (w.log Call.XGrabServer) info = true := hforce
    simp only [this, if_true]
    rfl
  obtain ⟨w', cl', h, hcl', hty', hwin', _, htr', hcalls'⟩ :=
    make_after_construct K info w win MBCLIENT_TYPE_DIALOG 0 init ring hwf htp hcls hctor
  refine ⟨w', cl', h, hcl', hty', hwin', ?_, hcalls'⟩
  rw [htr']
  simp

/-- Witness for C6 (amended) on the sample registry with the filter configured. -/
theorem wm_make_new_client_forced_witness :
    ∃ w' cl', wm_make_new_client sample_defs sample_info_trans sample_wm_forced 30 =
        some (w', some sample_wm_forced.clients.length) ∧
      w'.client? sample_wm_forced.clients.length = some cl' ∧
      cl'.type = MBCLIENT_TYPE_DIALOG ∧ cl'.window = 30 ∧
      cl'.trans = (if sample_info_trans.trans_win ≠ 0 ∧ sample_info_trans.trans_win ≠ 30
        then find_transient_owner sample_info_trans w' else none) ∧
      ctor_calls w'.calls =
        ctor_calls sample_wm_forced.calls ++ [Call.client_new MBCLIENT_TYPE_DIALOG 30 none] :=
  wm_make_new_client_forced sample_defs sample_info_trans sample_wm_forced 30 [0, 1]
    blank_client sample_wm_wf (by intro tp h; simp [sample_wm_forced, sample_wm] at h)
    (by decide) rfl

/-- C7 (code evaluated): when the Dialog constructor selected by the
decoration hints fails, the function does not stop: on a window that has
disappeared it goes on to call `main_client_new` (two constructors tried);
when the Dialog constructor selected by the transient-for hint fails it also
goes on to `main_client_new`; and if that second constructor succeeds, a client
is returned and set up. -/
theorem wm_make_new_client_failure_continues :
    (wm_make_new_client sample_defs sample_info_mwm_gone sample_wm 30).map
        (fun r => (r.2, ctor_calls r.1.calls)) =
      some (none, [Call.client_new MBCLIENT_TYPE_DIALOG 30 none,
                   Call.client_new MBCLIENT_TYPE_APP 30 none]) ∧
    (wm_make_new_client sample_defs sample_info_trans_gone sample_wm 30).map
        (fun r => (r.2, ctor_calls r.1.calls)) =
      some (none, [Call.client_new MBCLIENT_TYPE_DIALOG 30 (some 0),
                   Call.client_new MBCLIENT_TYPE_APP 30 none]) ∧
    (wm_make_new_client sample_defs sample_info_mwm_race sample_wm 30).map
        (fun r => (r.2, ctor_calls r.1.calls, setup_calls r.1.calls)) =
      some (some 2, [Call.client_new MBCLIENT_TYPE_DIALOG 30 none,
                     Call.client_new MBCLIENT_TYPE_APP 30 none],
        [Call.XChangeProperty_NET_WM_DESKTOP 30, Call.ewmh_set_allowed_actions 2,
         Call.configure 2, Call.reparent 2, Call.move_resize 2, Call.show 2]) := by
  refine ⟨by decide, by decide, by decide⟩

/-! ## Theorems: desktop toggle -/

/-- C16 (code defect): the scan of `wm_sn_cycle_add` stops before the last
cycle of a list of two or more, so a launching cycle for `b` that sits last is
not seen: adding `b` to the list `a` (resolved), `b` (launching) appends a
second launching cycle for `b`, and the published value names `b` twice.  A
launching cycle in first position is seen and nothing is added. -/
theorem wm_sn_cycle_add_duplicate_last :
    (wm_sn_cycle_add sample_wm_sn "b").sn_cycles =
      [{ bin_name := "a", xid := 5 }, { bin_name := "b", xid := 0 },
       { bin_name := "b", xid := 0 }] ∧
    (wm_sn_cycle_add sample_wm_sn "b").calls =
      [Call.ewmh_update_lists, Call.XGrabServer, Call.XChangeProperty_STARTUP_LIST "b|b|",
       Call.XFlush, Call.XUngrabServer] ∧
    wm_sn_cycle_add (sample_wm_sn.set_sn_cycles sample_wm_sn.sn_cycles.reverse) "b" =
      sample_wm_sn.set_sn_cycles sample_wm_sn.sn_cycles.reverse := by
  refine ⟨by decide, by decide, by decide⟩

@[simp] theorem set_sn_cycles_sn_cycles (w : Wm) (l : List SnCycle) :
    (w.set_sn_cycles l).sn_cycles = l := rfl

@[simp] theorem set_sn_cycles_calls (w : Wm) (l : List SnCycle) :
    (w.set_sn_cycles l).calls = w.calls := rfl

@[simp] theorem set_sn_cycles_sn_busy_cnt (w : Wm) (l : List SnCycle) :
    (w.set_sn_cycles l).sn_busy_cnt = w.sn_busy_cnt := rfl

@[simp] theorem log_sn_cycles (w : Wm) (e : Call) : (w.log e).sn_cycles = w.sn_cycles := rfl

@[simp] theorem log_sn_busy_cnt (w : Wm) (e : Call) : (w.log e).sn_busy_cnt = w.sn_busy_cnt := rfl

theorem foldl_append_string (l : List String) (acc : String) :
    l.foldl (fun r s => r ++ s) acc = acc ++ l.foldl (fun r s => r ++ s) "" := by
  induction l generalizing acc with
  | nil => simp
  | cons a t ih =>
    simp only [List.foldl_cons]
    rw [ih (acc ++ a), ih ("" ++ a), String.empty_append, String.append_assoc]

theorem join_cons (a : String) (l : List String) : String.join (a :: l) = a ++ String.join l := by
  unfold String.join
  simp only [List.foldl_cons]
  rw [foldl_append_string, String.empty_append]

theorem sn_prop_str_eq (l : List SnCycle) (acc : String) :
    l.foldl (fun s c => if c.xid = 0 then (s ++ c.bin_name) ++ "|" else s) acc =
      acc ++ sn_prop_value l := by
  induction l generalizing acc with
  | nil => simp [sn_prop_value, launching, String.join]
  | cons c t ih =>
    simp only [List.foldl_cons]
    rw [ih]
    by_cases h : c.xid = 0
    · have e : sn_prop_value (c :: t) = (c.bin_name ++ "|") ++ sn_prop_value t := by
        simp [sn_prop_value, launching, h, join_cons]
      rw [if_pos h, e]
      simp only [String.append_assoc]
    · have e : sn_prop_value (c :: t) = sn_prop_value t := by
        simp [sn_prop_value, launching, h]
      rw [if_neg h, e]

theorem sn_prop_len_eq (l : List SnCycle) (acc : Nat) :
    l.foldl (fun len c => if c.xid = 0 then len + (c.bin_name.length + 1) else len) acc =
      acc + ((launching l).map (fun c => c.bin_name.length + 1)).sum := by
  induction l generalizing acc with
  | nil => simp [launching]
  | cons c t ih =>
    simp only [List.foldl_cons]
    rw [ih]
    by_cases h : c.xid = 0
    · simp [launching, h, Nat.add_assoc]
    · simp [launching, h]

theorem sn_prop_len_removed (l : List SnCycle) :
    ¬ (((launching l).map (fun c => c.bin_name.length + 1)).sum > 1) ↔ sn_prop_removed l = true := by
  unfold sn_prop_removed
  rcases hl : launching l with _ | ⟨c, _ | ⟨d, t⟩⟩
  · simp
  · have e : c.bin_name.length = 0 ↔ c.bin_name = "" := by
      constructor
      · intro h
        exact String.ext (List.length_eq_zero.mp h)
      · intro h
        rw [h]
        rfl
    simp [e]
  · simp
    omega

theorem update_root_prop_sn_cycles (w : Wm) :
    (wm_sn_cycle_update_root_prop w).sn_cycles = w.sn_cycles := by
  unfold wm_sn_cycle_update_root_prop
  simp only
  split
  · rfl
  · split <;> simp only [log_sn_cycles, log_sn_busy_cnt]

theorem update_root_prop_sn_busy_cnt (w : Wm) :
    (wm_sn_cycle_update_root_prop w).sn_busy_cnt = w.sn_busy_cnt := by
  unfold wm_sn_cycle_update_root_prop
  simp only
  split
  · rfl
  · split <;> simp only [log_sn_cycles, log_sn_busy_cnt]

theorem update_root_prop_calls (w : Wm) :
    (wm_sn_cycle_update_root_prop w).calls = w.calls ++ sn_publish_calls w.sn_cycles := by
  unfold wm_sn_cycle_update_root_prop sn_publish_calls
  simp only [log_sn_cycles]
  split
  · rename_i h
    simp [h, sn_prop_removed, launching]
  · rename_i h
    have hne : w.sn_cycles ≠ [] := h
    rw [sn_prop_len_eq, sn_prop_str_eq, String.empty_append, Nat.zero_add]
    by_cases hr : sn_prop_removed w.sn_cycles = true
    · rw [if_neg ((sn_prop_len_removed _).mpr hr)]
      simp [hne, hr]
    · rw [if_pos (not_not.mp (fun h1 => hr ((sn_prop_len_removed _).mp h1)))]
      simp [hne, hr]

/-- C17 (as stated, refuted): the list holds one cycle, still launching, whose
binary name is empty; the length test `prop_str_len > 1` fails and the
property is removed although a cycle is still launching. -/
theorem wm_sn_cycle_update_root_prop_counterexample :
    launching sample_wm_sn_empty_name.sn_cycles = [{ bin_name := "", xid := 0 }] ∧
    (wm_sn_cycle_update_root_prop sample_wm_sn_empty_name).calls =
      [Call.ewmh_update_lists, Call.XGrabServer, Call.XDeleteProperty_STARTUP_LIST,
       Call.XFlush, Call.XUngrabServer] := by
  refine ⟨by decide, by decide⟩

/-- C17 (amended): `wm_sn_cycle_update_root_prop` leaves the cycle list as it
is and issues one publication of it: the property is removed exactly when no
cycle is launching or the only launching cycle has an empty binary name, and
is otherwise set to the binary names of the launching cycles, in list order,
each followed by `|`, resolved cycles omitted.  Every mutation
(`wm_sn_cycle_remove`, `wm_sn_cycle_update_xid`, and a `wm_sn_cycle_add` that
changes the list) issues exactly this publication of the mutated list. -/
theorem wm_sn_cycle_update_root_prop_spec (w : Wm) :
    (wm_sn_cycle_update_root_prop w).sn_cycles = w.sn_cycles ∧
    (wm_sn_cycle_update_root_prop w).calls = w.calls ++ sn_publish_calls w.sn_cycles ∧
    (∀ l, sn_prop_removed l = true ↔
      (launching l = [] ∨ ∃ c, launching l = [c] ∧ c.bin_name = "")) ∧
    (∀ l, sn_prop_value l = String.join ((l.filter (fun c => c.xid = 0)).map
      (fun c => c.bin_name ++ "|"))) ∧
    (∀ xid, (wm_sn_cycle_remove w xid).sn_cycles = sn_cycle_unlink xid w.sn_cycles ∧
      (wm_sn_cycle_remove w xid).calls =
        w.calls ++ sn_publish_calls (sn_cycle_unlink xid w.sn_cycles)) ∧
    (∀ b xid, (wm_sn_cycle_update_xid w b xid).sn_cycles = sn_cycle_bind b xid w.sn_cycles ∧
      (wm_sn_cycle_update_xid w b xid).calls =
        w.calls ++ sn_publish_calls (sn_cycle_bind b xid w.sn_cycles)) ∧
    (∀ b, wm_sn_cycle_add w b = w ∨
      ((wm_sn_cycle_add w b).sn_cycles = w.sn_cycles ++ [wm_sn_cycle_new b] ∧
       (wm_sn_cycle_add w b).calls =
        w.calls ++ sn_publish_calls (w.sn_cycles ++ [wm_sn_cycle_new b]))) := by
  refine ⟨update_root_prop_sn_cycles w, update_root_prop_calls w, ?_, fun l => rfl, ?_, ?_, ?_⟩
  · intro l
    unfold sn_prop_removed
    rcases launching l with _ | ⟨c, _ | ⟨d, t⟩⟩ <;> simp
  · intro xid
    unfold wm_sn_cycle_remove
    rw [update_root_prop_sn_cycles, update_root_prop_calls]
    simp
  · intro b xid
    unfold wm_sn_cycle_update_xid
    rw [update_root_prop_sn_cycles, update_root_prop_calls]
    simp
  · intro b
    unfold wm_sn_cycle_add
    split
    · rename_i h
      right
      rw [update_root_prop_sn_cycles, update_root_prop_calls]
      simp [h]
    · rename_i first rest h
      split
      · exact Or.inl rfl
      · split
        · exact Or.inl rfl
        · right
          rw [update_root_prop_sn_cycles, update_root_prop_calls]
          simp [h]

@[simp] theorem set_sn_busy_cnt_sn_busy_cnt (w : Wm) (n : Int) :
    (w.set_sn_busy_cnt n).sn_busy_cnt = n := rfl

theorem wm_sn_cycle_add_sn_busy_cnt (w : Wm) (b : String) :
    (wm_sn_cycle_add w b).sn_busy_cnt = w.sn_busy_cnt := by
  unfold wm_sn_cycle_add
  split
  · rw [update_root_prop_sn_busy_cnt]
    rfl
  · split
    · rfl
    · split
      · rfl
      · rw [update_root_prop_sn_busy_cnt]
        rfl

theorem wm_sn_cycle_update_xid_sn_busy_cnt (w : Wm) (b : String) (xid : Window) :
    (wm_sn_cycle_update_xid w b xid).sn_busy_cnt = w.sn_busy_cnt := by
  unfold wm_sn_cycle_update_xid
  rw [update_root_prop_sn_busy_cnt]
  rfl

/-- C18 (code defect): for an event with a sequence id and a binary name the
busy counter changes by +1 on a launch-initiated event, by -1 on a cancelled
event and by 0 on a changed event; on a completed event it changes by -1 only
when the registry is empty or some client carries the sequence id, and is left
unchanged otherwise: in the sample registry of two clients without startup id
a completed event leaves the counter at 0. -/
theorem wm_sn_monitor_event_func_busy_cnt (w : Wm) (seq_id bin_name : String) :
    (wm_sn_monitor_event_func w (sn_event seq_id bin_name SN_MONITOR_EVENT_INITIATED)).sn_busy_cnt
      = w.sn_busy_cnt + 1 ∧
    (wm_sn_monitor_event_func w (sn_event seq_id bin_name SN_MONITOR_EVENT_CANCELED)).sn_busy_cnt
      = w.sn_busy_cnt - 1 ∧
    (wm_sn_monitor_event_func w (sn_event seq_id bin_name SN_MONITOR_EVENT_CHANGED)).sn_busy_cnt
      = w.sn_busy_cnt ∧
    (wm_sn_monitor_event_func w (sn_event seq_id bin_name SN_MONITOR_EVENT_COMPLETED)).sn_busy_cnt
      = (if w.head_client = none ∨ sn_id_matched w seq_id = true then w.sn_busy_cnt - 1
         else w.sn_busy_cnt) ∧
    sample_wm.head_client = some 0 ∧ sn_id_matched sample_wm "id1" = false ∧
    (wm_sn_monitor_event_func sample_wm sample_completed).sn_busy_cnt = sample_wm.sn_busy_cnt := by
  refine ⟨?_, ?_, ?_, ?_, rfl, by decide, by decide⟩
  · simp [wm_sn_monitor_event_func, sn_event, wm_sn_cycle_add_sn_busy_cnt]
  · simp [wm_sn_monitor_event_func, sn_event]
  · simp [wm_sn_monitor_event_func, sn_event]
  · simp only [wm_sn_monitor_event_func, sn_event, log_sn_busy_cnt]
    by_cases hh : w.head_client = none
    · simp [hh]
    · rw [if_pos hh]
      split
      · rename_i p hf
        have hp := List.find?_some hf
        have hany : sn_id_matched w seq_id = true := by
          unfold sn_id_matched
          rw [List.any_eq_true]
          exact ⟨p, List.mem_of_find?_eq_some hf, hp⟩
        split
        · simp [hany, update_root_prop_sn_busy_cnt, wm_sn_cycle_update_xid_sn_busy_cnt]
        · rename_i hcl
          simp [hcl] at hp
      · rename_i hf
        have hany : sn_id_matched w seq_id = false := by
          unfold sn_id_matched
          rw [List.any_eq_false]
          intro p hp
          exact List.find?_eq_none.mp hf p hp
        simp [hh, hany]

/-! ## Theorems: message window queue -/

@[simp] theorem set_msg_win_queue_queue (w : Wm) (q : List MsgWinQueue) :
    (w.set_msg_win_queue q).msg_win_queue_head = q := rfl

@[simp] theorem set_msg_win_queue_calls (w : Wm) (q : List MsgWinQueue) :
    (w.set_msg_win_queue q).calls = w.calls := rfl

@[simp] theorem set_msg_win_queue_set (w : Wm) (q q1 : List MsgWinQueue) :
    (w.set_msg_win_queue q).set_msg_win_queue q1 = w.set_msg_win_queue q1 := rfl

theorem set_msg_win_queue_self (w : Wm) : w.set_msg_win_queue w.msg_win_queue_head = w := rfl

theorem wm_find_client_set_queue (w : Wm) (q : List MsgWinQueue) (win : Window) (m : FindMode) :
    wm_find_client (w.set_msg_win_queue q) win m = wm_find_client w win m := rfl

theorem wm_msg_win_queue_process_eq (w : Wm) (head : MsgWinQueue) (rest : List MsgWinQueue)
    (hq : w.msg_win_queue_head = head :: rest) :
    wm_msg_win_queue_process w =
      (w.set_msg_win_queue (msg_tick head :: rest)).logs
        (if (msg_tick head).timeout = 0 then
          match wm_find_client w head.win WINDOW with
          | some c => [Call.XGrabServer, Call.destroy c, Call.XUngrabServer]
          | none => []
         else []) := by
  unfold wm_msg_win_queue_process
  rw [hq]
  simp only
  have e : (if head.timeout > 0 then { head with timeout := head.timeout - 1 } else head) =
      msg_tick head := by
    unfold msg_tick
    split <;> rfl
  rw [e, wm_find_client_set_queue]
  have e2 : (msg_tick head).win = head.win := rfl
  rw [e2]
  split
  · cases wm_find_client w head.win WINDOW with
    | none => simp [logs_nil]
    | some c => simp [wm_remove_client, log_eq_logs, logs_logs]
  · simp [logs_nil]

theorem msg_win_queue_ticks_countdown (k : Nat) : ∀ (w : Wm) (head : MsgWinQueue)
    (rest : List MsgWinQueue), w.msg_win_queue_head = head :: rest → (k : Int) < head.timeout →
    msg_win_queue_ticks k w =
      w.set_msg_win_queue ({ head with timeout := head.timeout - k } :: rest) := by
  induction k with
  | zero =>
    intro w head rest hq _
    simp only [msg_win_queue_ticks, Nat.cast_zero, sub_zero]
    rw [← hq]
    rfl
  | succ k ih =>
    intro w head rest hq hk
    have hpos : head.timeout > 0 := by push_cast at hk; omega
    have ht : msg_tick head = { head with timeout := head.timeout - 1 } := by
      unfold msg_tick
      rw [if_pos hpos]
    have hne : ¬ (msg_tick head).timeout = 0 := by
      rw [ht]
      show ¬ head.timeout - 1 = 0
      push_cast at hk
      omega
    have hlt : (k : Int) < (msg_tick head).timeout := by
      rw [ht]
      show (k : Int) < head.timeout - 1
      push_cast at hk
      omega
    simp only [msg_win_queue_ticks]
    rw [wm_msg_win_queue_process_eq w head rest hq, if_neg hne, logs_nil,
      ih _ (msg_tick head) rest rfl hlt]
    rw [ht]
    simp only [set_msg_win_queue_set]
    have e : head.timeout - 1 - (k : Int) = head.timeout - ((k + 1 : Nat) : Int) := by
      push_cast
      omega
    rw [e]

theorem msg_win_queue_ticks_succ (k : Nat) : ∀ w : Wm,
    msg_win_queue_ticks (k + 1) w = wm_msg_win_queue_process (msg_win_queue_ticks k w) := by
  induction k with
  | zero => intro w; rfl
  | succ k ih =>
    intro w
    show msg_win_queue_ticks (k + 1) (wm_msg_win_queue_process w) = _
    rw [ih]
    rfl

theorem msg_win_queue_ticks_stuck (w : Wm) (head : MsgWinQueue) (rest : List MsgWinQueue)
    (hq : w.msg_win_queue_head = head :: rest) (hneg : head.timeout < 0) :
    ∀ n, msg_win_queue_ticks n w = w := by
  have h1 : wm_msg_win_queue_process w = w := by
    have ht : msg_tick head = head := by
      unfold msg_tick
      rw [if_neg (by omega)]
    rw [wm_msg_win_queue_process_eq w head rest hq, ht, if_neg (by omega), logs_nil, ← hq]
    rfl
  intro n
  induction n with
  | zero => rfl
  | succ n ih =>
    show msg_win_queue_ticks n (wm_msg_win_queue_process w) = w
    rw [h1, ih]

/-- C20: one tick of `wm_msg_win_queue_process` on a queue `head :: rest`
replaces the head's timeout `t` by `t - 1` when `t > 0` and leaves it
otherwise, keeps the rest of the queue and every other field of the registry,
and calls `wm_remove_client` (grab, the client's destroy method, ungrab) on the
client of the head window exactly when the timeout after the step is zero and
`wm_find_client` finds the window; a head with a negative timeout (-1: no
timeout) is left as it is by any number of ticks, and for a managed head with
timeout `t > 0` the first `t - 1` ticks only count down and remove nothing,
and tick `t` removes the client. -/
theorem wm_msg_win_queue_process_spec (w : Wm) (head : MsgWinQueue) (rest : List MsgWinQueue)
    (hq : w.msg_win_queue_head = head :: rest) :
    (wm_msg_win_queue_process w).msg_win_queue_head = msg_tick head :: rest ∧
    (wm_msg_win_queue_process w).erase_queue = w.erase_queue ∧
    (wm_msg_win_queue_process w).calls = w.calls ++
      (if (msg_tick head).timeout = 0 then
        match wm_find_client w head.win WINDOW with
        | some c => [Call.XGrabServer, Call.destroy c, Call.XUngrabServer]
        | none => []
       else []) ∧
    (head.timeout < 0 → ∀ n, msg_win_queue_ticks n w = w) ∧
    (∀ (t : Nat) (c : ClientPtr), head.timeout = t → 0 < t →
      wm_find_client w head.win WINDOW = some c →
      (∀ k, k < t → msg_win_queue_ticks k w =
        w.set_msg_win_queue ({ head with timeout := head.timeout - k } :: rest)) ∧
      (msg_win_queue_ticks t w).calls =
        w.calls ++ [Call.XGrabServer, Call.destroy c, Call.XUngrabServer] ∧
      (msg_win_queue_ticks t w).msg_win_queue_head = { head with timeout := 0 } :: rest) := by
  have e := wm_msg_win_queue_process_eq w head rest hq
  refine ⟨by rw [e]; rfl, by rw [e]; rfl, by rw [e]; simp,
    msg_win_queue_ticks_stuck w head rest hq, ?_⟩
  intro t c ht hpos hfind
  have hk : ∀ k, k < t → msg_win_queue_ticks k w =
      w.set_msg_win_queue ({ head with timeout := head.timeout - k } :: rest) := by
    intro k hlt
    exact msg_win_queue_ticks_countdown k w head rest hq (by rw [ht]; exact_mod_cast hlt)
  refine ⟨hk, ?_⟩
  obtain ⟨j, rfl⟩ : ∃ j, t = j + 1 := ⟨t - 1, by omega⟩
  have h1 : msg_tick { head with timeout := head.timeout - (j : Int) } =
      { head with timeout := 0 } := by
    have e4 : head.timeout - (j : Int) = 1 := by
      rw [ht]
      push_cast
      omega
    rw [e4]
    rfl
  rw [msg_win_queue_ticks_succ, hk j (by omega),
    wm_msg_win_queue_process_eq _ { head with timeout := head.timeout - (j : Int) } rest rfl, h1,
    if_pos rfl, wm_find_client_set_queue]
  have e3 : wm_find_client w ({ head with timeout := head.timeout - (j : Int) } : MsgWinQueue).win
      WINDOW = some c := hfind
  rw [e3]
  exact ⟨by simp, rfl⟩

/-- Witness for C20: the sample queue holds the managed window 10 with a
timeout of two ticks. -/
theorem wm_msg_win_queue_process_spec_witness :
    sample_wm_msg.msg_win_queue_head = [{ win := 10, timeout := 2 }] ∧
    (wm_msg_win_queue_process sample_wm_msg).msg_win_queue_head =
      [msg_tick { win := 10, timeout := 2 }] ∧
    (msg_win_queue_ticks 2 sample_wm_msg).calls =
      sample_wm_msg.calls ++ [Call.XGrabServer, Call.destroy 0, Call.XUngrabServer] :=
  ⟨rfl, (wm_msg_win_queue_process_spec sample_wm_msg { win := 10, timeout := 2 } [] rfl).1,
    ((wm_msg_win_queue_process_spec sample_wm_msg { win := 10, timeout := 2 } [] rfl).2.2.2.2
      2 0 rfl (by decide) (by decide)).2.1⟩

/-! ## Theorems: message windows -/

theorem wm_msg_win_queue_add_eq (info : WinInfo) (w : Wm) (win : Window) :
    wm_msg_win_queue_add w win info.msg_timeout =
      w.set_msg_win_queue (w.msg_win_queue_head ++ [msg_entry info win]) := by
  unfold wm_msg_win_queue_add msg_entry
  cases hq : w.msg_win_queue_head <;> cases info.msg_timeout <;> rfl

theorem erase_queue {w w' : Wm} (h : w'.erase = w.erase) :
    w'.msg_win_queue_head = w.msg_win_queue_head := by
  have e := congrArg Wm.msg_win_queue_head h
  exact e

theorem client_new_queue (info : WinInfo) (s s1 : MkState) (type : MBClientType) (win : Window)
    (trans : Option ClientPtr) (ring : List ClientPtr) (hwf : s.w.WF ring)
    (h : client_new info s type win trans = some s1) :
    s1.w.msg_win_queue_head = s.w.msg_win_queue_head := by
  cases hc : info.ctor s.n with
  | none =>
    rw [client_new_fail info s type win trans hc] at h
    cases h
    rfl
  | some init =>
    have hwf' : (s.w.log (Call.client_new type win trans)).WF ring := hwf
    obtain ⟨w1, ring', e, _, _, _, _, _, hfr, _, _⟩ :=
      ring_insert_wf (s.w.log (Call.client_new type win trans)) ring
        { init with type := type, window := win, trans := trans, next := none, prev := none } hwf'
    have e' : ring_insert ((s.w.log (Call.client_new type win trans)).set_clients
        (s.w.clients ++ [{ init with type := type, window := win, trans := trans,
                                     next := none, prev := none }])) s.w.clients.length =
        some w1 := e
    simp only [client_new, hc, log_clients] at h
    rw [e'] at h
    cases h
    show w1.msg_win_queue_head = _
    rw [hfr]
    rfl

theorem xor_flags_queue (s s1 : MkState) (c : ClientPtr) (m : Nat)
    (h : xor_flags s c m = some s1) : s1.w.msg_win_queue_head = s.w.msg_win_queue_head := by
  unfold xor_flags at h
  split at h
  · cases h
  · cases h
    rfl

theorem built_or_end_queue (s0 s1 : MkState) (m : Nat)
    (h : built_or_end (some s0) m = some (Step.cont s1)) :
    s1.w.msg_win_queue_head = s0.w.msg_win_queue_head := by
  unfold built_or_end at h
  simp only at h
  split at h
  · cases h
  · split at h
    · cases h
      rfl
    · split at h
      · cases h
      · rename_i hx
        cases h
        exact xor_flags_queue _ _ _ _ hx

theorem apply_mwm_queue (info : WinInfo) (s s2 : MkState) (win : Window) (c : ClientPtr)
    (hc : s.c = some c) (h : apply_mwm info s win = some s2) :
    s2.w.msg_win_queue_head = s.w.msg_win_queue_head := by
  unfold apply_mwm at h
  split at h
  · simp only [hc] at h
    exact xor_flags_queue _ _ _ _ h
  · cases h
    rfl

theorem apply_transient_queue (info : WinInfo) (s s3 : MkState) (win : Window) (c : ClientPtr)
    (hc : s.c = some c) (h : apply_transient info s win = some s3) :
    s3.w.msg_win_queue_head = s.w.msg_win_queue_head := by
  unfold apply_transient at h
  split at h
  · simp only [hc] at h
    split at h
    · cases h
    · split at h
      · split at h
        · cases h
        · cases h
          rfl
      · cases h
        rfl
  · cases h
    rfl

theorem tail_queue (K : Defs) (info : WinInfo) (s : MkState) (win : Window)
    (c : ClientPtr) (cl : Client) (hc : s.c = some c) (hcl : s.w.client? c = some cl)
    (htp : ∀ tp, s.w.have_titlebar_panel = some tp → tp < s.w.clients.length)
    (w' : Wm) (r : Option ClientPtr) (h : make_new_client_tail K info s win = some (w', r)) :
    w'.msg_win_queue_head = s.w.msg_win_queue_head := by
  obtain ⟨s2, cl2, h2, hc2, hcl2, _, _, _, _, _, htp2, hlen2, _, _⟩ :=
    apply_mwm_with_client info s win c cl hc hcl
  obtain ⟨s3, cl3, h3, hc3, hcl3, _, _, _, _, _, htp3, hlen3, _, _⟩ :=
    apply_transient_with_client info s2 win c cl2 hc2 hcl2
  obtain ⟨w5, es, hfin, hfr, _, _⟩ := finish_with_client K info s3 win c cl3 hc3 hcl3
    (by rw [htp3, htp2, hlen3, hlen2]; exact htp)
  simp only [make_new_client_tail, h2, h3, hfin, Option.some.injEq, Prod.mk.injEq] at h
  rw [← h.1, erase_queue hfr, apply_transient_queue info s2 s3 win c hc2 h3,
    apply_mwm_queue info s s2 win c hc h2]

theorem xor_xor_and (a b m : Nat) (ha : a &&& m = 0) (hb : b &&& m = 0) :
    ((a ^^^ m) ^^^ b) &&& m = m := by
  apply Nat.eq_of_testBit_eq
  intro i
  have hi := congrArg (fun n => n.testBit i) ha
  have hj := congrArg (fun n => n.testBit i) hb
  simp only [Nat.testBit_and, Nat.zero_testBit] at hi hj
  simp only [Nat.testBit_and, Nat.testBit_xor]
  revert hi hj
  cases a.testBit i <;> cases b.testBit i <;> cases m.testBit i <;> simp

/-- The message branch of the type-hint step. -/
theorem classify_by_type_message (K : Defs) (info : WinInfo) (s : MkState) (win : Window)
    (tp : TypeProp) (hK : K.USE_MSG_WIN = true)
    (hforce : wm_win_force_dialog s.w info = false)
    (htype : info.type_prop = some tp) (hreal : tp.realType = XA_ATOM) (hfmt : tp.format = 32)
    (hmsg : tp.value0 = s.w.atoms.WINDOW_TYPE_MESSAGE)
    (hvar : variant_of_type s.w.atoms tp.value0 = none) :
    classify_by_type K info s win =
      match (if s.w.msg_win_queue_head = []
          then wm_msg_win_queue_add s.w win info.msg_timeout else s.w).msg_win_queue_head with
      | [] => none
      | head :: _ =>
        if win = head.win then
          built_or_end (dialog_client_new info
            { s with w := (if s.w.msg_win_queue_head = []
                then wm_msg_win_queue_add s.w win info.msg_timeout else s.w) } win none)
            K.CLIENT_IS_MESSAGE_DIALOG
        else
          some (Step.ret ((wm_msg_win_queue_add (if s.w.msg_win_queue_head = []
            then wm_msg_win_queue_add s.w win info.msg_timeout else s.w) win
              info.msg_timeout).log Call.XUngrabServer)) := by
  unfold classify_by_type
  simp only [hforce, Bool.false_eq_true, if_false, htype, hreal, hfmt, and_self, if_true]
  unfold variant_of_type at hvar
  by_cases h1 : tp.value0 = s.w.atoms.WINDOW_TYPE_DOCK
  · rw [if_pos h1] at hvar
    cases hvar
  · rw [if_neg h1] at hvar ⊢
    by_cases h2 : tp.value0 = s.w.atoms.WINDOW_TYPE_TOOLBAR
        ∨ tp.value0 = s.w.atoms.WINDOW_TYPE_INPUT
    · rw [if_pos h2] at hvar
      cases hvar
    · rw [if_neg h2] at hvar ⊢
      by_cases h3 : tp.value0 = s.w.atoms.WINDOW_TYPE_DESKTOP
      · rw [if_pos h3] at hvar
        cases hvar
      · rw [if_neg h3] at hvar ⊢
        by_cases h4 : tp.value0 = s.w.atoms.WINDOW_TYPE_SPLASH
        · rw [if_pos h4] at hvar
          cases hvar
        · rw [if_neg h4] at hvar ⊢
          by_cases h5 : tp.value0 = s.w.atoms.WINDOW_TYPE_DIALOG
          · rw [if_pos h5] at hvar
            cases hvar
          · rw [if_neg h5, if_pos ⟨hK, hmsg⟩]

@[simp] theorem log_msg_win_queue_head (w : Wm) (e : Call) :
    (w.log e).msg_win_queue_head = w.msg_win_queue_head := rfl

/-- The whole function when the message branch constructs the Dialog from the
registry `w1`. -/
theorem make_message_dialog (K : Defs) (info : WinInfo) (w w1 : Wm) (win : Window)
    (init : Client) (ring : List ClientPtr) (hwf : w1.WF ring)
    (htp : ∀ tp, w1.have_titlebar_panel = some tp → tp < w1.clients.length)
    (hcls : classify_by_type K info { w := w.log Call.XGrabServer, c := none, n := 0 } win =
      built_or_end (client_new info { w := w1, c := none, n := 0 } MBCLIENT_TYPE_DIALOG win none)
        K.CLIENT_IS_MESSAGE_DIALOG)
    (hc : info.ctor 0 = some init) :
    ∃ w' cl', wm_make_new_client K info w win = some (w', some w1.clients.length) ∧
      w'.client? w1.clients.length = some cl' ∧ cl'.type = MBCLIENT_TYPE_DIALOG ∧
      cl'.window = win ∧
      cl'.flags = (if info.mwm_flags ≠ 0
        then (init.flags ^^^ K.CLIENT_IS_MESSAGE_DIALOG) ^^^ info.mwm_flags
        else init.flags ^^^ K.CLIENT_IS_MESSAGE_DIALOG) ∧
      w'.msg_win_queue_head = w1.msg_win_queue_head ∧
      ctor_calls w'.calls = ctor_calls w1.calls ++ [Call.client_new MBCLIENT_TYPE_DIALOG win none] := by
  obtain ⟨w0, cl0, e0, _⟩ := client_new_ok info { w := w1, c := none, n := 0 }
    MBCLIENT_TYPE_DIALOG win none init ring hwf hc
  have hq0 := client_new_queue info { w := w1, c := none, n := 0 } _ MBCLIENT_TYPE_DIALOG win none
    ring hwf e0
  obtain ⟨s1, cl1, e1, hc1, hcl1, hty1, hwin1, htr1, hfl1, hcalls1, htp1, hlen1⟩ :=
    construct_ok info { w := w1, c := none, n := 0 } MBCLIENT_TYPE_DIALOG win none
      K.CLIENT_IS_MESSAGE_DIALOG init ring hwf hc
  have hq1 : s1.w.msg_win_queue_head = w1.msg_win_queue_head := by
    have e1' := e1
    rw [e0] at e1'
    rw [built_or_end_queue _ _ _ e1']
    exact hq0
  have htp' : ∀ tp, s1.w.have_titlebar_panel = some tp → tp < s1.w.clients.length := by
    intro tp h
    rw [htp1] at h
    rw [hlen1]
    exact Nat.lt_succ_of_lt (htp tp h)
  obtain ⟨w', cl', es, ht, hcl', hty', hwin', hfl', htr', hcalls', hes⟩ :=
    tail_with_client K info s1 win w1.clients.length cl1 hc1 hcl1 htp'
  have hq' := tail_queue K info s1 win w1.clients.length cl1 hc1 hcl1 htp' w' _ ht
  refine ⟨w', cl', ?_, hcl', by rw [hty', hty1], by rw [hwin', hwin1], by rw [hfl', hfl1],
    by rw [hq', hq1], ?_⟩
  · unfold wm_make_new_client
    rw [hcls, e1]
    exact ht
  · rw [hcalls', hcalls1]
    simp [hes, ctor_calls_cons, is_ctor]

/-- C19: with the message window type compiled in, the title filter not
matching and the type property naming the message type, `wm_make_new_client`
(a) on an empty queue makes the window the only queue entry and returns a
Dialog client for it whose message-dialog flag was toggled (set, when the
constructor and the decoration hints leave that bit clear); (b) for the window
of the queue head returns such a Dialog and leaves the queue as it was; (c)
for any other window returns no client, calls no constructor, and appends the
window's entry after the existing entries, which stay as they were. -/
theorem wm_make_new_client_message (K : Defs) (info : WinInfo) (w : Wm) (win : Window)
    (ring : List ClientPtr) (tp : TypeProp)
    (hwf : w.WF ring)
    (htp : ∀ p, w.have_titlebar_panel = some p → p < w.clients.length)
    (hK : K.USE_MSG_WIN = true)
    (hforce : wm_win_force_dialog w info = false)
    (htype : info.type_prop = some tp) (hreal : tp.realType = XA_ATOM) (hfmt : tp.format = 32)
    (hmsg : tp.value0 = w.atoms.WINDOW_TYPE_MESSAGE)
    (hvar : variant_of_type w.atoms tp.value0 = none) :
    (∀ init, w.msg_win_queue_head = [] → info.ctor 0 = some init →
      ∃ w' cl', wm_make_new_client K info w win = some (w', some w.clients.length) ∧
        w'.client? w.clients.length = some cl' ∧ cl'.type = MBCLIENT_TYPE_DIALOG ∧
        cl'.window = win ∧
        cl'.flags = (if info.mwm_flags ≠ 0
          then (init.flags ^^^ K.CLIENT_IS_MESSAGE_DIALOG) ^^^ info.mwm_flags
          else init.flags ^^^ K.CLIENT_IS_MESSAGE_DIALOG) ∧
        (init.flags &&& K.CLIENT_IS_MESSAGE_DIALOG = 0 →
          info.mwm_flags &&& K.CLIENT_IS_MESSAGE_DIALOG = 0 →
          cl'.flags &&& K.CLIENT_IS_MESSAGE_DIALOG = K.CLIENT_IS_MESSAGE_DIALOG) ∧
        w'.msg_win_queue_head = [msg_entry info win] ∧
        ctor_calls w'.calls =
          ctor_calls w.calls ++ [Call.client_new MBCLIENT_TYPE_DIALOG win none]) ∧
    (∀ init head rest, w.msg_win_queue_head = head :: rest → head.win = win →
      info.ctor 0 = some init →
      ∃ w' cl', wm_make_new_client K info w win = some (w', some w.clients.length) ∧
        w'.client? w.clients.length = some cl' ∧ cl'.type = MBCLIENT_TYPE_DIALOG ∧
        cl'.window = win ∧
        cl'.flags = (if info.mwm_flags ≠ 0
          then (init.flags ^^^ K.CLIENT_IS_MESSAGE_DIALOG) ^^^ info.mwm_flags
          else init.flags ^^^ K.CLIENT_IS_MESSAGE_DIALOG) ∧
        (init.flags &&& K.CLIENT_IS_MESSAGE_DIALOG = 0 →
          info.mwm_flags &&& K.CLIENT_IS_MESSAGE_DIALOG = 0 →
          cl'.flags &&& K.CLIENT_IS_MESSAGE_DIALOG = K.CLIENT_IS_MESSAGE_DIALOG) ∧
        w'.msg_win_queue_head = head :: rest ∧
        ctor_calls w'.calls =
          ctor_calls w.calls ++ [Call.client_new MBCLIENT_TYPE_DIALOG win none]) ∧
    (∀ head rest, w.msg_win_queue_head = head :: rest → head.win ≠ win →
      ∃ w', wm_make_new_client K info w win = some (w', none) ∧
        w'.msg_win_queue_head = (head :: rest) ++ [msg_entry info win] ∧
        w'.clients = w.clients ∧ w'.head_client = w.head_client ∧
        w'.calls = w.calls ++ [Call.XGrabServer, Call.XUngrabServer]) := by
  have hcls := classify_by_type_message K info { w := w.log Call.XGrabServer, c := none, n := 0 }
    win tp hK hforce htype hreal hfmt hmsg hvar
  have hflag : ∀ (init cl' : Client), cl'.flags = (if info.mwm_flags ≠ 0
        then (init.flags ^^^ K.CLIENT_IS_MESSAGE_DIALOG) ^^^ info.mwm_flags
        else init.flags ^^^ K.CLIENT_IS_MESSAGE_DIALOG) →
      init.flags &&& K.CLIENT_IS_MESSAGE_DIALOG = 0 →
      info.mwm_flags &&& K.CLIENT_IS_MESSAGE_DIALOG = 0 →
      cl'.flags &&& K.CLIENT_IS_MESSAGE_DIALOG = K.CLIENT_IS_MESSAGE_DIALOG := by
    intro init cl' hfl h0 h1
    rw [hfl]
    split
    · exact xor_xor_and _ _ _ h0 h1
    · exact xor_and_of_and_eq_zero _ _ h0
  refine ⟨?_, ?_, ?_⟩
  · intro init hq hc
    have hcls' : classify_by_type K info { w := w.log Call.XGrabServer, c := none, n := 0 } win =
        built_or_end (client_new info
          { w := (w.log Call.XGrabServer).set_msg_win_queue [msg_entry info win],
            c := none, n := 0 } MBCLIENT_TYPE_DIALOG win none) K.CLIENT_IS_MESSAGE_DIALOG := by
      rw [hcls]
      simp only [log_msg_win_queue_head, hq, if_true, wm_msg_win_queue_add_eq,
        set_msg_win_queue_queue, List.nil_append]
      rw [if_pos (show win = (msg_entry info win).win from rfl)]
      rfl
    obtain ⟨w', cl', h, hcl', hty', hwin', hfl', hq', hcalls'⟩ :=
      make_message_dialog K info w
        ((w.log Call.XGrabServer).set_msg_win_queue [msg_entry info win]) win init ring hwf htp
        hcls' hc
    exact ⟨w', cl', h, hcl', hty', hwin', hfl', hflag init cl' hfl', hq',
      by simpa [ctor_calls_cons, is_ctor] using hcalls'⟩
  · intro init head rest hq hhead hc
    have hcls' : classify_by_type K info { w := w.log Call.XGrabServer, c := none, n := 0 } win =
        built_or_end (client_new info
          { w := w.log Call.XGrabServer, c := none, n := 0 } MBCLIENT_TYPE_DIALOG win none)
          K.CLIENT_IS_MESSAGE_DIALOG := by
      rw [hcls]
      simp only [log_msg_win_queue_head, hq, if_false, reduceCtorEq]
      rw [if_pos hhead.symm]
      rfl
    obtain ⟨w', cl', h, hcl', hty', hwin', hfl', hq', hcalls'⟩ :=
      make_message_dialog K info w (w.log Call.XGrabServer) win init ring hwf htp hcls' hc
    exact ⟨w', cl', h, hcl', hty', hwin', hfl', hflag init cl' hfl', hq'.trans hq,
      by simpa [ctor_calls_cons, is_ctor] using hcalls'⟩
  · intro head rest hq hhead
    refine ⟨(wm_msg_win_queue_add (w.log Call.XGrabServer) win info.msg_timeout).log
      Call.XUngrabServer, ?_, ?_, by rw [wm_msg_win_queue_add_eq]; rfl,
      by rw [wm_msg_win_queue_add_eq]; rfl, ?_⟩
    · unfold wm_make_new_client
      rw [hcls]
      simp only [log_msg_win_queue_head, hq, if_false, reduceCtorEq]
      rw [if_neg (fun e => hhead e.symm)]
    · rw [wm_msg_win_queue_add_eq]
      simp [hq]
    · rw [wm_msg_win_queue_add_eq]
      simp

/-- Witness for C19: the sample message window 40 arrives at the sample
registry, whose queue is empty. -/
theorem wm_make_new_client_message_witness :
    ∃ w' cl', wm_make_new_client sample_defs sample_info_msg sample_wm 40 =
        some (w', some sample_wm.clients.length) ∧
      w'.client? sample_wm.clients.length = some cl' ∧ cl'.type = MBCLIENT_TYPE_DIALOG ∧
      cl'.window = 40 ∧
      cl'.flags &&& sample_defs.CLIENT_IS_MESSAGE_DIALOG = sample_defs.CLIENT_IS_MESSAGE_DIALOG ∧
      w'.msg_win_queue_head = [{ win := 40, timeout := 3 }] := by
  obtain ⟨w', cl', h, hcl, hty, hwin, _, hfl, hq, _⟩ :=
    (wm_make_new_client_message sample_defs sample_info_msg sample_wm 40 [0, 1]
      { realType := 4, format := 32, value0 := 7 } sample_wm_wf
      (by intro tp h; simp [sample_wm] at h) rfl rfl rfl rfl rfl rfl rfl).1 blank_client rfl rfl
  exact ⟨w', cl', h, hcl, hty, hwin, hfl rfl rfl, hq⟩

/-! ## Theorems: edge reservation -/

theorem foldl_add_sum (f : ClientPtr → Int) (l : List ClientPtr) (a : Int) :
    l.foldl (fun acc p => acc + f p) a = a + (l.map f).sum := by
  induction l generalizing a with
  | nil => simp
  | cons p t ih =>
    simp only [List.foldl_cons, List.map_cons, List.sum_cons]
    rw [ih]
    omega

theorem wm_get_offsets_size_eq (E : LayoutEnv) (K : Defs) (w : Wm) (d : Direction)
    (ignore_client : Option ClientPtr) (include_toolbars : Bool) :
    wm_get_offsets_size E K w d ignore_client include_toolbars =
      extent_sum E w d (counted_amended K d ignore_client include_toolbars)
        (stack_enumerate w) := by
  unfold wm_get_offsets_size extent_sum
  by_cases hh : w.head_client = none
  · simp [hh, stack_enumerate]
  · rw [if_neg hh]
    have hbody : (fun (result : Int) (p : ClientPtr) =>
        match w.client? p with
        | none => result
        | some cl =>
          if ignore_client = some p ∨ cl.mapped = false then result
          else
            match d with
            | NORTH =>
              if cl.type = MBCLIENT_TYPE_PANEL ∧ cl.flags &&& K.CLIENT_DOCK_NORTH ≠ 0
              then result + (E.get_coverage p cl).height else result
            | SOUTH =>
              if (cl.type = MBCLIENT_TYPE_PANEL ∧ cl.flags &&& K.CLIENT_DOCK_SOUTH ≠ 0)
                  ∨ (cl.type = MBCLIENT_TYPE_TOOLBAR ∧ include_toolbars = true)
              then result + (E.get_coverage p cl).height else result
            | EAST =>
              if cl.type = MBCLIENT_TYPE_PANEL ∧ cl.flags &&& K.CLIENT_DOCK_EAST ≠ 0
              then result + (E.get_coverage p cl).width else result
            | WEST =>
              if cl.type = MBCLIENT_TYPE_PANEL ∧ cl.flags &&& K.CLIENT_DOCK_WEST ≠ 0
              then result + (E.get_coverage p cl).width else result) =
        (fun (result : Int) (p : ClientPtr) => result +
          (match w.client? p with
           | some cl => if counted_amended K d ignore_client include_toolbars p cl
              then coverage_extent E d p cl else 0
           | none => 0)) := by
      funext result p
      cases w.client? p with
      | none => simp
      | some cl =>
        simp only
        by_cases hi : ignore_client = some p ∨ cl.mapped = false
        · rw [if_pos hi]
          have : counted_amended K d ignore_client include_toolbars p cl = false := by
            unfold counted_amended
            rcases hi with h | h
            · simp [h]
            · simp [h]
          simp [this]
        · rw [if_neg hi]
          have hi1 : ignore_client ≠ some p := fun h => hi (Or.inl h)
          have hi2 : cl.mapped = true := by
            cases hm : cl.mapped
            · exact absurd (Or.inr hm) hi
            · rfl
          cases d <;>
            simp only [counted_amended, coverage_extent, dock_flag, hi1, hi2, ne_eq,
              not_false_eq_true, true_and, reduceCtorEq, false_and, or_false, decide_eq_true_eq] <;>
            split <;> simp_all
    rw [hbody, foldl_add_sum]
    simp

/-- C15 (as stated, refuted): in the sample registry a mapped Toolbar of
height 50 exists and no Panel is docked north; asked for NORTH with
`include_toolbars` true the function returns 0, while the sum the claim
describes counts the Toolbar and is 50. -/
theorem wm_get_offsets_size_counterexample :
    wm_get_offsets_size sample_env sample_defs sample_wm_south NORTH none true = 0 ∧
    extent_sum sample_env sample_wm_south NORTH
      (counted_as_claimed sample_defs NORTH none true) (stack_enumerate sample_wm_south) = 50 := by
  refine ⟨by decide, by decide⟩

/-- C15 (amended): `wm_get_offsets_size` returns 0 for an empty registry, and
otherwise, for each direction, the sum of the coverage extent (height for
NORTH and SOUTH, width for EAST and WEST) over exactly the clients of the
registry that are mapped, are not the ignore client, and are either a Panel
docked to the direction or, when the direction is SOUTH and `include_toolbars`
is true, a Toolbar. -/
theorem wm_get_offsets_size_spec (E : LayoutEnv) (K : Defs) (w : Wm) (d : Direction)
    (ignore_client : Option ClientPtr) (include_toolbars : Bool) :
    (w.head_client = none →
      wm_get_offsets_size E K w d ignore_client include_toolbars = 0) ∧
    (∀ ring, IsRing w.clients w.head_client ring →
      wm_get_offsets_size E K w d ignore_client include_toolbars =
        extent_sum E w d (counted_amended K d ignore_client include_toolbars) ring) := by
  refine ⟨?_, ?_⟩
  · intro h
    simp [wm_get_offsets_size, h]
  · intro ring hring
    rw [wm_get_offsets_size_eq, stack_enumerate_eq hring]

/-- Witness for C15 (amended): the sample registry with a south Panel, a
Toolbar, an Application and a Dialog, asked for SOUTH with toolbars. -/
theorem wm_get_offsets_size_spec_witness :
    wm_get_offsets_size sample_env sample_defs sample_wm_south SOUTH none true =
      extent_sum sample_env sample_wm_south SOUTH
        (counted_amended sample_defs SOUTH none true) [0, 1, 2, 3] :=
  (wm_get_offsets_size_spec sample_env sample_defs sample_wm_south SOUTH none true).2 [0, 1, 2, 3]
    (by simp [IsRing, link, nextOf, prevOf, sample_wm_south, sample_client])

/-! ## Theorems: layout -/

@[simp] theorem set_geom_geom_blank (c : Client) (g : XRectangle) :
    (c.set_geom g).geom_blank = c.geom_blank := rfl

@[simp] theorem set_geom_type (c : Client) (g : XRectangle) : (c.set_geom g).type = c.type := rfl

@[simp] theorem set_geom_flags (c : Client) (g : XRectangle) : (c.set_geom g).flags = c.flags := rfl

theorem nextOf_of_blank {cs cs' : List Client}
    (h : cs'.map Client.geom_blank = cs.map Client.geom_blank) (p : ClientPtr) :
    nextOf cs' p = nextOf cs p := by
  have e := congrArg (fun l : List Client => (l[p]?).bind (fun c => c.next)) h
  simp only [List.getElem?_map] at e
  unfold nextOf
  cases h1 : cs'[p]? <;> cases h2 : cs[p]? <;>
    simp only [h1, h2, Option.map_none', Option.map_some', Option.none_bind, Option.some_bind,
      Client.geom_blank] at e ⊢ <;> exact e

theorem prevOf_of_blank {cs cs' : List Client}
    (h : cs'.map Client.geom_blank = cs.map Client.geom_blank) (p : ClientPtr) :
    prevOf cs' p = prevOf cs p := by
  have e := congrArg (fun l : List Client => (l[p]?).bind (fun c => c.prev)) h
  simp only [List.getElem?_map] at e
  unfold prevOf
  cases h1 : cs'[p]? <;> cases h2 : cs[p]? <;>
    simp only [h1, h2, Option.map_none', Option.map_some', Option.none_bind, Option.some_bind,
      Client.geom_blank] at e ⊢ <;> exact e

theorem link_of_blank {cs cs' : List Client}
    (h : cs'.map Client.geom_blank = cs.map Client.geom_blank) : link cs' = link cs := by
  funext a b
  unfold link
  rw [nextOf_of_blank h, prevOf_of_blank h]

theorem type_of_blank {cs cs' : List Client}
    (h : cs'.map Client.geom_blank = cs.map Client.geom_blank) (p : ClientPtr) :
    (cs'[p]?).map (fun c => (c.type, c.flags)) = (cs[p]?).map (fun c => (c.type, c.flags)) := by
  have e := congrArg (fun l : List Client => (l[p]?).map (fun c => (c.type, c.flags))) h
  simp only [List.getElem?_map] at e
  cases h1 : cs'[p]? <;> cases h2 : cs[p]? <;>
    simp only [h1, h2, Option.map_none', Option.map_some', Client.geom_blank] at e ⊢ <;> exact e

theorem map_blank_set {cs : List Client} {p : ClientPtr} {pc : Client} (g : XRectangle)
    (h : cs[p]? = some pc) :
    (cs.set p (pc.set_geom g)).map Client.geom_blank = cs.map Client.geom_blank := by
  apply List.ext_getElem?
  intro q
  simp only [List.getElem?_map, List.getElem?_set]
  by_cases hp : p = q
  · subst hp
    have hlt : p < cs.length := by
      by_contra hn
      rw [List.getElem?_eq_none (Nat.le_of_not_lt hn)] at h
      cases h
    simp [hlt, h]
  · simp [hp]

theorem update_layout_step_spec (E : LayoutEnv) (K : Defs) (r : ClientPtr) (D : Int) (w : Wm)
    (p : ClientPtr) (rc pc : Client) (hrc : w.client? r = some rc) (hpc : w.client? p = some pc) :
    ∃ w1, update_layout_step E K r D w p = some w1 ∧ w1.erase_layout = w.erase_layout ∧
      w1.clients.map Client.geom_blank = w.clients.map Client.geom_blank ∧
      (∀ q : Nat, q ≠ p → w1.clients[q]? = w.clients[q]?) ∧
      w1.clients[p]? = some (layout_cell E K w r rc D p pc) ∧
      w1.calls = w.calls ++
        (match layout_effect E K w r rc D p pc with
         | none => []
         | some ge => ge.2) := by
  have hpc' : w.clients[p]? = some pc := hpc
  unfold update_layout_step layout_cell
  rw [hrc, hpc]
  simp only
  cases layout_effect E K w r rc D p pc with
  | none => exact ⟨w, rfl, rfl, rfl, fun _ _ => rfl, hpc', by simp⟩
  | some ge =>
    obtain ⟨g, es⟩ := ge
    refine ⟨_, rfl, rfl, ?_, ?_, ?_, ?_⟩
    · simp only [logs_clients, set_clients_clients]
      exact map_blank_set g hpc'
    · intro q hq
      simp only [logs_clients, set_clients_clients]
      exact List.getElem?_set_ne (fun e => hq e.symm)
    · simp only [logs_clients, set_clients_clients]
      exact getElem?_set_self_of_some hpc'
    · simp

theorem layout_effect_nofit (E : LayoutEnv) (K : Defs) (w : Wm) (r : ClientPtr) (rc : Client)
    (D : Int) (p : ClientPtr) (pc : Client) :
    fit_calls (match layout_effect E K w r rc D p pc with
      | none => []
      | some ge => ge.2) = [] := by
  cases h : layout_effect E K w r rc D p pc with
  | none => rfl
  | some ge =>
    simp only
    unfold layout_effect layout_titlebar at h
    repeat' split at h
    all_goals first
      | (cases h; done)
      | (simp only [Option.some.injEq] at h; subst h; rfl)

@[simp] theorem fit_calls_append (a b : List Call) :
    fit_calls (a ++ b) = fit_calls a ++ fit_calls b := by
  simp [fit_calls]

theorem erase_layout_clients_free {w w' : Wm} (h : w'.erase_layout = w.erase_layout) :
    w'.head_client = w.head_client := by
  have e := congrArg Wm.head_client h
  exact e

/-- The `for` loop of `wm_update_layout` over the clients `L` that lie between
the current client and `client_changed` in `next` order. -/
theorem update_layout_loop_spec (E : LayoutEnv) (K : Defs) (r : ClientPtr) (D : Int)
    (rc : Client) :
    ∀ (L : List ClientPtr) (w : Wm) (fuel : Nat),
      w.client? r = some rc → L.Nodup → r ∉ L →
      List.Chain' (link w.clients) (L ++ [r]) → L.length < fuel →
      ∃ w', update_layout_loop E K r D fuel w ((L ++ [r]).headD r) = some w' ∧
        w'.erase_layout = w.erase_layout ∧
        w'.clients.map Client.geom_blank = w.clients.map Client.geom_blank ∧
        (∀ q : Nat, q ∉ L → w'.clients[q]? = w.clients[q]?) ∧
        (∀ q ∈ L, ∀ qc, w.clients[q]? = some qc →
          ∃ wq : Wm, wq.erase_layout = w.erase_layout ∧
            wq.clients.map Client.geom_blank = w.clients.map Client.geom_blank ∧
            w'.clients[q]? = some (layout_cell E K wq r rc D q qc)) ∧
        fit_calls w'.calls = fit_calls w.calls
  | [], w, fuel, _, _, _, _, hf => by
    obtain ⟨f, rfl⟩ : ∃ f, fuel = f + 1 := ⟨fuel - 1, by simp at hf; omega⟩
    refine ⟨w, ?_, rfl, rfl, fun _ _ => rfl, ?_, rfl⟩
    · simp [update_layout_loop]
    · intro q hq
      simp at hq
  | p :: L2, w, fuel, hrc, hnd, hr, hc, hf => by
    obtain ⟨f, rfl⟩ : ∃ f, fuel = f + 1 := ⟨fuel - 1, by simp at hf; omega⟩
    have hpr : p ≠ r := fun e => hr (by simp [e])
    have hr2 : r ∉ L2 := fun h => hr (List.mem_cons_of_mem _ h)
    have hnd2 : L2.Nodup := (List.nodup_cons.mp hnd).2
    have hp2 : p ∉ L2 := (List.nodup_cons.mp hnd).1
    have hc' : List.Chain' (link w.clients) (p :: (L2 ++ [r])) := hc
    have hlink : link w.clients p ((L2 ++ [r]).headD r) := by
      cases L2 with
      | nil => simpa using hc'
      | cons a t =>
        simp only [List.cons_append, List.chain'_cons] at hc'
        exact hc'.1
    have hc2 : List.Chain' (link w.clients) (L2 ++ [r]) := (List.chain'_cons'.mp hc').2
    have hplt : p < w.clients.length := nextOf_some_lt hlink.1
    obtain ⟨pc, hpc⟩ : ∃ pc, w.clients[p]? = some pc :=
      ⟨w.clients[p], List.getElem?_eq_getElem hplt⟩
    obtain ⟨w1, hstep, hfr1, hbl1, hoth1, hcell1, hcalls1⟩ :=
      update_layout_step_spec E K r D w p rc pc hrc hpc
    have hrc1 : w1.client? r = some rc := by
      show w1.clients[r]? = _
      rw [hoth1 r (fun e => hpr e.symm)]
      exact hrc
    obtain ⟨w', hloop, hfr, hbl, hoth, hcell, hfit⟩ :=
      update_layout_loop_spec E K r D rc L2 w1 f hrc1 hnd2 hr2
        (by rw [link_of_blank hbl1]; exact hc2) (by simp at hf; omega)
    refine ⟨w', ?_, hfr.trans hfr1, hbl.trans hbl1, ?_, ?_, ?_⟩
    · have hhead : ((p :: L2) ++ [r]).headD r = p := rfl
      rw [hhead]
      unfold update_layout_loop
      rw [if_neg hpr, hstep]
      simp only
      rw [nextOf_of_blank hbl1, hlink.1]
      exact hloop
    · intro q hq
      have hq1 : q ≠ p := fun e => hq (by simp [e])
      have hq2 : q ∉ L2 := fun h => hq (List.mem_cons_of_mem _ h)
      rw [hoth q hq2, hoth1 q hq1]
    · intro q hq qc hqc
      rcases List.mem_cons.mp hq with rfl | hq2
      · refine ⟨w, rfl, rfl, ?_⟩
        rw [hoth q hp2, hcell1]
        rw [hpc] at hqc
        cases hqc
        rfl
      · have hq1 : q ≠ p := fun e => hp2 (e ▸ hq2)
        obtain ⟨wq, h1, h2, h3⟩ := hcell q hq2 qc (by rw [hoth1 q hq1]; exact hqc)
        exact ⟨wq, h1.trans hfr1, h2.trans hbl1, h3⟩
    · rw [hfit, hcalls1, fit_calls_append, layout_effect_nofit]
      simp

/-- The clients of a ring other than `r`, in `next` order from `r->next`. -/
theorem ring_rotate {cs : List Client} {head : Option ClientPtr} {ring : List ClientPtr}
    (h : IsRing cs head ring) {r : ClientPtr} (hr : r ∈ ring) :
    ∃ L : List ClientPtr, L.Nodup ∧ r ∉ L ∧ List.Chain' (link cs) (r :: (L ++ [r])) ∧
      (∀ q, q ∈ L ↔ q ∈ ring ∧ q ≠ r) ∧ L.length < cs.length := by
  have hv := h.valid
  obtain ⟨hnd, _, hc⟩ := h
  obtain ⟨pre, post, rfl⟩ := List.append_of_mem hr
  have hnd' : (r :: (pre ++ post)).Nodup := List.nodup_middle.mp hnd
  obtain ⟨hrn, hnd2⟩ := List.nodup_cons.mp hnd'
  have hlen : (pre ++ r :: post).length ≤ cs.length := nodup_bounded_length hnd hv
  refine ⟨post ++ pre, List.nodup_append_comm.mp hnd2, ?_, ?_, ?_, ?_⟩
  · intro hm
    exact hrn (by simp only [List.mem_append] at hm ⊢; exact hm.symm)
  · cases pre with
    | nil =>
      simpa using hc
    | cons hd pre' =>
      simp only [List.cons_append, List.head?_cons, Option.toList, List.append_assoc] at hc
      have hc1 : List.Chain' (link cs) ((hd :: pre') ++ r :: (post ++ [hd])) := by
        simpa using hc
      obtain ⟨ha, hb⟩ := List.chain'_split.mp hc1
      have goal : List.Chain' (link cs) ((r :: post) ++ hd :: (pre' ++ [r])) :=
        List.chain'_split.mpr ⟨by simpa using hb, by simpa using ha⟩
      simpa using goal
  · intro q
    simp only [List.mem_append, List.mem_cons]
    constructor
    · intro hq
      refine ⟨by tauto, ?_⟩
      rintro rfl
      exact hrn (by simp only [List.mem_append]; tauto)
    · rintro ⟨hq, hne⟩
      tauto
  · simp only [List.length_append, List.length_cons] at hlen ⊢
    omega

/-- The bulk pass of `wm_update_layout` on a registry whose ring holds
`client_changed`: it returns, changes nothing but the geometry of ring clients
other than `client_changed`, each by one pass of the loop body, and calls the
fitting policy for none. -/
theorem update_layout_bulk_spec (E : LayoutEnv) (K : Defs) (w : Wm) (r : ClientPtr) (D : Int)
    (ring : List ClientPtr) (rc : Client)
    (hring : IsRing w.clients w.head_client ring) (hr : r ∈ ring)
    (hrc : w.client? r = some rc) :
    ∃ w1, update_layout_bulk E K w r D = some w1 ∧
      w1.erase_layout = w.erase_layout ∧
      w1.clients.map Client.geom_blank = w.clients.map Client.geom_blank ∧
      (∀ q : Nat, q ∉ ring ∨ q = r → w1.clients[q]? = w.clients[q]?) ∧
      (∀ q ∈ ring, q ≠ r → ∀ qc, w.clients[q]? = some qc →
        ∃ wq : Wm, wq.erase_layout = w.erase_layout ∧
          wq.clients.map Client.geom_blank = w.clients.map Client.geom_blank ∧
          w1.clients[q]? = some (layout_cell E K wq r rc D q qc)) ∧
      fit_calls w1.calls = fit_calls w.calls ∧
      IsRing w1.clients w1.head_client ring := by
  obtain ⟨L, hnd, hrL, hc, hmem, hlen⟩ := ring_rotate hring hr
  have hlink : link w.clients r ((L ++ [r]).headD r) := by
    cases L with
    | nil => simpa using hc
    | cons a t =>
      simp only [List.cons_append, List.chain'_cons] at hc
      exact hc.1
  obtain ⟨w1, hloop, hfr, hbl, hoth, hcell, hfit⟩ :=
    update_layout_loop_spec E K r D rc L (w.log Call.XGrabServer) (w.clients.length + 1) hrc hnd hrL
      (List.chain'_cons'.mp hc).2 (Nat.lt_succ_of_lt hlen)
  refine ⟨w1, ?_, hfr, hbl, ?_, ?_, ?_, ?_⟩
  · unfold update_layout_bulk
    rw [hlink.1]
    exact hloop
  · intro q hq
    apply hoth q
    intro hqL
    rcases hq with hq | hq
    · exact hq ((hmem q).mp hqL).1
    · exact ((hmem q).mp hqL).2 hq
  · intro q hq hne qc hqc
    exact hcell q ((hmem q).mpr ⟨hq, hne⟩) qc hqc
  · rw [hfit]
    simp [fit_calls, Wm.log, is_fit]
  · obtain ⟨h1, h2, h3⟩ := hring
    refine ⟨h1, ?_, ?_⟩
    · rw [erase_layout_clients_free hfr]
      exact h2
    · rw [link_of_blank hbl]
      exact h3

theorem dialog_fit_spec (E : LayoutEnv) (w : Wm) (p : ClientPtr) (pc : Client)
    (hpc : w.client? p = some pc) :
    ∃ w1, dialog_fit E w p = some w1 ∧ w1.erase_layout = w.erase_layout ∧
      w1.clients.map Client.geom_blank = w.clients.map Client.geom_blank ∧
      (∀ q : Nat, q ≠ p → w1.clients[q]? = w.clients[q]?) ∧
      w1.clients[p]? = some (dialog_cell E [p] p pc) ∧
      w1.calls = w.calls ++ dialog_calls E w p := by
  have hpc' : w.clients[p]? = some pc := hpc
  unfold dialog_fit dialog_cell dialog_calls fit_changed fit_rect
  rw [hpc]
  simp only [List.mem_singleton, true_and, Bool.not_eq_true']
  by_cases hd : pc.type = MBCLIENT_TYPE_DIALOG
  · by_cases hret : (E.dialog_check_geometry p pc.geom).1 = false
    · rw [if_pos hd, if_pos hret, if_pos ⟨hd, hret⟩, if_pos hd, if_pos hret]
      refine ⟨_, rfl, rfl, ?_, ?_, ?_, ?_⟩
      · simp only [logs_clients, set_clients_clients, log_clients]
        exact map_blank_set _ hpc'
      · intro q hq
        simp only [logs_clients, set_clients_clients, log_clients]
        exact List.getElem?_set_ne (fun e => hq e.symm)
      · simp only [logs_clients, set_clients_clients, log_clients]
        exact getElem?_set_self_of_some hpc'
      · simp
    · rw [if_pos hd, if_neg hret, if_neg (fun h => hret h.2), if_pos hd, if_neg hret]
      exact ⟨_, rfl, rfl, rfl, fun _ _ => rfl, hpc', by simp⟩
  · rw [if_neg hd, if_neg (fun h => hd h.1), if_neg hd]
    exact ⟨w, rfl, rfl, rfl, fun _ _ => rfl, hpc', by simp⟩

theorem dialog_calls_all_congr (E : LayoutEnv) {w w1 : Wm} :
    ∀ (L : List ClientPtr), (∀ q ∈ L, w1.clients[q]? = w.clients[q]?) →
      dialog_calls_all E w1 L = dialog_calls_all E w L
  | [], _ => rfl
  | p :: ps, h => by
    have hp : w1.client? p = w.client? p := h p (by simp)
    simp only [dialog_calls_all, dialog_calls, hp]
    rw [dialog_calls_all_congr E ps (fun q hq => h q (List.mem_cons_of_mem _ hq))]

/-- The dialog loop of `wm_update_layout` over a list of distinct valid
clients. -/
theorem dialog_pass_spec (E : LayoutEnv) :
    ∀ (L : List ClientPtr) (w : Wm), L.Nodup → (∀ p ∈ L, p < w.clients.length) →
      ∃ w3, dialog_pass E L w = some w3 ∧ w3.erase_layout = w.erase_layout ∧
        w3.clients.map Client.geom_blank = w.clients.map Client.geom_blank ∧
        (∀ (q : Nat) (qc : Client), w.clients[q]? = some qc →
          w3.clients[q]? = some (dialog_cell E L q qc)) ∧
        w3.calls = w.calls ++ dialog_calls_all E w L
  | [], w, _, _ => by
    refine ⟨w, rfl, rfl, rfl, ?_, by simp [dialog_calls_all]⟩
    intro q qc hq
    simp [dialog_cell, hq]
  | p :: L2, w, hnd, hv => by
    have hp2 : p ∉ L2 := (List.nodup_cons.mp hnd).1
    have hplt : p < w.clients.length := hv p (by simp)
    obtain ⟨pc, hpc⟩ : ∃ pc, w.clients[p]? = some pc :=
      ⟨w.clients[p], List.getElem?_eq_getElem hplt⟩
    obtain ⟨w1, hfit, hfr1, hbl1, hoth1, hcell1, hcalls1⟩ := dialog_fit_spec E w p pc hpc
    have hlen : w1.clients.length = w.clients.length := by
      have e := congrArg List.length hbl1
      simpa using e
    obtain ⟨w3, hpass, hfr, hbl, hcell, hcalls⟩ := dialog_pass_spec E L2 w1
      (List.nodup_cons.mp hnd).2
      (by intro q hq; rw [hlen]; exact hv q (List.mem_cons_of_mem _ hq))
    refine ⟨w3, ?_, hfr.trans hfr1, hbl.trans hbl1, ?_, ?_⟩
    · simp only [dialog_pass, hfit]
      exact hpass
    · intro q qc hq
      by_cases hqp : q = p
      · subst hqp
        rw [hpc] at hq
        cases hq
        rw [hcell q _ hcell1]
        simp only [dialog_cell, List.mem_singleton, true_and, List.mem_cons, true_or]
        rw [if_neg (fun h => hp2 h.1)]
      · rw [hcell q qc (by rw [hoth1 q hqp]; exact hq)]
        simp only [dialog_cell, List.mem_cons, hqp, false_or]
    · rw [hcalls, hcalls1, dialog_calls_all_congr E L2 (fun q hq =>
        hoth1 q (fun e => hp2 (e ▸ hq)))]
      simp [dialog_calls_all]

/-- The whole of `wm_update_layout` on a registry whose ring holds
`client_changed`: the bulk pass, the dialog loop, and the closing requests. -/
theorem wm_update_layout_total (E : LayoutEnv) (K : Defs) (w : Wm) (r : ClientPtr) (D : Int)
    (ring : List ClientPtr) (rc : Client)
    (hring : IsRing w.clients w.head_client ring) (hr : r ∈ ring)
    (hrc : w.client? r = some rc) :
    ∃ w1 w', update_layout_bulk E K w r D = some w1 ∧ wm_update_layout E K w r D = some w' ∧
      fit_calls w1.calls = fit_calls w.calls ∧
      w'.calls = w1.calls ++ dialog_calls_all E w1 ring ++
        [Call.XSync, Call.XUngrabServer, Call.ewmh_update_rects] ∧
      (∀ (p : Nat) (pc : Client), w.clients[p]? = some pc →
        ∃ pc1, w1.clients[p]? = some pc1 ∧ pc1.type = pc.type ∧
          w'.clients[p]? = some (dialog_cell E ring p pc1) ∧
          (p ∉ ring ∨ p = r → pc1 = pc) ∧
          (p ∈ ring → p ≠ r → ∃ wq : Wm, wq.erase_layout = w.erase_layout ∧
            wq.clients.map Client.geom_blank = w.clients.map Client.geom_blank ∧
            pc1 = layout_cell E K wq r rc D p pc)) ∧
      w'.erase_layout = w.erase_layout ∧
      (∀ (p : Nat) (pc1 : Client), w1.clients[p]? = some pc1 →
        w'.clients[p]? = some (dialog_cell E ring p pc1)) := by
  obtain ⟨w1, hbulk, hfr1, hbl1, hoth1, hcell1, hfit1, hring1⟩ :=
    update_layout_bulk_spec E K w r D ring rc hring hr hrc
  obtain ⟨w3, hpass, hfr3, hbl3, hcell3, hcalls3⟩ :=
    dialog_pass_spec E ring w1 hring1.1 hring1.valid
  refine ⟨w1, w3.logs [Call.XSync, Call.XUngrabServer, Call.ewmh_update_rects], hbulk, ?_, hfit1,
    ?_, ?_, ?_, hcell3⟩
  · unfold wm_update_layout
    rw [hbulk]
    simp only
    rw [stack_enumerate_eq hring1, hpass]
  · simp [hcalls3]
  · intro p pc hpc
    by_cases hp : p ∈ ring ∧ p ≠ r
    · obtain ⟨wq, h1, h2, h3⟩ := hcell1 p hp.1 hp.2 pc hpc
      refine ⟨_, h3, ?_, ?_, fun h => ?_, fun _ _ => ⟨wq, h1, h2, rfl⟩⟩
      · unfold layout_cell
        split <;> rfl
      · exact hcell3 p _ h3
      · rcases h with h | h
        · exact absurd hp.1 h
        · exact absurd h hp.2
    · have hp' : p ∉ ring ∨ p = r := by
        by_cases h1 : p ∈ ring
        · exact Or.inr (not_not.mp (fun h2 => hp ⟨h1, h2⟩))
        · exact Or.inl h1
      have h3 : w1.clients[p]? = some pc := by rw [hoth1 p hp']; exact hpc
      refine ⟨pc, h3, rfl, hcell3 p pc h3, fun _ => rfl, fun h1 h2 => ?_⟩
      rcases hp' with h | h
      · exact absurd h1 h
      · exact absurd h h2
  · exact hfr3.trans hfr1

theorem sample_wm_south_ring :
    IsRing sample_wm_south.clients sample_wm_south.head_client [0, 1, 2, 3] := by
  simp [IsRing, link, nextOf, prevOf, sample_wm_south, sample_client]

theorem sample_wm_west_ring :
    IsRing sample_wm_west.clients sample_wm_west.head_client [0, 1, 2, 3] := by
  simp [IsRing, link, nextOf, prevOf, sample_wm_west, sample_client]

/-- C12: `wm_update_layout` for a west-docked Panel `r` and a signed delta `D`
returns, and afterwards every other Application of the registry with
`x >= r.x` has `x` decreased by `D` and `width` increased by `D` with `y` and
`height` unchanged; every other Toolbar with `x >= r.x` (a Toolbar carries no
dock flag) has `x` decreased by `D`; and every east-docked Panel keeps its
`x`, `y`, `width` and `height`. -/
theorem wm_update_layout_west (E : LayoutEnv) (K : Defs) (w : Wm) (r : ClientPtr) (D : Int)
    (ring : List ClientPtr) (rc : Client)
    (hring : IsRing w.clients w.head_client ring) (hr : r ∈ ring)
    (hrc : w.client? r = some rc) (hpanel : rc.type = MBCLIENT_TYPE_PANEL)
    (hwest : rc.flags &&& K.CLIENT_DOCK_WEST ≠ 0) :
    ∃ w', wm_update_layout E K w r D = some w' ∧
      ∀ (p : ClientPtr) (pc : Client), w.client? p = some pc →
        ∃ pc', w'.client? p = some pc' ∧
          (p ∈ ring → p ≠ r → pc.type = MBCLIENT_TYPE_APP → pc.x ≥ rc.x →
            pc'.x = pc.x - D ∧ pc'.width = pc.width + D ∧ pc'.y = pc.y ∧
            pc'.height = pc.height) ∧
          (p ∈ ring → p ≠ r → pc.type = MBCLIENT_TYPE_TOOLBAR → pc.x ≥ rc.x →
            pc.flags &&& K.CLIENT_DOCK_EAST = 0 → pc.flags &&& K.CLIENT_DOCK_TITLEBAR = 0 →
            pc'.x = pc.x - D) ∧
          (pc.type = MBCLIENT_TYPE_PANEL → pc.flags &&& K.CLIENT_DOCK_EAST ≠ 0 →
            pc'.geom = pc.geom) := by
  obtain ⟨w1, w', _, hrun, _, _, hcells, _, _⟩ :=
    wm_update_layout_total E K w r D ring rc hring hr hrc
  refine ⟨w', hrun, ?_⟩
  intro p pc hpc
  obtain ⟨pc1, _, hty1, hcell', hsame, hmoved⟩ := hcells p pc hpc
  refine ⟨_, hcell', ?_, ?_, ?_⟩
  · intro hp hne hty hx
    obtain ⟨wq, _, _, rfl⟩ := hmoved hp hne
    simp [dialog_cell, layout_cell, layout_effect, hpanel, hwest, hx, hty, Client.set_geom,
      Client.geom]
  · intro hp hne hty hx he ht
    obtain ⟨wq, _, _, rfl⟩ := hmoved hp hne
    simp [dialog_cell, layout_cell, layout_effect, hpanel, hwest, hx, hty, he, ht,
      Client.set_geom, Client.geom]
  · intro hty he
    have hnd : ¬ (p ∈ ring ∧ pc1.type = MBCLIENT_TYPE_DIALOG ∧
        fit_changed E p pc1.geom = true) := by
      intro h
      rw [hty1, hty] at h
      exact absurd h.2.1 (by decide)
    unfold dialog_cell
    rw [if_neg hnd]
    by_cases hp : p ∈ ring ∧ p ≠ r
    · obtain ⟨wq, _, _, rfl⟩ := hmoved hp.1 hp.2
      by_cases hx : pc.x ≥ rc.x
      · simp [layout_cell, layout_effect, hpanel, hwest, hx, hty, he]
      · simp [layout_cell, layout_effect, hpanel, hwest, hx]
    · rw [hsame (by
        by_cases h1 : p ∈ ring
        · exact Or.inr (not_not.mp (fun h2 => hp ⟨h1, h2⟩))
        · exact Or.inl h1)]

/-- Witness for C12: the west Panel of the sample registry grows by 20; the
Application at `x = 20` ends at `x = 0` with width 120. -/
theorem wm_update_layout_west_witness :
    ∃ w', wm_update_layout sample_env sample_defs sample_wm_west 0 20 = some w' ∧
      ∃ pc', w'.client? 1 = some pc' ∧ pc'.x = 0 ∧ pc'.width = 120 := by
  obtain ⟨w', hrun, h⟩ := wm_update_layout_west sample_env sample_defs sample_wm_west 0 20
    [0, 1, 2, 3] { sample_client MBCLIENT_TYPE_PANEL 20 21 0 1 3 with flags := 2048 }
    sample_wm_west_ring (by simp) rfl rfl (by decide)
  obtain ⟨pc', hpc', happ, _, _⟩ := h 1
    { sample_client MBCLIENT_TYPE_APP 10 11 12 2 0 with x := 20 } rfl
  have hh := happ (by simp) (by decide) rfl (by decide)
  exact ⟨w', hrun, pc', hpc', by simpa using hh.1, by simpa [sample_client] using hh.2.1⟩

/-- C13 (as stated, refuted): the south Panel at `y = 100` of the sample
registry grows by 10; the Toolbar at `y = 150` is on the near side by position
(`150 <= 100` fails) and is not a Dialog, yet its `y` becomes 160. -/
theorem wm_update_layout_near_counterexample :
    (sample_wm_south.client? 0).map
        (fun rc => (rc.type, rc.flags &&& sample_defs.CLIENT_DOCK_SOUTH, rc.y)) =
      some (MBCLIENT_TYPE_PANEL, 512, 100) ∧
    (sample_wm_south.client? 1).map
        (fun pc => (pc.type, pc.geom)) =
      some (MBCLIENT_TYPE_TOOLBAR, { x := 0, y := 150, width := 100, height := 50 }) ∧
    ((sample_wm_south.client? 0).bind (fun rc => (sample_wm_south.client? 1).map
        (fun pc => far_side_by_position sample_defs rc pc))) = some false ∧
    (wm_update_layout sample_env sample_defs sample_wm_south 0 10).bind
        (fun w' => (w'.client? 1).map Client.geom) =
      some { x := 0, y := 160, width := 100, height := 50 } := by
  refine ⟨by decide, by decide, by decide, by decide⟩

/-- C13 (amended): in `wm_update_layout` the far side of the resized client
`r` is decided for a west Panel by `x >= r.x`, for an east Panel by
`x <= r.x`, for a north Panel by `y >= r.y`, and otherwise by `y <= r.y`,
except that when `r` is a Panel every Toolbar counts as far whatever its
position; every non-Dialog client that is not on the far side keeps its `x`,
`y`, `width` and `height` (its whole record), for every resized client, every
delta and every client variant. -/
theorem wm_update_layout_near (E : LayoutEnv) (K : Defs) (w : Wm) (r : ClientPtr) (D : Int)
    (ring : List ClientPtr) (rc : Client)
    (hring : IsRing w.clients w.head_client ring) (hr : r ∈ ring)
    (hrc : w.client? r = some rc) :
    ∃ w', wm_update_layout E K w r D = some w' ∧
      ∀ (p : ClientPtr) (pc : Client), w.client? p = some pc →
        pc.type ≠ MBCLIENT_TYPE_DIALOG → far_side K rc pc = false → w'.client? p = some pc := by
  obtain ⟨w1, w', _, hrun, _, _, hcells, _, _⟩ :=
    wm_update_layout_total E K w r D ring rc hring hr hrc
  refine ⟨w', hrun, ?_⟩
  intro p pc hpc hnd hnear
  obtain ⟨pc1, _, hty1, hcell', hsame, hmoved⟩ := hcells p pc hpc
  have hnd1 : ¬ (p ∈ ring ∧ pc1.type = MBCLIENT_TYPE_DIALOG ∧
      fit_changed E p pc1.geom = true) := by
    intro h
    rw [hty1] at h
    exact hnd h.2.1
  have e : w'.client? p = some (dialog_cell E ring p pc1) := hcell'
  rw [e]
  unfold dialog_cell
  rw [if_neg hnd1]
  by_cases hp : p ∈ ring ∧ p ≠ r
  · obtain ⟨wq, _, _, rfl⟩ := hmoved hp.1 hp.2
    have hnone : layout_effect E K wq r rc D p pc = none := by
      unfold far_side at hnear
      unfold layout_effect
      by_cases h1 : rc.type = MBCLIENT_TYPE_PANEL ∧ rc.flags &&& K.CLIENT_DOCK_WEST ≠ 0
      · rw [if_pos h1] at hnear ⊢
        rw [if_neg (by simpa using hnear)]
      · rw [if_neg h1] at hnear ⊢
        by_cases h2 : rc.type = MBCLIENT_TYPE_PANEL ∧ rc.flags &&& K.CLIENT_DOCK_EAST ≠ 0
        · rw [if_pos h2] at hnear ⊢
          rw [if_neg (by simpa using hnear)]
        · rw [if_neg h2] at hnear ⊢
          by_cases h3 : rc.type = MBCLIENT_TYPE_PANEL ∧ rc.flags &&& K.CLIENT_DOCK_NORTH ≠ 0
          · rw [if_pos h3] at hnear ⊢
            rw [if_neg (by simpa using hnear)]
          · rw [if_neg h3] at hnear ⊢
            rw [if_neg (by simpa using hnear)]
    simp [layout_cell, hnone]
  · rw [hsame (by
      by_cases h1 : p ∈ ring
      · exact Or.inr (not_not.mp (fun h2 => hp ⟨h1, h2⟩))
      · exact Or.inl h1)]

/-- Witness for C13 (amended): the Application at `y = 0` of the sample
registry is resized; the Toolbar at `y = 150` is on the near side and stays. -/
theorem wm_update_layout_near_witness :
    ∃ w', wm_update_layout sample_env sample_defs sample_wm_south 2 10 = some w' ∧
      w'.client? 1 = some { sample_client MBCLIENT_TYPE_TOOLBAR 30 31 0 2 0 with y := 150 } := by
  obtain ⟨w', hrun, h⟩ := wm_update_layout_near sample_env sample_defs sample_wm_south 2 10
    [0, 1, 2, 3] (sample_client MBCLIENT_TYPE_APP 10 11 12 3 1)
    sample_wm_south_ring (by simp) rfl
  exact ⟨w', hrun, h 1 _ rfl (by decide) (by decide)⟩

/-- C14: in `wm_update_layout` the bulk pass calls the fitting policy for no
client; the dialog loop then visits every client of the registry once, calls
`dialog_check_geometry` for each Dialog with the rectangle that the Dialog has
after the bulk pass, and exactly when the policy reports a change stores the
fitted rectangle as the Dialog's `x`, `y`, `width` and `height` and calls
`move_resize` and `client_deliver_config`; when it reports no change the
Dialog's record stays as it was, as does every other client's. -/
theorem wm_update_layout_dialogs (E : LayoutEnv) (K : Defs) (w : Wm) (r : ClientPtr) (D : Int)
    (ring : List ClientPtr) (rc : Client)
    (hring : IsRing w.clients w.head_client ring) (hr : r ∈ ring)
    (hrc : w.client? r = some rc) :
    ∃ w1 w', update_layout_bulk E K w r D = some w1 ∧ wm_update_layout E K w r D = some w' ∧
      fit_calls w1.calls = fit_calls w.calls ∧ ring.Nodup ∧
      w'.calls = w1.calls ++ dialog_calls_all E w1 ring ++
        [Call.XSync, Call.XUngrabServer, Call.ewmh_update_rects] ∧
      (∀ (p : ClientPtr) (pc1 : Client), w1.client? p = some pc1 →
        w'.client? p = some
          (if p ∈ ring ∧ pc1.type = MBCLIENT_TYPE_DIALOG ∧ fit_changed E p pc1.geom = true
           then pc1.set_geom (fit_rect E p pc1.geom) else pc1)) := by
  obtain ⟨w1, w', hbulk, hrun, hfit, hcalls, _, _, hcells⟩ :=
    wm_update_layout_total E K w r D ring rc hring hr hrc
  exact ⟨w1, w', hbulk, hrun, hfit, hring.1, hcalls, hcells⟩

/-- Witness for C14: the south Panel of the sample registry grows by 10; the
policy is called once, for the Dialog at address 3 with its rectangle, reports
a change, and the Dialog is moved to the fitted rectangle. -/
theorem wm_update_layout_dialogs_witness :
    ∃ w1 w', update_layout_bulk sample_env sample_defs sample_wm_south 0 10 = some w1 ∧
      wm_update_layout sample_env sample_defs sample_wm_south 0 10 = some w' ∧
      fit_calls w1.calls = fit_calls sample_wm_south.calls ∧
      w'.calls = w1.calls ++ dialog_calls_all sample_env w1 [0, 1, 2, 3] ++
        [Call.XSync, Call.XUngrabServer, Call.ewmh_update_rects] := by
  obtain ⟨w1, w', h1, h2, h3, _, h4, _⟩ :=
    wm_update_layout_dialogs sample_env sample_defs sample_wm_south 0 10 [0, 1, 2, 3]
      { sample_client MBCLIENT_TYPE_PANEL 20 21 0 1 3 with y := 100, flags := 512 }
      sample_wm_south_ring (by simp) rfl
  exact ⟨w1, w', h1, h2, h3, h4⟩

/-! ## Theorems: force-dialog title list -/

/-- C22 (code defect): with `-force_dialogs xterm,gedit` the listed title
`gedit` is matched, but so is the title `term`, which is not an entry of the
list: `strstr` looks for the title anywhere inside the configured string. -/
theorem wm_win_force_dialog_substring :
    comma_entries "xterm,gedit".data = ["xterm".data, "gedit".data] ∧
    force_dialog_listed sample_wm_forced_list sample_info_gedit = true ∧
    wm_win_force_dialog sample_wm_forced_list sample_info_gedit = true ∧
    force_dialog_listed sample_wm_forced_list sample_info_term = false ∧
    wm_win_force_dialog sample_wm_forced_list sample_info_term = true := by
  refine ⟨by decide, by decide, by decide, by decide, by decide⟩

/-! ## Theorems: event loop -/

/-- C24: at the start of an iteration of `wm_event_loop` the computed timeout
is one second when the startup-notification busy counter is non-zero, the
message window queue is non-empty, the configuration watcher is active or the
number of active ping clients is non-zero (each for a feature that is compiled
in), and zero otherwise; with a zero timeout an event is always returned; and
an iteration in which an event is returned only dispatches it and leaves the
hung-application tick counter alone: the periodic tasks run only when the wait
returned without an event. -/
theorem wm_event_loop_timeout (K : Defs) (dispatch : Wm → Option Wm) (X : XConn)
    (timed_out : Bool) (s : LoopState) :
    loop_timeout K s.w = (if loop_pending K s.w = true then 1 else 0) ∧
    (loop_timeout K s.w = 0 → (get_xevent_timed (loop_timeout K s.w) X s.w).1 = true) ∧
    ((get_xevent_timed (loop_timeout K s.w) X s.w).1 = true →
      wm_event_loop_iter K dispatch X timed_out s =
        (dispatch (get_xevent_timed (loop_timeout K s.w) X s.w).2).map
          (fun w1 => { w := w1, hung_app_timer := s.hung_app_timer })) ∧
    ((get_xevent_timed (loop_timeout K s.w) X s.w).1 = false →
      loop_timeout K s.w = 1 ∧ X.pending = false ∧ X.select_ready = false ∧
      wm_event_loop_iter K dispatch X timed_out s =
        some (loop_periodic K timed_out { s with w := s.w.log Call.XFlush })) := by
  have ht : loop_timeout K s.w = (if loop_pending K s.w = true then 1 else 0) := by
    unfold loop_timeout loop_pending
    by_cases h1 : K.USE_LIBSN = true ∧ s.w.sn_busy_cnt ≠ 0 <;>
    by_cases h2 : K.USE_MSG_WIN = true ∧ s.w.msg_win_queue_head ≠ [] <;>
    by_cases h3 : K.USE_GCONF = true ∧ s.w.gconf_client = true <;>
    by_cases h4 : K.NO_PING = false ∧ s.w.n_active_ping_clients ≠ 0 <;>
    simp [h1, h2, h3, h4]
  refine ⟨ht, ?_, ?_, ?_⟩
  · intro h0
    simp [get_xevent_timed, h0]
  · intro hev
    unfold wm_event_loop_iter
    simp only [hev, if_true]
    cases dispatch (get_xevent_timed (loop_timeout K s.w) X s.w).2 <;> rfl
  · intro hev
    have h1 : loop_timeout K s.w = 1 := by
      rw [ht] at hev ⊢
      by_cases hp : loop_pending K s.w = true
      · simp [hp]
      · simp [hp, get_xevent_timed] at hev
    rw [h1] at hev
    have hp : X.pending = false := by
      cases h : X.pending
      · rfl
      · simp [get_xevent_timed, h] at hev
    have hs : X.select_ready = false := by
      cases h : X.select_ready
      · rfl
      · simp [get_xevent_timed, h, hp] at hev
    refine ⟨h1, hp, hs, ?_⟩
    unfold wm_event_loop_iter
    simp [h1, get_xevent_timed, hp, hs]

/-- Witness for C24: with one active ping client and a wait that times out,
the iteration runs the periodic tasks. -/
theorem wm_event_loop_timeout_witness :
    loop_timeout sample_defs sample_wm_ping = 1 ∧
    wm_event_loop_iter sample_defs (fun w => some w) { pending := false, select_ready := false }
        false { w := sample_wm_ping, hung_app_timer := 0 } =
      some (loop_periodic sample_defs false
        { w := sample_wm_ping.log Call.XFlush, hung_app_timer := 0 }) :=
  ⟨((wm_event_loop_timeout sample_defs (fun w => some w)
      { pending := false, select_ready := false } false
      { w := sample_wm_ping, hung_app_timer := 0 }).2.2.2 (by decide)).1,
   ((wm_event_loop_timeout sample_defs (fun w => some w)
      { pending := false, select_ready := false } false
      { w := sample_wm_ping, hung_app_timer := 0 }).2.2.2 (by decide)).2.2.2⟩

/-- C25 (code defect): with one active ping client and a wait that keeps
timing out, starting from a tick counter of 0, no hung-application check has
run after two ticks (the counter is 2); the first check runs on the third
tick, which resets the counter to 0, and the second on the sixth: the test
`++hung_app_timer > 2` fires every three seconds, not every two. -/
theorem wm_event_loop_hung_app_period :
    (loop_timeouts sample_defs 2 { w := sample_wm_ping, hung_app_timer := 0 }).map
        (fun s => (hung_checks s.w.calls, s.hung_app_timer)) = some (0, 2) ∧
    (loop_timeouts sample_defs 3 { w := sample_wm_ping, hung_app_timer := 0 }).map
        (fun s => (hung_checks s.w.calls, s.hung_app_timer)) = some (1, 0) ∧
    (loop_timeouts sample_defs 5 { w := sample_wm_ping, hung_app_timer := 0 }).map
        (fun s => (hung_checks s.w.calls, s.hung_app_timer)) = some (1, 2) ∧
    (loop_timeouts sample_defs 6 { w := sample_wm_ping, hung_app_timer := 0 }).map
        (fun s => (hung_checks s.w.calls, s.hung_app_timer)) = some (2, 0) := by
  refine ⟨by decide, by decide, by decide, by decide⟩

/-- C26 (code defect): the busy counter can become negative.  From the initial
state a cancelled event gives -1, and so does a completed event on an empty
registry; and after an initiated event (counter 1) a watchdog check that times
out (counter 0) followed by the completed event of that launch gives -1.  The
watchdog itself returns at a counter of 0 and decrements a non-zero counter
only. -/
theorem sn_busy_cnt_negative (w : Wm) (timed_out : Bool) :
    (wm_sn_monitor_event_func {} (sn_event "id1" "xterm" SN_MONITOR_EVENT_CANCELED)).sn_busy_cnt
      = -1 ∧
    (wm_sn_monitor_event_func {} sample_completed).sn_busy_cnt = -1 ∧
    (wm_sn_monitor_event_func
      (wm_sn_timeout_check
        (wm_sn_monitor_event_func {} (sn_event "id1" "xterm" SN_MONITOR_EVENT_INITIATED)) true)
      sample_completed).sn_busy_cnt = -1 ∧
    (wm_sn_timeout_check w timed_out).sn_busy_cnt =
      (if w.sn_busy_cnt ≠ 0 ∧ timed_out = true then w.sn_busy_cnt - 1 else w.sn_busy_cnt) := by
  refine ⟨by decide, by decide, by decide, ?_⟩
  unfold wm_sn_timeout_check
  by_cases h0 : w.sn_busy_cnt = 0
  · simp [h0]
  · cases timed_out
    · simp only [h0, if_false, Bool.false_eq_true, and_false]
      split <;> rfl
    · simp only [h0, if_false, if_true, ne_eq, not_false_eq_true, and_self]
      split <;> rfl

/-! ## Theorems: layout edges -/

/-- C27: `wm_update_layout` returns, and every Application that it adjusts (an
Application of the registry other than the resized client, on the far side)
keeps the edge opposite the resized dock: for a west-docked Panel `x + width`
is unchanged, for a north-docked Panel `y + height` is unchanged, for an
east-docked Panel `x` is unchanged and `width` grows by the delta, and in the
remaining case `y` is unchanged and `height` grows by the delta; the
coordinates along the other axis stay. -/
theorem wm_update_layout_app_edges (E : LayoutEnv) (K : Defs) (w : Wm) (r : ClientPtr) (D : Int)
    (ring : List ClientPtr) (rc : Client)
    (hring : IsRing w.clients w.head_client ring) (hr : r ∈ ring)
    (hrc : w.client? r = some rc) :
    ∃ w', wm_update_layout E K w r D = some w' ∧
      ∀ (p : ClientPtr) (pc : Client), p ∈ ring → p ≠ r → w.client? p = some pc →
        pc.type = MBCLIENT_TYPE_APP → far_side K rc pc = true →
        ∃ pc1, w'.client? p = some pc1 ∧ app_edge_kept (resized_edge K rc) D pc pc1 := by
  obtain ⟨w1, w', _, hrun, _, _, hcells, _, _⟩ :=
    wm_update_layout_total E K w r D ring rc hring hr hrc
  refine ⟨w', hrun, ?_⟩
  intro p pc hp hne hpc hty hfar
  obtain ⟨pc1, _, hty1, hcell', _, hmoved⟩ := hcells p pc hpc
  obtain ⟨wq, _, _, rfl⟩ := hmoved hp hne
  refine ⟨_, hcell', ?_⟩
  have hnd : ¬ (p ∈ ring ∧ (layout_cell E K wq r rc D p pc).type = MBCLIENT_TYPE_DIALOG ∧
      fit_changed E p (layout_cell E K wq r rc D p pc).geom = true) := by
    intro h
    rw [hty1, hty] at h
    exact absurd h.2.1 (by decide)
  unfold dialog_cell
  rw [if_neg hnd]
  unfold far_side at hfar
  unfold resized_edge
  by_cases h1 : rc.type = MBCLIENT_TYPE_PANEL ∧ rc.flags &&& K.CLIENT_DOCK_WEST ≠ 0
  · rw [if_pos h1] at hfar ⊢
    have hx : pc.x ≥ rc.x := by simpa using hfar
    have he : layout_effect E K wq r rc D p pc =
        some ({ pc.geom with width := pc.width + D, x := pc.x - D },
          [Call.move_resize p, Call.theme_img_cache_clear, Call.client_deliver_config p,
           Call.client_buttons_delete_all p, Call.main_client_redraw p]) := by
      unfold layout_effect
      rw [if_pos h1, if_pos hx, hty]
    simp only [layout_cell, he, app_edge_kept, Client.set_geom, Client.geom, and_true, true_and]
    try omega
  · rw [if_neg h1] at hfar ⊢
    by_cases h2 : rc.type = MBCLIENT_TYPE_PANEL ∧ rc.flags &&& K.CLIENT_DOCK_EAST ≠ 0
    · rw [if_pos h2] at hfar ⊢
      have hx : pc.x ≤ rc.x := by simpa using hfar
      have he : layout_effect E K wq r rc D p pc =
          some ({ pc.geom with width := pc.width + D },
            [Call.move_resize p, Call.client_deliver_config p, Call.theme_img_cache_clear,
             Call.client_buttons_delete_all p, Call.main_client_redraw p]) := by
        unfold layout_effect
        rw [if_neg h1, if_pos h2, if_pos hx, hty]
      simp only [layout_cell, he, app_edge_kept, Client.set_geom, Client.geom, and_true, true_and]
      try omega
    · rw [if_neg h2] at hfar ⊢
      by_cases h3 : rc.type = MBCLIENT_TYPE_PANEL ∧ rc.flags &&& K.CLIENT_DOCK_NORTH ≠ 0
      · rw [if_pos h3] at hfar ⊢
        have hy : pc.y ≥ rc.y := by simpa using hfar
        have he : layout_effect E K wq r rc D p pc =
            some ({ pc.geom with height := pc.height + D, y := pc.y - D },
              [Call.move_resize p, Call.theme_img_cache_clear, Call.client_deliver_config p,
               Call.main_client_redraw p]) := by
          unfold layout_effect
          rw [if_neg h1, if_neg h2, if_pos h3, if_pos hy, hty]
        simp only [layout_cell, he, app_edge_kept, Client.set_geom, Client.geom, and_true, true_and]
        try omega
      · rw [if_neg h3] at hfar ⊢
        have hy : pc.y ≤ rc.y ∨ (rc.type = MBCLIENT_TYPE_PANEL ∧
            pc.type = MBCLIENT_TYPE_TOOLBAR) := by simpa using hfar
        have he : layout_effect E K wq r rc D p pc =
            some ({ pc.geom with height := pc.height + D },
              [Call.move_resize p, Call.theme_img_cache_clear, Call.client_deliver_config p,
               Call.main_client_redraw p]) := by
          unfold layout_effect
          rw [if_neg h1, if_neg h2, if_neg h3, if_pos hy, hty]
        simp only [layout_cell, he, app_edge_kept, Client.set_geom, Client.geom, and_true, true_and]
        try omega

/-- Witness for C27: the west Panel of the sample registry grows by 20; the
Application at `x = 20` of width 100 keeps its right edge at 120. -/
theorem wm_update_layout_app_edges_witness :
    ∃ w', wm_update_layout sample_env sample_defs sample_wm_west 0 20 = some w' ∧
      ∃ pc1, w'.client? 1 = some pc1 ∧ pc1.x + pc1.width = 120 := by
  obtain ⟨w', hrun, h⟩ := wm_update_layout_app_edges sample_env sample_defs sample_wm_west 0 20
    [0, 1, 2, 3] { sample_client MBCLIENT_TYPE_PANEL 20 21 0 1 3 with flags := 2048 }
    sample_wm_west_ring (by simp) rfl
  obtain ⟨pc1, hpc1, hedge⟩ := h 1 { sample_client MBCLIENT_TYPE_APP 10 11 12 2 0 with x := 20 }
    (by simp) (by decide) rfl rfl (by decide)
  have h1 : resized_edge sample_defs
      { sample_client MBCLIENT_TYPE_PANEL 20 21 0 1 3 with flags := 2048 } = WEST := by decide
  rw [h1] at hedge
  exact ⟨w', hrun, pc1, hpc1, by simpa [app_edge_kept, sample_client] using hedge.1⟩

/-! ## Theorems: configure requests -/

theorem wm_find_client_mem {w : Wm} {ring : List ClientPtr}
    (h : IsRing w.clients w.head_client ring) {win : Window} {mode : FindMode} {c : ClientPtr}
    (hf : wm_find_client w win mode = some c) : c ∈ ring := by
  rw [wm_find_client_eq h] at hf
  cases mode <;> exact List.mem_of_find?_eq_some hf

theorem isRing_set_geom {w : Wm} {ring : List ClientPtr} {c : ClientPtr} {cl : Client}
    (h : IsRing w.clients w.head_client ring) (hcl : w.clients[c]? = some cl) (g : XRectangle) :
    IsRing (w.clients.set c (cl.set_geom g)) w.head_client ring := by
  obtain ⟨h1, h2, h3⟩ := h
  refine ⟨h1, h2, ?_⟩
  rw [link_of_blank (map_blank_set g hcl)]
  exact h3

/-- C30: a configure request for the window of a managed Application or
Desktop client leaves the client heap as it is, whatever is requested; the
requests issued are, with the AWT workaround, one configure with the stored
position and the requested size, and then in every case one configure with the
stored `x`, `y`, `width` and `height`, followed by `client_deliver_config`. -/
theorem wm_handle_configure_request_app (E : LayoutEnv) (K : Defs) (info : WinInfo) (w : Wm)
    (e : XConfigureRequestEvent) (c : ClientPtr) (cl : Client)
    (hfind : wm_find_client w e.window WINDOW = some c) (hcl : w.client? c = some cl)
    (hty : cl.type = MBCLIENT_TYPE_APP ∨ cl.type = MBCLIENT_TYPE_DESKTOP) :
    ∃ w', wm_handle_configure_request E K info w e = some w' ∧ w'.clients = w.clients ∧
      w'.calls = w.calls ++
        ((if w.config.awt_workaround = true
            then [configure_window e cl.x cl.y e.width e.height] else []) ++
         [configure_window e cl.x cl.y cl.width cl.height, Call.client_deliver_config c]) := by
  have h1 : ¬ cl.type = MBCLIENT_TYPE_PANEL := by rcases hty with h | h <;> rw [h] <;> decide
  have h2 : ¬ (cl.type = MBCLIENT_TYPE_TOOLBAR ∧ toolbar_height_request K e cl = true) := by
    rintro ⟨h, _⟩
    rcases hty with h' | h' <;> rw [h'] at h <;> exact absurd h (by decide)
  have h3 : ∀ P : Prop, ¬ (cl.type = MBCLIENT_TYPE_DIALOG ∧ P) := by
    rintro P ⟨h, _⟩
    rcases hty with h' | h' <;> rw [h'] at h <;> exact absurd h (by decide)
  unfold wm_handle_configure_request
  rw [hfind]
  simp only [hcl]
  rw [if_neg h1, if_neg h2]
  unfold configure_request_reply
  simp only
  rw [if_neg (h3 _)]
  exact ⟨_, rfl, by simp, by simp⟩

/-- Witness for C30: the sample Application (window 10) asks for a new position
and size. -/
theorem wm_handle_configure_request_app_witness :
    ∃ w', wm_handle_configure_request sample_env sample_defs sample_info sample_wm
        sample_request_app = some w' ∧ w'.clients = sample_wm.clients ∧
      w'.calls = sample_wm.calls ++
        ((if sample_wm.config.awt_workaround = true
            then [configure_window sample_request_app 0 0 70 80] else []) ++
         [configure_window sample_request_app 0 0 100 50, Call.client_deliver_config 0]) :=
  wm_handle_configure_request_app sample_env sample_defs sample_info sample_wm sample_request_app
    0 (sample_client MBCLIENT_TYPE_APP 10 11 12 1 1) (by decide) rfl (Or.inl rfl)

/-- C29: for a configure request on a managed Toolbar, when the height bit is
in the value mask, the requested height is non-zero and differs from the
stored one, and the Toolbar is not minimized, the handler is
`wm_update_layout` for the Toolbar with the delta old height minus requested
height, run after the Toolbar's `y` has grown by the delta and its height has
become the requested one; it returns, and the Toolbar ends with `y + height`
as before, the requested height, and `x` and `width` as before.  When one of
the conditions fails the handler only answers with configure requests: the
client heap is unchanged and `wm_update_layout` is not run. -/
theorem wm_handle_configure_request_toolbar (E : LayoutEnv) (K : Defs) (info : WinInfo) (w : Wm)
    (e : XConfigureRequestEvent) (c : ClientPtr) (cl : Client) (ring : List ClientPtr)
    (hring : IsRing w.clients w.head_client ring)
    (hfind : wm_find_client w e.window WINDOW = some c) (hcl : w.client? c = some cl)
    (hty : cl.type = MBCLIENT_TYPE_TOOLBAR) :
    (toolbar_height_request K e cl = true ↔
      (e.value_mask &&& CWHeight ≠ 0 ∧ e.height ≠ 0 ∧ e.height ≠ cl.height
        ∧ cl.flags &&& K.CLIENT_IS_MINIMIZED = 0)) ∧
    (toolbar_height_request K e cl = true →
      wm_handle_configure_request E K info w e =
        wm_update_layout E K
          ((w.set_clients (w.clients.set c (cl.set_geom
            { cl.geom with y := cl.y + (cl.height - e.height), height := e.height }))).log
              (Call.move_resize c)) c (cl.height - e.height) ∧
      ∃ w' cl', wm_handle_configure_request E K info w e = some w' ∧
        w'.client? c = some cl' ∧ cl'.y + cl'.height = cl.y + cl.height ∧
        cl'.height = e.height ∧ cl'.x = cl.x ∧ cl'.width = cl.width) ∧
    (toolbar_height_request K e cl = false →
      wm_handle_configure_request E K info w e =
        some (w.logs
          ((if w.config.awt_workaround = true
              then [configure_window e cl.x cl.y e.width e.height] else []) ++
           [configure_window e cl.x cl.y cl.width cl.height, Call.client_deliver_config c]))) := by
  have hcl' : w.clients[c]? = some cl := hcl
  have h1 : ¬ cl.type = MBCLIENT_TYPE_PANEL := by rw [hty]; decide
  refine ⟨by simp [toolbar_height_request], ?_, ?_⟩
  · intro hreq
    have heq : wm_handle_configure_request E K info w e =
        wm_update_layout E K
          ((w.set_clients (w.clients.set c (cl.set_geom
            { cl.geom with y := cl.y + (cl.height - e.height), height := e.height }))).log
              (Call.move_resize c)) c (cl.height - e.height) := by
      unfold wm_handle_configure_request
      rw [hfind]
      simp only [hcl]
      rw [if_neg h1, if_pos ⟨hty, hreq⟩]
    refine ⟨heq, ?_⟩
    rw [heq]
    have hring1 : IsRing ((w.set_clients (w.clients.set c (cl.set_geom
        { cl.geom with y := cl.y + (cl.height - e.height), height := e.height }))).log
          (Call.move_resize c)).clients
        ((w.set_clients (w.clients.set c (cl.set_geom
        { cl.geom with y := cl.y + (cl.height - e.height), height := e.height }))).log
          (Call.move_resize c)).head_client ring :=
      isRing_set_geom hring hcl' _
    have hrc1 : ((w.set_clients (w.clients.set c (cl.set_geom
        { cl.geom with y := cl.y + (cl.height - e.height), height := e.height }))).log
          (Call.move_resize c)).client? c = some (cl.set_geom
        { cl.geom with y := cl.y + (cl.height - e.height), height := e.height }) :=
      getElem?_set_self_of_some hcl'
    obtain ⟨w1, w', _, hrun, _, _, hcells, _, _⟩ :=
      wm_update_layout_total E K _ c (cl.height - e.height) ring _ hring1
        (wm_find_client_mem hring hfind) hrc1
    obtain ⟨pc1, _, hty1, hcell', hsame, _⟩ := hcells c _ hrc1
    have hpc1 := hsame (Or.inr rfl)
    subst hpc1
    have hnd : ¬ (c ∈ ring ∧ (cl.set_geom
        { cl.geom with y := cl.y + (cl.height - e.height), height := e.height }).type =
          MBCLIENT_TYPE_DIALOG ∧ fit_changed E c (cl.set_geom
        { cl.geom with y := cl.y + (cl.height - e.height), height := e.height }).geom = true) := by
      intro h
      have := h.2.1
      rw [set_geom_type, hty] at this
      exact absurd this (by decide)
    unfold dialog_cell at hcell'
    rw [if_neg hnd] at hcell'
    refine ⟨w', _, hrun, hcell', ?_, rfl, rfl, rfl⟩
    simp only [Client.set_geom, Client.geom]
    omega
  · intro hreq
    have h2 : ¬ (cl.type = MBCLIENT_TYPE_TOOLBAR ∧ toolbar_height_request K e cl = true) := by
      rw [hreq]
      simp
    have h3 : ∀ P : Prop, ¬ (cl.type = MBCLIENT_TYPE_DIALOG ∧ P) := by
      rintro P ⟨h, _⟩
      rw [hty] at h
      exact absurd h (by decide)
    unfold wm_handle_configure_request
    rw [hfind]
    simp only [hcl]
    rw [if_neg h1, if_neg h2]
    unfold configure_request_reply
    simp only
    rw [if_neg (h3 _)]

/-- Witness for C29: the Toolbar of the south sample registry (`y = 150`,
height 50) asks for the height 30. -/
theorem wm_handle_configure_request_toolbar_witness :
    ∃ w' cl', wm_handle_configure_request sample_env sample_defs sample_info sample_wm_south
        sample_request_toolbar = some w' ∧
      w'.client? 1 = some cl' ∧ cl'.y + cl'.height = 200 ∧ cl'.height = 30 := by
  obtain ⟨w', cl', h1, h2, h3, h4, _⟩ :=
    ((wm_handle_configure_request_toolbar sample_env sample_defs sample_info sample_wm_south
      sample_request_toolbar 1 { sample_client MBCLIENT_TYPE_TOOLBAR 30 31 0 2 0 with y := 150 }
      [0, 1, 2, 3] sample_wm_south_ring (by decide) rfl rfl).2.1 (by decide)).2
  exact ⟨w', cl', h1, h2, by simpa [sample_client] using h3, h4⟩

/-! ## Theorems: server grabs -/

@[simp] theorem grab_calls_nil : grab_calls [] = [] := rfl

@[simp] theorem grab_calls_append (a b : List Call) :
    grab_calls (a ++ b) = grab_calls a ++ grab_calls b := by
  simp [grab_calls]

theorem grab_calls_cons (e : Call) (l : List Call) :
    grab_calls (e :: l) = if is_grab e = true then e :: grab_calls l else grab_calls l := by
  simp [grab_calls, List.filter_cons]

@[simp] theorem grab_calls_map_top (l : List ClientPtr) :
    grab_calls (l.map Call.stack_move_top) = [] := by
  induction l with
  | nil => rfl
  | cons a t ih => simp [grab_calls_cons, is_grab, ih]

theorem grab_calls_below {es : List Call} {c : ClientPtr}
    (h : ∀ e ∈ es, ∃ tp, e = Call.stack_move_below_client tp (some c)) : grab_calls es = [] := by
  induction es with
  | nil => rfl
  | cons a t ih =>
    obtain ⟨tp, rfl⟩ := h _ (List.mem_cons_self _ _)
    simp [grab_calls_cons, is_grab, ih (fun e he => h e (List.mem_cons_of_mem _ he))]

/-- The type-specific part of the activation issues no grab request. -/
theorem activate_by_type_grabs (K : Defs) (w : Wm) (c : ClientPtr) (cl : Client)
    (htp : ∀ tp, w.have_titlebar_panel = some tp → tp < w.clients.length) :
    ∃ w2 es, activate_by_type K w c cl = some w2 ∧ w2.calls = w.calls ++ es ∧
      grab_calls es = [] := by
  unfold activate_by_type
  by_cases ht : cl.type = MBCLIENT_TYPE_APP ∨ cl.type = MBCLIENT_TYPE_DESKTOP
  · rw [if_pos ht]
    simp only [raise_panels_eq, raise_transients_eq, logs_logs, logs_flags, transient_list_logs]
    by_cases hd : cl.type = MBCLIENT_TYPE_DESKTOP
    · rw [if_neg (not_not.mpr hd)]
      obtain ⟨es, he, hes⟩ := hide_titlebar_panel_spec K
        ((w.logs (((if cl.flags &&& K.CLIENT_FULLSCREEN_FLAG = 0
              then [Call.stack_move_type_above_client [MBCLIENT_TYPE_PANEL] c] else []) ++
              [Call.stack_move_type_above_client [MBCLIENT_TYPE_TOOLBAR] c]) ++
            (List.map Call.stack_move_top (client_get_transient_list w c) ++
              [Call.stack_move_transients_to_top none]))).set_flags
          (w.flags ||| K.DESKTOP_RAISED_FLAG)) c (by simpa using htp)
      rw [he]
      refine ⟨_, _, rfl, by simp only [logs_calls, set_flags_calls, List.append_assoc]; rfl, ?_⟩
      have := grab_calls_below hes
      split_ifs <;> simp [grab_calls_cons, is_grab, this]
    · rw [if_pos hd]
      refine ⟨_, _, rfl, by simp only [logs_calls, set_flags_calls, set_stack_top_app_calls]; rfl, ?_⟩
      split_ifs <;> simp [grab_calls_cons, is_grab]
  · rw [if_neg ht]
    by_cases hdl : cl.type = MBCLIENT_TYPE_DIALOG
    · rw [if_pos hdl]
      unfold activate_dialog
      split_ifs
      · exact ⟨_, _, rfl, by simp only [log_calls]; rfl, by simp [grab_calls_cons, is_grab]⟩
      · exact ⟨_, [], rfl, by simp, rfl⟩
    · rw [if_neg hdl]
      by_cases hp : cl.type = MBCLIENT_TYPE_PANEL
      · rw [if_pos hp]
        unfold activate_panel
        split_ifs
        · exact ⟨_, _, rfl, by simp only [log_calls]; rfl, by simp [grab_calls_cons, is_grab]⟩
        · exact ⟨_, [], rfl, by simp, rfl⟩
      · rw [if_neg hp]
        exact ⟨_, [], rfl, by simp, rfl⟩

/-- Activation of a valid client returns and issues one grab and one ungrab,
its first and its last request. -/
theorem wm_activate_client_grabs (K : Defs) (w : Wm) (c : ClientPtr) (cl : Client)
    (hcl : w.client? c = some cl)
    (htp : ∀ tp, w.have_titlebar_panel = some tp → tp < w.clients.length) :
    ∃ w' es, wm_activate_client K w (some c) = some w' ∧ w'.erase = w.erase ∧
      w'.calls = w.calls ++ Call.XGrabServer :: es ++ [Call.XUngrabServer] ∧
      grab_calls es = [] := by
  rw [wm_activate_client_eq K w c cl hcl]
  obtain ⟨w2, es, h2, hc2, he2⟩ := activate_by_type_grabs K
    (w.logs [Call.XGrabServer, Call.show c]) c cl (by simpa using htp)
  have hfr := activate_by_type_frame h2
  rw [h2]
  refine ⟨_, [Call.show c] ++ es ++ [Call.ewmh_update, Call.ewmh_set_active,
    Call.stack_sync_to_display, Call.XSync], rfl, ?_, ?_, ?_⟩
  · simpa using hfr
  · simp [hc2, List.append_assoc]
  · simp [he2, grab_calls_cons, is_grab]

/-- The set-up of a valid client returns and contains one grab and ungrab
pair, that of the activation. -/
theorem setup_new_client_grabs (K : Defs) (w : Wm) (c : ClientPtr) (cl : Client)
    (hcl : w.client? c = some cl)
    (htp : ∀ tp, w.have_titlebar_panel = some tp → tp < w.clients.length) :
    ∃ w' es, setup_new_client K w c = some w' ∧ w'.erase = w.erase ∧
      w'.calls = w.calls ++ es ∧ grab_calls es = [Call.XGrabServer, Call.XUngrabServer] := by
  unfold setup_new_client
  simp only [hcl]
  obtain ⟨w4, es, h4, hfr, hc4, he4⟩ := wm_activate_client_grabs K
    (w.logs
      ([Call.XChangeProperty_NET_WM_DESKTOP cl.window, Call.ewmh_set_allowed_actions c] ++
       (if w.config.no_cursor = true ∧ cl.type ≠ MBCLIENT_TYPE_PANEL
          then [Call.XDefineCursor cl.window] else []) ++
       [Call.configure c, Call.comp_engine_client_init c, Call.reparent c, Call.move_resize c]))
    c cl (by simpa using hcl) (by simpa using htp)
  rw [h4]
  refine ⟨_, _, rfl, by simpa using hfr, by simp only [logs_calls, hc4, List.append_assoc]; rfl, ?_⟩
  split_ifs <;> simp [he4, grab_calls_cons, is_grab]

theorem grab_free_ext_refl (w : Wm) : grab_free_ext w w := ⟨[], by simp, rfl⟩

theorem grab_free_ext_trans {a b c : Wm} (h1 : grab_free_ext a b) (h2 : grab_free_ext b c) :
    grab_free_ext a c := by
  obtain ⟨e1, hc1, hg1⟩ := h1
  obtain ⟨e2, hc2, hg2⟩ := h2
  exact ⟨e1 ++ e2, by rw [hc2, hc1, List.append_assoc], by simp [hg1, hg2]⟩

theorem nextOf_set_cell {cs : List Client} {c : ClientPtr} {cl v : Client}
    (hcl : cs[c]? = some cl) (hn : v.next = cl.next) (p : ClientPtr) :
    nextOf (cs.set c v) p = nextOf cs p := by
  unfold nextOf
  by_cases hp : c = p
  · subst hp
    rw [getElem?_set_self_of_some hcl, hcl]
    simp [hn]
  · rw [List.getElem?_set_ne hp]

theorem prevOf_set_cell {cs : List Client} {c : ClientPtr} {cl v : Client}
    (hcl : cs[c]? = some cl) (hn : v.prev = cl.prev) (p : ClientPtr) :
    prevOf (cs.set c v) p = prevOf cs p := by
  unfold prevOf
  by_cases hp : c = p
  · subst hp
    rw [getElem?_set_self_of_some hcl, hcl]
    simp [hn]
  · rw [List.getElem?_set_ne hp]

/-- Writing a field other than the ring links of one client keeps the registry
well formed. -/
theorem wf_set_cell {w : Wm} {ring : List ClientPtr} {c : ClientPtr} {cl v : Client}
    (hwf : w.WF ring) (hcl : w.clients[c]? = some cl) (hn : v.next = cl.next)
    (hp : v.prev = cl.prev) : (w.set_clients (w.clients.set c v)).WF ring := by
  obtain ⟨⟨h1, h2, h3⟩, hm⟩ := hwf
  refine ⟨⟨h1, h2, ?_⟩, hm⟩
  have hl : link (w.clients.set c v) = link w.clients := by
    funext a b
    unfold link
    rw [nextOf_set_cell hcl hn, prevOf_set_cell hcl hp]
  show List.Chain' (link (w.clients.set c v)) _
  rw [hl]
  exact h3

theorem valid_cell {s : MkState} (hv : s.valid) {c : ClientPtr} (hc : s.c = some c) :
    ∃ cl, s.w.client? c = some cl :=
  ⟨s.w.clients.get ⟨c, hv.2.2 c hc⟩, List.getElem?_eq_getElem (hv.2.2 c hc)⟩

/-- A constructor call from a usable state returns a usable state and logs the
call. -/
theorem client_new_valid (info : WinInfo) (s : MkState) (type : MBClientType) (win : Window)
    (trans : Option ClientPtr) (hv : s.valid) :
    ∃ s1, client_new info s type win trans = some s1 ∧ s1.valid ∧
      s1.w.calls = s.w.calls ++ [Call.client_new type win trans] := by
  obtain ⟨⟨ring, hwf⟩, htp, _⟩ := hv
  cases hc : info.ctor s.n with
  | none =>
    rw [client_new_fail info s type win trans hc]
    refine ⟨_, rfl, ⟨⟨ring, hwf⟩, htp, ?_⟩, rfl⟩
    intro c h
    cases h
  | some init =>
    have hwf' : (s.w.log (Call.client_new type win trans)).WF ring := hwf
    obtain ⟨w1, ring', e, hwf1, _, _, hl, _, hfr, _, _⟩ :=
      ring_insert_wf (s.w.log (Call.client_new type win trans)) ring
        { init with type := type, window := win, trans := trans, next := none, prev := none } hwf'
    have e' : ring_insert ((s.w.log (Call.client_new type win trans)).set_clients
        (s.w.clients ++ [{ init with type := type, window := win, trans := trans,
                                     next := none, prev := none }])) s.w.clients.length =
        some w1 := e
    have hl' : w1.clients.length = s.w.clients.length + 1 := by simpa using hl
    have htp1 : w1.have_titlebar_panel = s.w.have_titlebar_panel := by rw [hfr]; rfl
    have hc1 : w1.calls = s.w.calls ++ [Call.client_new type win trans] := by rw [hfr]; rfl
    refine ⟨{ w := w1, c := some s.w.clients.length, n := s.n + 1 }, ?_, ⟨⟨ring', hwf1⟩, ?_, ?_⟩,
      hc1⟩
    · simp only [client_new, hc, log_clients]
      rw [e']
    · intro tp h
      rw [htp1] at h
      rw [hl']
      exact Nat.lt_succ_of_lt (htp tp h)
    · intro c h
      cases h
      rw [hl']
      exact Nat.lt_succ_self _

theorem set_cell_valid {s : MkState} (hv : s.valid) {c : ClientPtr} {cl v : Client}
    (hcl : s.w.clients[c]? = some cl) (hn : v.next = cl.next) (hp : v.prev = cl.prev) :
    MkState.valid { s with w := s.w.set_clients (s.w.clients.set c v) } := by
  obtain ⟨⟨ring, hwf⟩, htp, hc⟩ := hv
  refine ⟨⟨ring, wf_set_cell hwf hcl hn hp⟩, ?_, ?_⟩
  · intro tp h
    simp only [set_clients_clients, List.length_set]
    exact htp tp h
  · intro c' h
    simp only [set_clients_clients, List.length_set]
    exact hc c' h

theorem xor_flags_valid (s : MkState) (c : ClientPtr) (m : Nat) (hv : s.valid)
    (hc : s.c = some c) :
    ∃ s1, xor_flags s c m = some s1 ∧ s1.valid ∧ s1.c = some c ∧ s1.w.calls = s.w.calls := by
  obtain ⟨cl, hcl⟩ := valid_cell hv hc
  rw [xor_flags_ok s c m cl hcl]
  exact ⟨_, rfl, set_cell_valid hv hcl rfl rfl, hc, rfl⟩

/-- The pattern `c = ..._client_new(...); if (c == NULL) goto end; c->flags ^= mask;`
from a usable state: it continues with a client in a usable state, or leaves
for `end:` without a client; the constructor call is all it logs. -/
theorem built_or_end_valid (info : WinInfo) (s : MkState) (type : MBClientType) (win : Window)
    (trans : Option ClientPtr) (m : Nat) (hv : s.valid) :
    ∃ st, built_or_end (client_new info s type win trans) m = some st ∧
      ((∃ s1, st = Step.cont s1 ∧ s1.valid ∧ s1.c ≠ none ∧ grab_free_ext s.w s1.w) ∨
       (∃ s1, st = Step.goto_end s1 ∧ s1.c = none ∧ grab_free_ext s.w s1.w)) := by
  obtain ⟨s1, e1, hv1, hc1⟩ := client_new_valid info s type win trans hv
  have hg : grab_free_ext s.w s1.w := ⟨_, hc1, by simp [grab_calls_cons, is_grab]⟩
  rw [e1]
  unfold built_or_end
  simp only
  cases hc : s1.c with
  | none => exact ⟨_, rfl, Or.inr ⟨s1, rfl, hc, hg⟩⟩
  | some c =>
    simp only
    by_cases hm : m = 0
    · rw [if_pos hm]
      exact ⟨_, rfl, Or.inl ⟨s1, rfl, hv1, by simp [hc], hg⟩⟩
    · rw [if_neg hm]
      obtain ⟨s2, e2, hv2, hc2, hcalls2⟩ := xor_flags_valid s1 c m hv1 hc
      rw [e2]
      exact ⟨_, rfl, Or.inl ⟨s2, rfl, hv2, by simp [hc2],
        grab_free_ext_trans hg ⟨[], by simp [hcalls2], rfl⟩⟩⟩

theorem valid_set_queue {s : MkState} (hv : s.valid) (q : List MsgWinQueue) :
    MkState.valid { s with w := s.w.set_msg_win_queue q } := hv

/-- The type-hint step from a usable state: it continues in a usable state,
leaves for `end:` without a client, or returns after queueing a message
window, having logged the ungrab. -/
theorem classify_by_type_valid (K : Defs) (info : WinInfo) (s : MkState) (win : Window)
    (hv : s.valid) :
    ∃ st, classify_by_type K info s win = some st ∧
      ((∃ s1, st = Step.cont s1 ∧ s1.valid ∧ grab_free_ext s.w s1.w) ∨
       (∃ s1, st = Step.goto_end s1 ∧ s1.c = none ∧ grab_free_ext s.w s1.w) ∨
       (∃ w1, st = Step.ret w1 ∧ w1.calls = s.w.calls ++ [Call.XUngrabServer])) := by
  have hb : ∀ (s0 : MkState) (type : MBClientType) (trans : Option ClientPtr) (m : Nat),
      s0.valid → grab_free_ext s.w s0.w →
      ∃ st, built_or_end (client_new info s0 type win trans) m = some st ∧
        ((∃ s1, st = Step.cont s1 ∧ s1.valid ∧ grab_free_ext s.w s1.w) ∨
         (∃ s1, st = Step.goto_end s1 ∧ s1.c = none ∧ grab_free_ext s.w s1.w) ∨
         (∃ w1, st = Step.ret w1 ∧ w1.calls = s.w.calls ++ [Call.XUngrabServer])) := by
    intro s0 type trans m hv0 hg0
    obtain ⟨st, e, h⟩ := built_or_end_valid info s0 type win trans m hv0
    refine ⟨st, e, ?_⟩
    rcases h with ⟨s1, rfl, hv1, _, hg1⟩ | ⟨s1, rfl, hc1, hg1⟩
    · exact Or.inl ⟨s1, rfl, hv1, grab_free_ext_trans hg0 hg1⟩
    · exact Or.inr (Or.inl ⟨s1, rfl, hc1, grab_free_ext_trans hg0 hg1⟩)
  have hcont : ∃ st, some (Step.cont s) = some st ∧
      ((∃ s1, st = Step.cont s1 ∧ s1.valid ∧ grab_free_ext s.w s1.w) ∨
       (∃ s1, st = Step.goto_end s1 ∧ s1.c = none ∧ grab_free_ext s.w s1.w) ∨
       (∃ w1, st = Step.ret w1 ∧ w1.calls = s.w.calls ++ [Call.XUngrabServer])) :=
    ⟨_, rfl, Or.inl ⟨s, rfl, hv, grab_free_ext_refl _⟩⟩
  unfold classify_by_type
  by_cases hf : wm_win_force_dialog s.w info = true
  · rw [if_pos hf]
    exact hb s _ _ _ hv (grab_free_ext_refl _)
  rw [if_neg hf]
  cases info.type_prop with
  | none => exact hcont
  | some tp =>
  simp only
  by_cases hr : tp.realType = XA_ATOM ∧ tp.format = 32
  swap
  · rw [if_neg hr]
    exact hcont
  rw [if_pos hr]
  by_cases h1 : tp.value0 = s.w.atoms.WINDOW_TYPE_DOCK
  · rw [if_pos h1]
    exact hb s _ _ _ hv (grab_free_ext_refl _)
  rw [if_neg h1]
  by_cases h2 : tp.value0 = s.w.atoms.WINDOW_TYPE_TOOLBAR ∨ tp.value0 = s.w.atoms.WINDOW_TYPE_INPUT
  · rw [if_pos h2]
    exact hb s _ _ _ hv (grab_free_ext_refl _)
  rw [if_neg h2]
  by_cases h3 : tp.value0 = s.w.atoms.WINDOW_TYPE_DESKTOP
  · rw [if_pos h3]
    exact hb s _ _ _ hv (grab_free_ext_refl _)
  rw [if_neg h3]
  by_cases h4 : tp.value0 = s.w.atoms.WINDOW_TYPE_SPLASH
  · rw [if_pos h4]
    exact hb s _ _ _ hv (grab_free_ext_refl _)
  rw [if_neg h4]
  by_cases h5 : tp.value0 = s.w.atoms.WINDOW_TYPE_DIALOG
  · rw [if_pos h5]
    exact hb s _ _ _ hv (grab_free_ext_refl _)
  rw [if_neg h5]
  by_cases h6 : K.USE_MSG_WIN = true ∧ tp.value0 = s.w.atoms.WINDOW_TYPE_MESSAGE
  · rw [if_pos h6]
    by_cases hq : s.w.msg_win_queue_head = []
    · simp only [hq, if_true, wm_msg_win_queue_add_eq, set_msg_win_queue_queue,
        List.nil_append]
      rw [if_pos (show win = (msg_entry info win).win from rfl)]
      exact hb _ _ _ _ (valid_set_queue hv _) (grab_free_ext_refl _)
    · rw [if_neg hq]
      cases hq2 : s.w.msg_win_queue_head with
      | nil => exact absurd hq2 hq
      | cons head rest =>
        simp only
        by_cases hw : win = head.win
        · rw [if_pos hw]
          exact hb s _ _ _ hv (grab_free_ext_refl _)
        · rw [if_neg hw]
          refine ⟨_, rfl, Or.inr (Or.inr ⟨_, rfl, ?_⟩)⟩
          rw [wm_msg_win_queue_add_eq]
          rfl
  rw [if_neg h6]
  by_cases h7 : K.USE_MSG_WIN = true ∧ tp.value0 = s.w.atoms.WINDOW_TYPE_MESSAGE_STATIC_0
  · rw [if_pos h7]
    exact hb s _ _ _ hv (grab_free_ext_refl _)
  rw [if_neg h7]
  by_cases h8 : K.USE_MSG_WIN = true ∧ tp.value0 = s.w.atoms.WINDOW_TYPE_MESSAGE_STATIC_1
  · rw [if_pos h8]
    exact hb s _ _ _ hv (grab_free_ext_refl _)
  rw [if_neg h8]
  exact hcont

theorem apply_mwm_valid (info : WinInfo) (s : MkState) (win : Window) (hv : s.valid) :
    ∃ s2, apply_mwm info s win = some s2 ∧ s2.valid ∧ grab_free_ext s.w s2.w := by
  unfold apply_mwm
  by_cases hm : info.mwm_flags ≠ 0
  swap
  · rw [if_neg hm]
    exact ⟨s, rfl, hv, grab_free_ext_refl _⟩
  rw [if_pos hm]
  cases hc : s.c with
  | some c =>
    simp only [hc]
    obtain ⟨s1, e1, hv1, _, hcalls1⟩ := xor_flags_valid s c info.mwm_flags hv hc
    rw [e1]
    exact ⟨s1, rfl, hv1, ⟨[], by simp [hcalls1], rfl⟩⟩
  | none =>
    simp only
    obtain ⟨s1, e1, hv1, hcalls1⟩ := client_new_valid info s MBCLIENT_TYPE_DIALOG win none hv
    have hg1 : grab_free_ext s.w s1.w := ⟨_, hcalls1, by simp [grab_calls_cons, is_grab]⟩
    have e1' : dialog_client_new info s win none = some s1 := e1
    rw [e1']
    simp only
    cases hc1 : s1.c with
    | none => exact ⟨s1, rfl, hv1, hg1⟩
    | some c1 =>
      simp only
      obtain ⟨s2, e2, hv2, _, hcalls2⟩ := xor_flags_valid s1 c1 info.mwm_flags hv1 hc1
      rw [e2]
      exact ⟨s2, rfl, hv2, grab_free_ext_trans hg1 ⟨[], by simp [hcalls2], rfl⟩⟩

theorem apply_transient_valid (info : WinInfo) (s : MkState) (win : Window) (hv : s.valid) :
    ∃ s3, apply_transient info s win = some s3 ∧ s3.valid ∧ grab_free_ext s.w s3.w := by
  unfold apply_transient
  by_cases hh : info.trans_win ≠ 0 ∧ info.trans_win ≠ win
  swap
  · rw [if_neg hh]
    exact ⟨s, rfl, hv, grab_free_ext_refl _⟩
  rw [if_pos hh]
  simp only
  cases hc : s.c with
  | none =>
    simp only
    obtain ⟨s1, e1, hv1, hcalls1⟩ := client_new_valid info s MBCLIENT_TYPE_DIALOG win
      (find_transient_owner info s.w) hv
    exact ⟨s1, e1, hv1, ⟨_, hcalls1, by simp [grab_calls_cons, is_grab]⟩⟩
  | some c =>
    simp only
    obtain ⟨cl, hcl⟩ := valid_cell hv hc
    have hcl' : s.w.clients[c]? = some cl := hcl
    rw [hcl]
    simp only
    by_cases hd : cl.type = MBCLIENT_TYPE_DIALOG
    · rw [if_pos hd]
      simp only [heap_modify, hcl']
      have hv' := @set_cell_valid s hv c cl { cl with trans := find_transient_owner info s.w }
        hcl' rfl rfl
      rw [hc] at hv'
      exact ⟨_, rfl, hv', ⟨[], by simp, rfl⟩⟩
    · rw [if_neg hd]
      exact ⟨s, rfl, hv, grab_free_ext_refl _⟩

/-- Lines 1715-1815 of `wm_make_new_client` from a usable state: the function
returns; without a client the only grab request logged is the ungrab of
`end:`, with a client the grab and ungrab of the activation come before it. -/
theorem make_new_client_finish_valid (K : Defs) (info : WinInfo) (s : MkState) (win : Window)
    (hv : s.valid) :
    ∃ w' c es, make_new_client_finish K info s win = some (w', c) ∧
      w'.calls = s.w.calls ++ es ∧
      ((c = none ∧ grab_calls es = [Call.XUngrabServer]) ∨
       (c ≠ none ∧ grab_calls es =
          [Call.XGrabServer, Call.XUngrabServer, Call.XUngrabServer])) := by
  have hsetup : ∀ s4 : MkState, s4.valid → grab_free_ext s.w s4.w → ∀ c, s4.c = some c →
      ∃ w' c' es, (match s4.c with
        | none => none
        | some c =>
          match setup_new_client K s4.w c with
          | none => none
          | some w5 => some (make_new_client_end w5 (some c))) = some (w', c') ∧
      w'.calls = s.w.calls ++ es ∧
      ((c' = none ∧ grab_calls es = [Call.XUngrabServer]) ∨
       (c' ≠ none ∧ grab_calls es =
          [Call.XGrabServer, Call.XUngrabServer, Call.XUngrabServer])) := by
    intro s4 hv4 hg4 c hc4
    obtain ⟨cl, hcl⟩ := valid_cell hv4 hc4
    obtain ⟨w5, es5, e5, _, hcalls5, hgr5⟩ := setup_new_client_grabs K s4.w c cl hcl hv4.2.1
    obtain ⟨es4, hcalls4, hgr4⟩ := hg4
    rw [hc4]
    simp only [e5]
    refine ⟨_, _, es4 ++ es5 ++ [Call.XUngrabServer, Call.XFlush], rfl, ?_, Or.inr ⟨by simp, ?_⟩⟩
    · simp [make_new_client_end, hcalls5, hcalls4, List.append_assoc]
    · simp [hgr4, hgr5, grab_calls_cons, is_grab]
  unfold make_new_client_finish default_main
  cases hc : s.c with
  | some c =>
    simp only
    exact hsetup s hv (grab_free_ext_refl _) c hc
  | none =>
    simp only
    obtain ⟨st, e, h⟩ := built_or_end_valid info s MBCLIENT_TYPE_APP win none 0 hv
    have e' : built_or_end (main_client_new info s win) 0 = some st := e
    rw [e']
    rcases h with ⟨s1, rfl, hv1, hc1, hg1⟩ | ⟨s1, rfl, hc1, hg1⟩
    · simp only
      cases hc1' : s1.c with
      | none => exact absurd hc1' hc1
      | some c1 =>
        have := hsetup s1 hv1 hg1 c1 hc1'
        rw [hc1'] at this
        exact this
    · simp only
      obtain ⟨es1, hcalls1, hgr1⟩ := hg1
      refine ⟨_, _, es1 ++ [Call.XUngrabServer, Call.XFlush], rfl, ?_, Or.inl ⟨hc1, ?_⟩⟩
      · simp [make_new_client_end, hcalls1, List.append_assoc]
      · simp [hgr1, grab_calls_cons, is_grab]

/-- The whole of `wm_make_new_client` on a well-formed registry: it returns;
its log starts with the grab; when no client is returned the only other grab
request is one ungrab, and when a client is returned the grab and ungrab of
the activation lie between the function's own grab and ungrab. -/
theorem wm_make_new_client_total (K : Defs) (info : WinInfo) (w : Wm) (win : Window)
    (ring : List ClientPtr) (hwf : w.WF ring)
    (htp : ∀ tp, w.have_titlebar_panel = some tp → tp < w.clients.length) :
    ∃ w' c es, wm_make_new_client K info w win = some (w', c) ∧
      w'.calls = w.calls ++ Call.XGrabServer :: es ∧
      ((c = none ∧ grab_calls es = [Call.XUngrabServer]) ∨
       (c ≠ none ∧ grab_calls es =
          [Call.XGrabServer, Call.XUngrabServer, Call.XUngrabServer])) := by
  have hv0 : MkState.valid { w := w.log Call.XGrabServer, c := none, n := 0 } :=
    ⟨⟨ring, hwf⟩, htp, by intro c h; cases h⟩
  obtain ⟨st, e, h⟩ := classify_by_type_valid K info _ win hv0
  unfold wm_make_new_client
  rw [e]
  rcases h with ⟨s1, rfl, hv1, hg1⟩ | ⟨s1, rfl, hc1, hg1⟩ | ⟨w1, rfl, hcalls1⟩
  · simp only
    obtain ⟨s2, e2, hv2, hg2⟩ := apply_mwm_valid info s1 win hv1
    obtain ⟨s3, e3, hv3, hg3⟩ := apply_transient_valid info s2 win hv2
    obtain ⟨w', c, es, e4, hcalls4, hgr4⟩ := make_new_client_finish_valid K info s3 win hv3
    obtain ⟨es3, hcalls3, hgr3⟩ := grab_free_ext_trans hg1 (grab_free_ext_trans hg2 hg3)
    refine ⟨w', c, es3 ++ es, ?_, ?_, ?_⟩
    · simp [make_new_client_tail, e2, e3, e4]
    · rw [hcalls4, hcalls3]
      simp [List.append_assoc]
    · rcases hgr4 with ⟨h1, h2⟩ | ⟨h1, h2⟩
      · exact Or.inl ⟨h1, by simp [hgr3, h2]⟩
      · exact Or.inr ⟨h1, by simp [hgr3, h2]⟩
  · simp only
    obtain ⟨es1, hcalls1, hgr1⟩ := hg1
    refine ⟨_, _, es1 ++ [Call.XUngrabServer, Call.XFlush], rfl, ?_, Or.inl ⟨hc1, ?_⟩⟩
    · simp [make_new_client_end, hcalls1, List.append_assoc]
    · simp [hgr1, grab_calls_cons, is_grab]
  · simp only
    refine ⟨w1, none, [Call.XUngrabServer], rfl, ?_, Or.inl ⟨rfl, by simp [grab_calls_cons, is_grab]⟩⟩
    rw [hcalls1]
    simp

/-! ## Theorems: advancing the message window queue -/

theorem dropWhile_head_false {α : Type} (p : α → Bool) :
    ∀ (l : List α) (s : α) (t : List α), l.dropWhile p = s :: t → p s = false
  | [], _, _, h => by simp at h
  | a :: l, s, t, h => by
    by_cases ha : p a = true
    · rw [List.dropWhile_cons_of_pos ha] at h
      exact dropWhile_head_false p l s t h
    · rw [List.dropWhile_cons_of_neg ha] at h
      cases h
      simpa using ha

theorem msg_win_queue_pop_rest_eq (K : Defs) (X : PopEnv) (w : Wm) :
    ∀ rest : List MsgWinQueue, msg_win_queue_pop_rest K X w rest =
      match rest.dropWhile (window_gone X) with
      | [] => some (w.set_msg_win_queue [])
      | s :: t =>
        (wm_make_new_client K (X.info s.win) (w.set_msg_win_queue (s :: t)) s.win).map
          (fun r => r.1)
  | [] => rfl
  | h :: t => by
    unfold msg_win_queue_pop_rest
    by_cases hx : X.window_exists h.win = true
    · have hg : ¬ window_gone X h = true := by simp [window_gone, hx]
      rw [if_pos hx, List.dropWhile_cons_of_neg hg]
      simp only
      cases wm_make_new_client K (X.info h.win) (w.set_msg_win_queue (h :: t)) h.win <;> rfl
    · have hg : window_gone X h = true := by simpa [window_gone] using hx
      rw [if_neg hx, List.dropWhile_cons_of_pos hg]
      exact msg_win_queue_pop_rest_eq K X w t

/-- C21: on an empty queue `wm_msg_win_queue_pop` does nothing.  On a queue
`head :: rest` it removes the head and the longest run of following entries
whose window no longer exists; if nothing is left the queue ends empty and no
window is realized; otherwise the first entry left is for a window that still
exists, the queue then starts with it, and the result is that of the one call
of `wm_make_new_client` for this window, which returns on a well-formed
registry. -/
theorem wm_msg_win_queue_pop_spec (K : Defs) (X : PopEnv) (w : Wm) (ring : List ClientPtr)
    (hwf : w.WF ring)
    (htp : ∀ tp, w.have_titlebar_panel = some tp → tp < w.clients.length) :
    (w.msg_win_queue_head = [] → wm_msg_win_queue_pop K X w = some w) ∧
    (∀ head rest, w.msg_win_queue_head = head :: rest →
      rest = rest.takeWhile (window_gone X) ++ rest.dropWhile (window_gone X) ∧
      (∀ q ∈ rest.takeWhile (window_gone X), X.window_exists q.win = false) ∧
      (rest.dropWhile (window_gone X) = [] →
        wm_msg_win_queue_pop K X w = some (w.set_msg_win_queue [])) ∧
      (∀ s t, rest.dropWhile (window_gone X) = s :: t →
        X.window_exists s.win = true ∧
        ∃ w' c, wm_make_new_client K (X.info s.win) (w.set_msg_win_queue (s :: t)) s.win =
            some (w', c) ∧
          wm_msg_win_queue_pop K X w = some w')) := by
  refine ⟨?_, ?_⟩
  · intro hq
    simp [wm_msg_win_queue_pop, hq]
  · intro head rest hq
    have hpop : wm_msg_win_queue_pop K X w = msg_win_queue_pop_rest K X w rest := by
      simp [wm_msg_win_queue_pop, hq]
    refine ⟨(List.takeWhile_append_dropWhile _ _).symm, ?_, ?_, ?_⟩
    · intro q hmem
      have := List.mem_takeWhile_imp hmem
      simpa [window_gone] using this
    · intro hd
      rw [hpop, msg_win_queue_pop_rest_eq, hd]
    · intro s t hd
      have hs := dropWhile_head_false _ rest s t hd
      have hwf' : (w.set_msg_win_queue (s :: t)).WF ring := hwf
      obtain ⟨w', c, _, e, _, _⟩ := wm_make_new_client_total K (X.info s.win)
        (w.set_msg_win_queue (s :: t)) s.win ring hwf' htp
      refine ⟨by simpa [window_gone] using hs, w', c, e, ?_⟩
      rw [hpop, msg_win_queue_pop_rest_eq, hd]
      simp only [e, Option.map_some']

/-- Witness for C21: the queue holds the windows 40, 50 and 60 and window 50 is
gone; the pop removes 40 and 50 and realizes 60. -/
theorem wm_msg_win_queue_pop_spec_witness :
    ∃ w' c, wm_make_new_client sample_defs (sample_pop_env.info 60)
        (sample_wm_queue.set_msg_win_queue [{ win := 60, timeout := 3 }]) 60 = some (w', c) ∧
      wm_msg_win_queue_pop sample_defs sample_pop_env sample_wm_queue = some w' :=
  (((wm_msg_win_queue_pop_spec sample_defs sample_pop_env sample_wm_queue [0, 1] sample_wm_wf
    (by intro tp h; simp [sample_wm_queue, sample_wm] at h)).2
      { win := 40, timeout := -1 } [{ win := 50, timeout := -1 }, { win := 60, timeout := 3 }]
      rfl).2.2.2 { win := 60, timeout := 3 } [] (by decide)).2

/-! ## Theorems: root configure notifications -/

@[simp] theorem set_geom_is_titledock (K : Defs) (c : Client) (g : XRectangle) :
    is_titledock K (c.set_geom g) = is_titledock K c := rfl

theorem notify_step_spec (K : Defs) (N : ConfigEnv) (wd hd : Int) (s : NotifyState)
    (p : ClientPtr) (pc : Client) (hpc : s.w.client? p = some pc)
    (hJ : ∀ t, s.ctitledock = some t →
      ∃ tc, s.w.clients[t]? = some tc ∧ is_titledock K tc = true) :
    ∃ s1, notify_step K N wd hd s p = some s1 ∧ s1.w.erase_layout = s.w.erase_layout ∧
      s1.w.clients.map Client.geom_blank = s.w.clients.map Client.geom_blank ∧
      (∀ q : Nat, q ≠ p → s1.w.clients[q]? = s.w.clients[q]?) ∧
      s1.w.clients[p]? = some (pc.set_geom (notify_geom K N wd hd p pc)) ∧
      grab_free_ext s.w s1.w ∧
      (∀ t, s1.ctitledock = some t →
        ∃ tc, s1.w.clients[t]? = some tc ∧ is_titledock K tc = true) := by
  have hpc' : s.w.clients[p]? = some pc := hpc
  unfold notify_step
  rw [hpc]
  simp only
  refine ⟨_, rfl, ?_, ?_, ?_, ?_, ?_, ?_⟩
  · split_ifs <;> rfl
  · split_ifs <;> simp only [log_clients, logs_clients, set_clients_clients] <;>
      exact map_blank_set _ hpc'
  · intro q hq
    split_ifs <;> simp only [log_clients, logs_clients, set_clients_clients] <;>
      exact List.getElem?_set_ne (fun e => hq e.symm)
  · split_ifs <;> simp only [log_clients, logs_clients, set_clients_clients] <;>
      exact getElem?_set_self_of_some hpc'
  · split_ifs <;>
      refine ⟨_, by simp only [log_calls, logs_calls, set_clients_calls, List.append_assoc]; rfl,
        by simp [grab_calls_cons, is_grab]⟩
  · intro t ht
    have hcell : ∀ q : Nat, (if pc.type = MBCLIENT_TYPE_DIALOG
          then s.w.log (Call.more (MoreCall.dialog_client_configure p)) else s.w).clients[q]? =
        s.w.clients[q]? := by
      intro q
      split_ifs <;> rfl
    by_cases htd : is_titledock K pc = true
    · simp only [htd, if_true, Option.some.injEq] at ht
      subst ht
      refine ⟨pc.set_geom (notify_geom K N wd hd p pc), ?_, by simpa using htd⟩
      split_ifs <;> simp only [log_clients, logs_clients, set_clients_clients] <;>
        exact getElem?_set_self_of_some hpc'
    · simp only [htd, if_false, Bool.false_eq_true] at ht
      obtain ⟨tc, htc, htd'⟩ := hJ t ht
      have hne : t ≠ p := by
        rintro rfl
        rw [hpc'] at htc
        cases htc
        exact htd htd'
      refine ⟨tc, ?_, htd'⟩
      rw [← htc]
      split_ifs <;> simp only [log_clients, logs_clients, set_clients_clients] <;>
        exact List.getElem?_set_ne (fun e => hne e.symm)

/-- The loop of `wm_handle_configure_notify` over a list of distinct valid
clients. -/
theorem notify_pass_spec (K : Defs) (N : ConfigEnv) (wd hd : Int) :
    ∀ (L : List ClientPtr) (s : NotifyState), L.Nodup → (∀ p ∈ L, p < s.w.clients.length) →
      (∀ t, s.ctitledock = some t →
        ∃ tc, s.w.clients[t]? = some tc ∧ is_titledock K tc = true) →
      ∃ s', notify_pass K N wd hd L s = some s' ∧ s'.w.erase_layout = s.w.erase_layout ∧
        s'.w.clients.map Client.geom_blank = s.w.clients.map Client.geom_blank ∧
        (∀ (q : Nat) (qc : Client), s.w.clients[q]? = some qc →
          s'.w.clients[q]? = some (notify_cell K N wd hd L q qc)) ∧
        grab_free_ext s.w s'.w ∧
        (∀ t, s'.ctitledock = some t →
          ∃ tc, s'.w.clients[t]? = some tc ∧ is_titledock K tc = true)
  | [], s, _, _, hJ => by
    refine ⟨s, rfl, rfl, rfl, ?_, grab_free_ext_refl _, hJ⟩
    intro q qc hq
    simp [notify_cell, hq]
  | p :: L2, s, hnd, hv, hJ => by
    have hp2 : p ∉ L2 := (List.nodup_cons.mp hnd).1
    have hplt : p < s.w.clients.length := hv p (by simp)
    obtain ⟨pc, hpc⟩ : ∃ pc, s.w.clients[p]? = some pc :=
      ⟨s.w.clients[p], List.getElem?_eq_getElem hplt⟩
    obtain ⟨s1, hstep, hfr1, hbl1, hoth1, hcell1, hg1, hJ1⟩ :=
      notify_step_spec K N wd hd s p pc hpc hJ
    have hlen : s1.w.clients.length = s.w.clients.length := by
      have e := congrArg List.length hbl1
      simpa using e
    obtain ⟨s', hpass, hfr, hbl, hcell, hg, hJ'⟩ := notify_pass_spec K N wd hd L2 s1
      (List.nodup_cons.mp hnd).2
      (by intro q hq; rw [hlen]; exact hv q (List.mem_cons_of_mem _ hq)) hJ1
    refine ⟨s', ?_, hfr.trans hfr1, hbl.trans hbl1, ?_, grab_free_ext_trans hg1 hg, hJ'⟩
    · simp only [notify_pass, hstep]
      exact hpass
    · intro q qc hq
      by_cases hqp : q = p
      · subst hqp
        rw [hpc] at hq
        cases hq
        rw [hcell q _ hcell1]
        simp only [notify_cell, List.mem_cons, true_or, if_true]
        rw [if_neg hp2]
      · rw [hcell q qc (by rw [hoth1 q hqp]; exact hq)]
        simp only [notify_cell, List.mem_cons, hqp, false_or]

theorem activate_by_type_top {K : Defs} {w w' : Wm} {c : ClientPtr} {cl : Client}
    (h : activate_by_type K w c cl = some w') :
    w'.stack_top_app = w.stack_top_app ∨ w'.stack_top_app = some c := by
  unfold activate_by_type hide_titlebar_panel activate_dialog activate_panel at h
  simp only [raise_panels_eq, raise_transients_eq] at h
  repeat' split at h
  all_goals first
    | (cases h; done)
    | (simp only [Option.some.injEq] at h; subst h; simp)

theorem wm_activate_client_top {K : Defs} {w w' : Wm} {c : ClientPtr} {cl : Client}
    (hcl : w.client? c = some cl) (h : wm_activate_client K w (some c) = some w') :
    w'.stack_top_app = w.stack_top_app ∨ w'.stack_top_app = some c := by
  rw [wm_activate_client_eq K w c cl hcl] at h
  cases h2 : activate_by_type K (w.logs [Call.XGrabServer, Call.show c]) c cl with
  | none => rw [h2] at h; cases h
  | some w2 =>
    rw [h2] at h
    simp only [Option.map_some', Option.some.injEq] at h
    subst h
    have h3 : w2.stack_top_app = (w.logs [Call.XGrabServer, Call.show c]).stack_top_app ∨
        w2.stack_top_app = some c := activate_by_type_top h2
    exact h3

theorem notify_last_spec (K : Defs) (N : ConfigEnv) (s : NotifyState)
    (hJ : ∀ t, s.ctitledock = some t →
      ∃ tc, s.w.clients[t]? = some tc ∧ is_titledock K tc = true) :
    ∃ w2, notify_last N s = some w2 ∧ w2.erase_layout = s.w.erase_layout ∧
      w2.clients.map Client.geom_blank = s.w.clients.map Client.geom_blank ∧
      (∀ (q : Nat) (qc : Client), s.w.clients[q]? = some qc →
        ∃ qc', w2.clients[q]? = some qc' ∧ (is_titledock K qc = false → qc' = qc)) ∧
      grab_free_ext s.w w2 := by
  unfold notify_last
  have hw1 : ∀ w1 : Wm, w1 = (match s.cdesktop with
      | some d => s.w.logs [Call.move_resize d, Call.client_deliver_config d]
      | none => s.w) →
      w1.erase_layout = s.w.erase_layout ∧ w1.clients = s.w.clients ∧ grab_free_ext s.w w1 := by
    intro w1 h
    subst h
    cases s.cdesktop with
    | none => exact ⟨rfl, rfl, grab_free_ext_refl _⟩
    | some d => exact ⟨rfl, rfl, ⟨_, rfl, by simp [grab_calls_cons, is_grab]⟩⟩
  obtain ⟨hfr1, hcl1, hg1⟩ := hw1 _ rfl
  generalize (match s.cdesktop with
      | some d => s.w.logs [Call.move_resize d, Call.client_deliver_config d]
      | none => s.w) = w1 at hfr1 hcl1 hg1
  simp only
  cases htd : s.ctitledock with
  | none =>
    simp only
    refine ⟨w1, rfl, hfr1, by rw [hcl1], ?_, hg1⟩
    intro q qc hq
    exact ⟨qc, by rw [hcl1]; exact hq, fun _ => rfl⟩
  | some t =>
    simp only
    obtain ⟨tc, htc, htd'⟩ := hJ t htd
    have htc1 : w1.clients[t]? = some tc := by rw [hcl1]; exact htc
    have htc1' : w1.client? t = some tc := htc1
    rw [htc1']
    simp only
    refine ⟨_, rfl, hfr1, ?_, ?_, ?_⟩
    · simp only [logs_clients, set_clients_clients]
      rw [map_blank_set _ htc1, hcl1]
    · intro q qc hq
      by_cases hqt : q = t
      · subst hqt
        rw [htc] at hq
        cases hq
        refine ⟨tc.set_geom (N.dockbar_client_configure q tc), ?_, fun h => ?_⟩
        · simp only [logs_clients, set_clients_clients]
          exact getElem?_set_self_of_some htc1
        · rw [htd'] at h
          cases h
      · refine ⟨qc, ?_, fun _ => rfl⟩
        simp only [logs_clients, set_clients_clients]
        rw [List.getElem?_set_ne (fun e => hqt e.symm), hcl1]
        exact hq
    · obtain ⟨es1, hc1, hgr1⟩ := hg1
      refine ⟨es1 ++ [Call.more (MoreCall.dockbar_client_configure t), Call.move_resize t,
        Call.client_deliver_config t], ?_, by simp [hgr1, grab_calls_cons, is_grab]⟩
      simp [hc1, List.append_assoc]

theorem erase_layout_fields {a b : Wm} (h : a.erase_layout = b.erase_layout) :
    a.head_client = b.head_client ∧ a.have_titlebar_panel = b.have_titlebar_panel ∧
    a.stack_top_app = b.stack_top_app ∧ a.client_desktop = b.client_desktop ∧
    a.flags = b.flags ∧ a.root = b.root ∧ a.dpy_width = b.dpy_width ∧
    a.dpy_height = b.dpy_height := by
  refine ⟨?_, ?_, ?_, ?_, ?_, ?_, ?_, ?_⟩
  · have e := congrArg Wm.head_client h; exact e
  · have e := congrArg Wm.have_titlebar_panel h; exact e
  · have e := congrArg Wm.stack_top_app h; exact e
  · have e := congrArg Wm.client_desktop h; exact e
  · have e := congrArg Wm.flags h; exact e
  · have e := congrArg Wm.root h; exact e
  · have e := congrArg Wm.dpy_width h; exact e
  · have e := congrArg Wm.dpy_height h; exact e

theorem erase_fields {a b : Wm} (h : a.erase = b.erase) :
    a.clients = b.clients ∧ a.head_client = b.head_client ∧
    a.have_titlebar_panel = b.have_titlebar_panel ∧ a.client_desktop = b.client_desktop ∧
    a.root = b.root ∧ a.dpy_width = b.dpy_width ∧ a.dpy_height = b.dpy_height := by
  refine ⟨?_, ?_, ?_, ?_, ?_, ?_, ?_⟩
  · have e := congrArg Wm.clients h; exact e
  · have e := congrArg Wm.head_client h; exact e
  · have e := congrArg Wm.have_titlebar_panel h; exact e
  · have e := congrArg Wm.client_desktop h; exact e
  · have e := congrArg Wm.root h; exact e
  · have e := congrArg Wm.dpy_width h; exact e
  · have e := congrArg Wm.dpy_height h; exact e

theorem notify_cell_is_titledock (K : Defs) (N : ConfigEnv) (wd hd : Int)
    (ring : List ClientPtr) (q : ClientPtr) (qc : Client) :
    is_titledock K (notify_cell K N wd hd ring q qc) = is_titledock K qc := by
  unfold notify_cell
  split <;> rfl

/-- The activation at the end of `wm_handle_configure_notify`. -/
theorem activate_visible_spec (K : Defs) (w : Wm)
    (htp : ∀ tp, w.have_titlebar_panel = some tp → tp < w.clients.length)
    (htop : ∀ c, w.stack_top_app = some c → c < w.clients.length)
    (hdesk : ∀ c, w.client_desktop = some c → c < w.clients.length) :
    ∃ w4 es, wm_activate_client K w (wm_get_visible_main_client K w) = some w4 ∧
      w4.erase = w.erase ∧ w4.calls = w.calls ++ es ∧
      (grab_calls es = [] ∨ grab_calls es = [Call.XGrabServer, Call.XUngrabServer]) ∧
      (∀ c, w4.stack_top_app = some c → c < w.clients.length) := by
  cases hv : wm_get_visible_main_client K w with
  | none => exact ⟨w, [], rfl, rfl, by simp, Or.inl rfl, htop⟩
  | some c =>
    have hc : c < w.clients.length := by
      unfold wm_get_visible_main_client wm_get_desktop at hv
      split at hv
      · exact hdesk c hv
      · cases ht : w.stack_top_app with
        | none => rw [ht] at hv; cases hv
        | some a =>
          rw [ht] at hv
          cases hv
          exact htop _ ht
    obtain ⟨cl, hcl⟩ : ∃ cl, w.client? c = some cl :=
      ⟨w.clients[c], List.getElem?_eq_getElem hc⟩
    obtain ⟨w4, es, e4, hfr, hcalls, hgr⟩ := wm_activate_client_grabs K w c cl hcl htp
    refine ⟨w4, Call.XGrabServer :: es ++ [Call.XUngrabServer], e4, hfr, ?_, Or.inr ?_, ?_⟩
    · rw [hcalls]
      simp
    · simp [grab_calls_cons, is_grab, hgr]
    · intro c' h
      rcases wm_activate_client_top hcl e4 with h1 | h1
      · exact htop c' (h1 ▸ h)
      · rw [h1] at h
        cases h
        exact hc

/-- The whole of `wm_handle_configure_notify` for a root notification that
changes the screen size, on a registry ready for the handlers. -/
theorem configure_notify_spec (K : Defs) (N : ConfigEnv) (w : Wm) (e : XConfigureEvent)
    (ring : List ClientPtr) (hr : w.ready ring) (hroot : e.window = w.root)
    (hch : e.width ≠ w.dpy_width ∨ e.height ≠ w.dpy_height) :
    ∃ w', wm_handle_configure_notify K N w e = some w' ∧ w'.ready ring ∧ w'.root = w.root ∧
      w'.dpy_width = e.width ∧ w'.dpy_height = e.height ∧
      (∀ (q : Nat) (qc : Client), w.clients[q]? = some qc →
        ∃ qc', w'.clients[q]? = some qc' ∧
          (is_titledock K qc = false →
            qc' = notify_cell K N (e.width - w.dpy_width) (e.height - w.dpy_height) ring q qc)) ∧
      ∃ es, w'.calls = w.calls ++ es ∧ (w.head_client = none → es = []) ∧
        (w.head_client ≠ none →
          grab_calls es = [Call.XGrabServer, Call.XUngrabServer] ∨
          grab_calls es =
            [Call.XGrabServer, Call.XGrabServer, Call.XUngrabServer, Call.XUngrabServer]) := by
  obtain ⟨hring, htp, htop, hdesk⟩ := hr
  unfold wm_handle_configure_notify
  rw [if_pos hroot, if_pos hch]
  simp only
  by_cases hh : w.head_client = none
  · rw [if_pos hh]
    have hnil : ring = [] := by
      have h2 := hring.2.1
      rw [hh] at h2
      cases ring with
      | nil => rfl
      | cons a t => simp at h2
    refine ⟨_, rfl, ⟨hring, htp, htop, hdesk⟩, rfl, rfl, rfl, ?_, [], by simp, fun _ => rfl,
      fun h => absurd hh h⟩
    intro q qc hq
    exact ⟨qc, hq, fun _ => by simp [notify_cell, hnil]⟩
  · rw [if_neg hh]
    have hring1 : IsRing
        (({ w with dpy_width := e.width, dpy_height := e.height } : Wm).log
          Call.XGrabServer |>.log Call.theme_img_cache_clear).clients
        (({ w with dpy_width := e.width, dpy_height := e.height } : Wm).log
          Call.XGrabServer |>.log Call.theme_img_cache_clear).head_client ring := hring
    rw [stack_enumerate_eq hring1]
    obtain ⟨s', hpass, hfr1, hbl1, hcell1, hg1, hJ1⟩ := notify_pass_spec K N
      (e.width - w.dpy_width) (e.height - w.dpy_height) ring
      { w := (({ w with dpy_width := e.width, dpy_height := e.height } : Wm).log
          Call.XGrabServer).log Call.theme_img_cache_clear, cdesktop := none, ctitledock := none }
      hring.1 hring.valid (by intro t h; cases h)
    rw [hpass]
    simp only
    obtain ⟨w2, hlast, hfr2, hbl2, hcell2, hg2⟩ := notify_last_spec K N s' hJ1
    rw [hlast]
    simp only
    have hbl : w2.clients.map Client.geom_blank = w.clients.map Client.geom_blank :=
      hbl2.trans hbl1
    have hlen : w2.clients.length = w.clients.length := by
      have e1 := congrArg List.length hbl
      simpa using e1
    obtain ⟨f1, f2, f3, f4, f5, f6, f7, f8⟩ := erase_layout_fields (hfr2.trans hfr1)
    obtain ⟨w4, es4, e4, hfr4, hcalls4, hgr4, htop4⟩ := activate_visible_spec K
      (w2.logs [Call.more MoreCall.comp_engine_destroy_root_buffer,
        Call.more MoreCall.comp_engine_render, Call.ewmh_update_rects])
      (by intro tp h; rw [logs_clients, hlen]; exact htp tp (f2 ▸ h))
      (by intro c h; rw [logs_clients, hlen]; exact htop c (f3 ▸ h))
      (by intro c h; rw [logs_clients, hlen]; exact hdesk c (f4 ▸ h))
    rw [e4]
    obtain ⟨g1, g2, g3, g4, g5, g6, g7⟩ := erase_fields hfr4
    have hcl4 : w4.clients = w2.clients := g1
    refine ⟨_, rfl, ⟨?_, ?_, ?_, ?_⟩, ?_, ?_, ?_, ?_, ?_⟩
    · refine ⟨hring.1, ?_, ?_⟩
      · show w4.head_client = _
        rw [g2]
        exact f1.trans hring.2.1
      · show List.Chain' (link w4.clients) _
        rw [hcl4, link_of_blank hbl]
        exact hring.2.2
    · intro tp h
      show tp < w4.clients.length
      rw [hcl4, hlen]
      have h' : w4.have_titlebar_panel = some tp := h
      rw [g3] at h'
      exact htp tp (f2 ▸ h')
    · intro c h
      show c < w4.clients.length
      rw [hcl4, hlen]
      have := htop4 c h
      rw [logs_clients, hlen] at this
      exact this
    · intro c h
      show c < w4.clients.length
      rw [hcl4, hlen]
      have h' : w4.client_desktop = some c := h
      rw [g4] at h'
      exact hdesk c (f4 ▸ h')
    · show w4.root = _
      rw [g5]
      exact f6
    · show w4.dpy_width = _
      rw [g6]
      exact f7
    · show w4.dpy_height = _
      rw [g7]
      exact f8
    · intro q qc hq
      have h1 := hcell1 q qc hq
      obtain ⟨qc', h2, h3⟩ := hcell2 q _ h1
      refine ⟨qc', ?_, ?_⟩
      · show w4.clients[q]? = _
        rw [hcl4]
        exact h2
      · intro htd
        exact h3 (by rw [notify_cell_is_titledock]; exact htd)
    · obtain ⟨es1, hc1, hgr1⟩ := hg1
      obtain ⟨es2, hc2, hgr2⟩ := hg2
      refine ⟨Call.XGrabServer :: ([Call.theme_img_cache_clear] ++ es1 ++ es2 ++
        [Call.more MoreCall.comp_engine_destroy_root_buffer,
          Call.more MoreCall.comp_engine_render, Call.ewmh_update_rects] ++ es4 ++
        [Call.XSync]) ++ [Call.XUngrabServer], ?_, fun h => absurd h hh, fun _ => ?_⟩
      · simp only [log_calls, hcalls4, logs_calls, hc2, hc1]
        simp [List.append_assoc]
      · rcases hgr4 with h | h
        · exact Or.inl (by simp [grab_calls_cons, is_grab, hgr1, hgr2, h])
        · exact Or.inr (by simp [grab_calls_cons, is_grab, hgr1, hgr2, h])

theorem resized_not_titledock (K : Defs) (pc : Client) (h : resized_linearly K pc = true) :
    is_titledock K pc = false := by
  unfold resized_linearly at h
  unfold is_titledock
  simp only [decide_eq_true_eq] at h
  simp only [decide_eq_false_iff_not]
  rintro ⟨ht, h1, h2, h3, h4, _⟩
  rcases h with h | h | h | ⟨_, h | h | h | h⟩
  · rw [ht] at h; cases h
  · rw [ht] at h; cases h
  · rw [ht] at h; cases h
  · exact h h1
  · exact h h2
  · exact h h3
  · exact h h4

theorem notify_geom_inverse (K : Defs) (N : ConfigEnv) (wd hd : Int) (q : ClientPtr)
    (qc : Client) (h : resized_linearly K qc = true) :
    (qc.set_geom (notify_geom K N wd hd q qc)).set_geom
      (notify_geom K N (-wd) (-hd) q (qc.set_geom (notify_geom K N wd hd q qc))) = qc := by
  obtain ⟨type, window, frame, title_frame, x, y, width, height, flags, mapped, want_shadow,
    trans, next, prev, startup_id, ignore_unmap⟩ := qc
  unfold resized_linearly at h
  simp only [decide_eq_true_eq] at h
  rcases h with h | h | h | ⟨h, hf⟩
  · subst h
    simp [notify_geom, Client.set_geom, Client.geom]
  · subst h
    simp [notify_geom, Client.set_geom, Client.geom]
  · subst h
    simp [notify_geom, Client.set_geom, Client.geom]
  · subst h
    simp only [notify_geom, Client.set_geom, Client.geom]
    by_cases h1 : flags &&& K.CLIENT_DOCK_WEST ≠ 0
    · simp [h1]
    · by_cases h2 : flags &&& K.CLIENT_DOCK_EAST ≠ 0
      · simp [h1, h2]
      · by_cases h3 : flags &&& K.CLIENT_DOCK_SOUTH ≠ 0
        · simp [h1, h2, h3]
        · by_cases h4 : flags &&& K.CLIENT_DOCK_NORTH ≠ 0
          · simp [h1, h2, h3, h4]
          · rcases hf with hf | hf | hf | hf
            · exact absurd hf h1
            · exact absurd hf h2
            · exact absurd hf h3
            · exact absurd hf h4

/-- C28: a root configure notification that changes the screen size followed
by one that restores it restores the stored `x`, `y`, `width` and `height`
(the whole record) of every Application, Toolbar, Desktop and edge-docked
Panel, and the recorded screen size; a notification for another window, or for
the root with the recorded size, changes nothing. -/
theorem wm_handle_configure_notify_roundtrip (K : Defs) (N : ConfigEnv) (w : Wm)
    (ring : List ClientPtr) (e1 e2 : XConfigureEvent) (hr : w.ready ring)
    (h1 : e1.window = w.root) (h2 : e2.window = w.root)
    (hback : e2.width = w.dpy_width ∧ e2.height = w.dpy_height) :
    (∃ w1 w2, wm_handle_configure_notify K N w e1 = some w1 ∧
      wm_handle_configure_notify K N w1 e2 = some w2 ∧
      w1.dpy_width = e1.width ∧ w1.dpy_height = e1.height ∧
      w2.dpy_width = w.dpy_width ∧ w2.dpy_height = w.dpy_height ∧
      ∀ (q : ClientPtr) (qc : Client), w.client? q = some qc → resized_linearly K qc = true →
        w2.client? q = some qc) ∧
    (∀ e : XConfigureEvent,
      e.window ≠ w.root ∨ (e.width = w.dpy_width ∧ e.height = w.dpy_height) →
      wm_handle_configure_notify K N w e = some w) := by
  have hnoop : ∀ (v : Wm) (e : XConfigureEvent),
      e.window ≠ v.root ∨ (e.width = v.dpy_width ∧ e.height = v.dpy_height) →
      wm_handle_configure_notify K N v e = some v := by
    intro v e h
    unfold wm_handle_configure_notify
    rcases h with h | h
    · rw [if_neg h]
    · split
      · rw [if_neg (by simp [h.1, h.2])]
      · rfl
  refine ⟨?_, hnoop w⟩
  by_cases hch : e1.width ≠ w.dpy_width ∨ e1.height ≠ w.dpy_height
  · obtain ⟨w1, e1', hr1, hroot1, hw1, hh1, hcell1, _⟩ :=
      configure_notify_spec K N w e1 ring hr h1 hch
    have hch2 : e2.width ≠ w1.dpy_width ∨ e2.height ≠ w1.dpy_height := by
      rw [hw1, hh1, hback.1, hback.2]
      rcases hch with h | h
      · exact Or.inl (fun e => h e.symm)
      · exact Or.inr (fun e => h e.symm)
    obtain ⟨w2, e2', _, _, hw2, hh2, hcell2, _⟩ :=
      configure_notify_spec K N w1 e2 ring hr1 (h2.trans hroot1.symm) hch2
    refine ⟨w1, w2, e1', e2', hw1, hh1, hw2.trans hback.1, hh2.trans hback.2, ?_⟩
    intro q qc hq hres
    obtain ⟨qc1, hq1, hqc1⟩ := hcell1 q qc hq
    have hqc1' := hqc1 (resized_not_titledock K qc hres)
    obtain ⟨qc2, hq2, hqc2⟩ := hcell2 q qc1 hq1
    have htd1 : is_titledock K qc1 = false := by
      rw [hqc1', notify_cell_is_titledock]
      exact resized_not_titledock K qc hres
    have hqc2' := hqc2 htd1
    show w2.clients[q]? = some qc
    rw [hq2, hqc2', hqc1']
    have ed1 : e2.width - w1.dpy_width = -(e1.width - w.dpy_width) := by
      rw [hw1, hback.1]
      omega
    have ed2 : e2.height - w1.dpy_height = -(e1.height - w.dpy_height) := by
      rw [hh1, hback.2]
      omega
    rw [ed1, ed2]
    unfold notify_cell
    by_cases hmem : q ∈ ring
    · simp only [hmem, if_true]
      rw [notify_geom_inverse K N _ _ q qc hres]
    · simp only [hmem, if_false]
  · have hsame : e1.width = w.dpy_width ∧ e1.height = w.dpy_height := by
      constructor
      · by_contra h
        exact hch (Or.inl h)
      · by_contra h
        exact hch (Or.inr h)
    have e1' := hnoop w e1 (Or.inr hsame)
    have e2' := hnoop w e2 (Or.inr hback)
    exact ⟨w, w, e1', e2', hsame.1.symm, hsame.2.symm, rfl, rfl, fun q qc hq _ => hq⟩

theorem sample_wm_screen_ready : sample_wm_screen.ready [0, 1, 2, 3] := by
  refine ⟨sample_wm_south_ring, ?_, ?_, ?_⟩
  · intro tp h
    simp [sample_wm_screen, sample_wm_south] at h
  · intro c h
    simp [sample_wm_screen, sample_wm_south] at h
  · intro c h
    simp [sample_wm_screen, sample_wm_south] at h

/-- Witness for C28: the sample screen of 240 by 320 is rotated to 320 by 240
and back; the Toolbar at address 1 has its record again. -/
theorem wm_handle_configure_notify_roundtrip_witness :
    ∃ w1 w2, wm_handle_configure_notify sample_defs sample_config_env sample_wm_screen
        { window := 1, width := 320, height := 240 } = some w1 ∧
      wm_handle_configure_notify sample_defs sample_config_env w1
        { window := 1, width := 240, height := 320 } = some w2 ∧
      w2.client? 1 = sample_wm_screen.client? 1 := by
  obtain ⟨w1, w2, e1, e2, _, _, _, _, h⟩ :=
    (wm_handle_configure_notify_roundtrip sample_defs sample_config_env sample_wm_screen
      [0, 1, 2, 3] { window := 1, width := 320, height := 240 }
      { window := 1, width := 240, height := 320 } sample_wm_screen_ready rfl rfl ⟨rfl, rfl⟩).1
  exact ⟨w1, w2, e1, e2, h 1 _ rfl (by decide)⟩

/-! ## Theorems: the server grab is released -/

theorem layout_effect_nograb (E : LayoutEnv) (K : Defs) (w : Wm) (r : ClientPtr) (rc : Client)
    (D : Int) (p : ClientPtr) (pc : Client) :
    grab_calls (match layout_effect E K w r rc D p pc with
      | none => []
      | some ge => ge.2) = [] := by
  cases h : layout_effect E K w r rc D p pc with
  | none => rfl
  | some ge =>
    simp only
    unfold layout_effect layout_titlebar at h
    repeat' split at h
    all_goals first
      | (cases h; done)
      | (simp only [Option.some.injEq] at h; subst h; rfl)

theorem update_layout_step_grabs {E : LayoutEnv} {K : Defs} {r : ClientPtr} {D : Int} {w : Wm}
    {p : ClientPtr} {w1 : Wm} (h : update_layout_step E K r D w p = some w1) :
    grab_free_ext w w1 := by
  cases hrc : w.client? r with
  | none => simp [update_layout_step, hrc] at h
  | some rc =>
    cases hpc : w.client? p with
    | none => simp [update_layout_step, hrc, hpc] at h
    | some pc =>
      obtain ⟨w2, e, _, _, _, _, hcalls⟩ := update_layout_step_spec E K r D w p rc pc hrc hpc
      rw [h] at e
      cases e
      exact ⟨_, hcalls, layout_effect_nograb E K w r rc D p pc⟩

theorem update_layout_loop_grabs (E : LayoutEnv) (K : Defs) (r : ClientPtr) (D : Int) :
    ∀ (fuel : Nat) (w : Wm) (p : ClientPtr) (w' : Wm),
      update_layout_loop E K r D fuel w p = some w' → grab_free_ext w w'
  | 0, _, _, _, h => by simp [update_layout_loop] at h
  | fuel + 1, w, p, w', h => by
    unfold update_layout_loop at h
    split at h
    · cases h
      exact grab_free_ext_refl _
    · split at h
      · cases h
      · rename_i w1 hs
        split at h
        · cases h
        · exact grab_free_ext_trans (update_layout_step_grabs hs)
            (update_layout_loop_grabs E K r D fuel _ _ _ h)

theorem dialog_calls_all_grabs (E : LayoutEnv) (w : Wm) :
    ∀ l : List ClientPtr, grab_calls (dialog_calls_all E w l) = []
  | [] => rfl
  | p :: ps => by
    have hp : grab_calls (dialog_calls E w p) = [] := by
      unfold dialog_calls
      split
      · rfl
      · split
        · split <;> rfl
        · rfl
    simp only [dialog_calls_all, grab_calls_append, dialog_calls_all_grabs E w ps, hp,
      List.append_nil]

/-- The grab and the ungrab of `wm_update_layout` are the only ones it issues. -/
theorem wm_update_layout_grabs (E : LayoutEnv) (K : Defs) (w : Wm) (r : ClientPtr) (D : Int)
    (ring : List ClientPtr) (rc : Client)
    (hring : IsRing w.clients w.head_client ring) (hr : r ∈ ring)
    (hrc : w.client? r = some rc) :
    ∃ w' es, wm_update_layout E K w r D = some w' ∧ w'.calls = w.calls ++ es ∧
      grab_calls es = [Call.XGrabServer, Call.XUngrabServer] := by
  obtain ⟨w1, w', hbulk, hrun, _, hcalls, _⟩ := wm_update_layout_total E K w r D ring rc hring hr hrc
  have h1 : grab_free_ext (w.log Call.XGrabServer) w1 := by
    unfold update_layout_bulk at hbulk
    split at hbulk
    · cases hbulk
    · exact update_layout_loop_grabs E K r D _ _ _ _ hbulk
  obtain ⟨es1, hc1, hg1⟩ := h1
  refine ⟨w', [Call.XGrabServer] ++ es1 ++ dialog_calls_all E w1 ring ++
    [Call.XSync, Call.XUngrabServer, Call.ewmh_update_rects], hrun, ?_, ?_⟩
  · rw [hcalls, hc1]
    simp [Wm.log, List.append_assoc]
  · simp [hg1, dialog_calls_all_grabs, grab_calls_cons, is_grab]

theorem wm_remove_client_calls (w : Wm) (c : ClientPtr) :
    (wm_remove_client w c).calls =
      w.calls ++ [Call.XGrabServer, Call.destroy c, Call.XUngrabServer] := by
  simp [wm_remove_client, Wm.log, List.append_assoc]

/-- The grabs of `wm_handle_unmap_event`. -/
theorem wm_handle_unmap_event_grabs (w : Wm) (ring : List ClientPtr)
    (hring : IsRing w.clients w.head_client ring) (window : Window) (destroy_ev : Option Window) :
    ∃ w' es, wm_handle_unmap_event w window destroy_ev = some w' ∧ w'.calls = w.calls ++ es ∧
      if unmap_reaches_grab w window = true then
        grab_calls es = [Call.XGrabServer, Call.XUngrabServer] ∨
        grab_calls es =
          [Call.XGrabServer, Call.XGrabServer, Call.XUngrabServer, Call.XUngrabServer]
      else es = [] := by
  unfold wm_handle_unmap_event unmap_reaches_grab
  cases hf : wm_find_client w window WINDOW with
  | none => exact ⟨w, [], rfl, by simp, by simp⟩
  | some c =>
    have hc : c < w.clients.length := hring.valid c (wm_find_client_mem hring hf)
    have hcl : w.client? c = some w.clients[c] := List.getElem?_eq_getElem hc
    simp only [hcl]
    by_cases hi : w.clients[c].ignore_unmap ≠ 0
    · rw [if_pos hi]
      refine ⟨_, [], rfl, by simp, ?_⟩
      simp [hi]
    · rw [if_neg hi]
      have hi0 : w.clients[c].ignore_unmap = 0 := by
        by_contra h
        exact hi h
      by_cases hmp : w.clients[c].mapped = false
      · rw [if_pos hmp]
        exact ⟨w, [], rfl, by simp, by simp [hmp]⟩
      · rw [if_neg hmp]
        have hm1 : w.clients[c].mapped = true := by
          cases h : w.clients[c].mapped
          · exact absurd h hmp
          · rfl
        cases destroy_ev with
        | none =>
          refine ⟨_, [Call.XGrabServer, Call.more (MoreCall.XUnmapWindow w.clients[c].frame),
            Call.XSync, Call.more (MoreCall.client_set_state_withdrawn c), Call.destroy c,
            Call.more (MoreCall.XReparentWindow w.clients[c].window 0 0),
            Call.more (MoreCall.XUnmapWindow w.clients[c].window), Call.XUngrabServer],
            rfl, ?_, ?_⟩
          · simp [Wm.log, Wm.logs, List.append_assoc]
          · simp [hi0, hm1, grab_calls_cons, is_grab]
        | some dw =>
          simp only [wm_handle_destroy_event]
          cases hd : wm_find_client (w.logs [Call.XGrabServer,
              Call.more (MoreCall.XUnmapWindow w.clients[c].frame), Call.XSync]) dw WINDOW with
          | none =>
            refine ⟨_, [Call.XGrabServer, Call.more (MoreCall.XUnmapWindow w.clients[c].frame),
              Call.XSync, Call.XUngrabServer], rfl, ?_, ?_⟩
            · simp [Wm.log, Wm.logs, List.append_assoc]
            · simp [hi0, hm1, grab_calls_cons, is_grab]
          | some c2 =>
            refine ⟨_, [Call.XGrabServer, Call.more (MoreCall.XUnmapWindow w.clients[c].frame),
              Call.XSync, Call.XGrabServer, Call.destroy c2, Call.XUngrabServer,
              Call.XUngrabServer], rfl, ?_, ?_⟩
            · simp [wm_remove_client, Wm.log, Wm.logs, List.append_assoc]
            · simp [hi0, hm1, grab_calls_cons, is_grab]

theorem sn_publish_calls_grabs (l : List SnCycle) :
    grab_calls (sn_publish_calls l) =
      if l = [] then [] else [Call.XGrabServer, Call.XUngrabServer] := by
  unfold sn_publish_calls
  by_cases h : l = []
  · subst h
    simp [grab_calls_cons, is_grab, sn_prop_removed, launching]
  · simp only [h, if_false, grab_calls_append]
    split <;> simp [grab_calls_cons, is_grab]

/-- C23: on a registry ready for the handlers, each of the seven operations
that grab the server returns, and the grab and ungrab requests it adds to the
log are balanced.  `wm_make_new_client` adds one pair on the exits that return
`NULL` (constructor failure, queued message window) and two nested pairs (its
own around that of `wm_activate_client`) when it returns a client;
`wm_activate_client` adds nothing for `NULL` and one pair otherwise;
`wm_update_layout` and `wm_remove_client` add one pair;
`wm_handle_unmap_event` and `wm_handle_configure_notify` add no request at all
on the paths that return before the grab and one pair, or two nested pairs,
on the others; `wm_sn_cycle_update_root_prop` adds no grab for an empty
cycle list and one pair otherwise. -/
theorem server_grab_released (E : LayoutEnv) (K : Defs) (info : WinInfo) (N : ConfigEnv)
    (w : Wm) (ring : List ClientPtr) (hr : w.ready ring)
    (hm : ∀ m, w.main_client = some m → m ∈ ring) :
    (∀ win, ∃ w' c es, wm_make_new_client K info w win = some (w', c) ∧
      w'.calls = w.calls ++ es ∧
      grab_calls es = if c = none then [Call.XGrabServer, Call.XUngrabServer]
        else [Call.XGrabServer, Call.XGrabServer, Call.XUngrabServer, Call.XUngrabServer]) ∧
    (wm_activate_client K w none = some w ∧
      ∀ c cl, w.client? c = some cl →
        ∃ w' es, wm_activate_client K w (some c) = some w' ∧ w'.calls = w.calls ++ es ∧
          grab_calls es = [Call.XGrabServer, Call.XUngrabServer]) ∧
    (∀ r ∈ ring, ∀ D, ∃ w' es, wm_update_layout E K w r D = some w' ∧
      w'.calls = w.calls ++ es ∧ grab_calls es = [Call.XGrabServer, Call.XUngrabServer]) ∧
    (∀ c, ∃ es, (wm_remove_client w c).calls = w.calls ++ es ∧
      grab_calls es = [Call.XGrabServer, Call.XUngrabServer]) ∧
    (∀ window destroy_ev, ∃ w' es, wm_handle_unmap_event w window destroy_ev = some w' ∧
      w'.calls = w.calls ++ es ∧
      if unmap_reaches_grab w window = true then
        grab_calls es = [Call.XGrabServer, Call.XUngrabServer] ∨
        grab_calls es =
          [Call.XGrabServer, Call.XGrabServer, Call.XUngrabServer, Call.XUngrabServer]
      else es = []) ∧
    (∀ e, ∃ w' es, wm_handle_configure_notify K N w e = some w' ∧
      w'.calls = w.calls ++ es ∧
      if notify_reaches_grab w e = true then
        grab_calls es = [Call.XGrabServer, Call.XUngrabServer] ∨
        grab_calls es =
          [Call.XGrabServer, Call.XGrabServer, Call.XUngrabServer, Call.XUngrabServer]
      else es = []) ∧
    (∃ es, (wm_sn_cycle_update_root_prop w).calls = w.calls ++ es ∧
      grab_calls es = if w.sn_cycles = [] then []
        else [Call.XGrabServer, Call.XUngrabServer]) := by
  obtain ⟨hring, htp, htop, hdesk⟩ := hr
  refine ⟨?_, ⟨rfl, ?_⟩, ?_, ?_, ?_, ?_, ?_⟩
  · intro win
    obtain ⟨w', c, es, e, hcalls, hgr⟩ := wm_make_new_client_total K info w win ring ⟨hring, hm⟩ htp
    refine ⟨w', c, Call.XGrabServer :: es, e, hcalls, ?_⟩
    rcases hgr with ⟨h1, h2⟩ | ⟨h1, h2⟩
    · simp [h1, h2, grab_calls_cons, is_grab]
    · simp [h1, h2, grab_calls_cons, is_grab]
  · intro c cl hcl
    obtain ⟨w', es, e, _, hcalls, hgr⟩ := wm_activate_client_grabs K w c cl hcl htp
    refine ⟨w', Call.XGrabServer :: es ++ [Call.XUngrabServer], e, ?_, ?_⟩
    · rw [hcalls]
      simp [List.append_assoc]
    · simp [hgr, grab_calls_cons, is_grab]
  · intro r hrm D
    have hlt : r < w.clients.length := hring.valid r hrm
    exact wm_update_layout_grabs E K w r D ring w.clients[r] hring hrm
      (List.getElem?_eq_getElem hlt)
  · intro c
    exact ⟨_, wm_remove_client_calls w c, by simp [grab_calls_cons, is_grab]⟩
  · intro window destroy_ev
    exact wm_handle_unmap_event_grabs w ring hring window destroy_ev
  · intro e
    by_cases hroot : e.window = w.root
    · by_cases hch : e.width ≠ w.dpy_width ∨ e.height ≠ w.dpy_height
      · obtain ⟨w', e', _, _, _, _, _, es, hcalls, hnil, hgr⟩ :=
          configure_notify_spec K N w e ring ⟨hring, htp, htop, hdesk⟩ hroot hch
        refine ⟨w', es, e', hcalls, ?_⟩
        by_cases hh : w.head_client = none
        · rw [if_neg (by simp [notify_reaches_grab, hh])]
          exact hnil hh
        · rw [if_pos (by simp only [notify_reaches_grab, decide_eq_true_eq]; exact ⟨hroot, hch, hh⟩)]
          exact hgr hh
      · refine ⟨w, [], ?_, by simp, ?_⟩
        · unfold wm_handle_configure_notify
          rw [if_pos hroot, if_neg hch]
        · rw [if_neg (by simp only [notify_reaches_grab, decide_eq_true_eq]; exact fun h => hch h.2.1)]
    · refine ⟨w, [], ?_, by simp, ?_⟩
      · unfold wm_handle_configure_notify
        rw [if_neg hroot]
      · rw [if_neg (by simp only [notify_reaches_grab, decide_eq_true_eq]; exact fun h => hroot h.1)]
  · exact ⟨_, update_root_prop_calls w, sn_publish_calls_grabs w.sn_cycles⟩

/-- Witness for C23: on the sample screen, unmapping the mapped Application
window 10 with no destroy notification pending goes through the grab and
leaves exactly one grab followed by one ungrab in the log, and unmapping the
unknown window 99 adds no request. -/
theorem server_grab_released_witness :
    (∃ w' es, wm_handle_unmap_event sample_wm_screen 10 none = some w' ∧
      w'.calls = sample_wm_screen.calls ++ es ∧
      (grab_calls es = [Call.XGrabServer, Call.XUngrabServer] ∨
        grab_calls es =
          [Call.XGrabServer, Call.XGrabServer, Call.XUngrabServer, Call.XUngrabServer])) ∧
    (∃ w' es, wm_handle_unmap_event sample_wm_screen 99 none = some w' ∧
      w'.calls = sample_wm_screen.calls ++ es ∧ es = []) := by
  have h := (server_grab_released sample_env sample_defs sample_info sample_config_env
    sample_wm_screen [0, 1, 2, 3] sample_wm_screen_ready
    (by intro m h; simp [sample_wm_screen, sample_wm_south] at h; subst h; decide)).2.2.2.2.1
  constructor
  · obtain ⟨w', es, e, hc, hg⟩ := h 10 none
    rw [if_pos (by decide)] at hg
    exact ⟨w', es, e, hc, hg⟩
  · obtain ⟨w', es, e, hc, hg⟩ := h 99 none
    rw [if_neg (by decide)] at hg
    exact ⟨w', es, e, hc, hg⟩

end Matchbox
